import Mathlib

/-!
# Micro-Wars trigger-graph compiler: verification of spec claims

This file gives a shallow embedding of the Micro Wars scenario compiler
(`src/event.py`, `src/util_units.py`, `src/build_scenario.py`) and settles
the frozen claims C1..C10 about it.

Modelling conventions, used throughout:

* Python `float` unit coordinates are modelled as `ℚ`; the template data
  stores small integral coordinates, and the arithmetic performed on them
  (sums, averages, truncation) is exact on `ℚ`.  Python `int(x)` truncates
  toward zero and is modelled by `pyInt`.
* A unit's facing angle (`rotation`) is not modelled: no claim inspects it,
  and the angle flip `util.flip_angle_h` is irrational-valued.  Unit records
  keep the fields the claims read: the AoE2 unit constant (`unit_id`), the
  catalog name `units.unit_names[unit_id]` (carried directly on the record),
  and the position.
* Python exceptions are modelled by `Except` with structured error values,
  one constructor per distinct `raise` site that the claims can reach.
* Python dicts keyed by strings are modelled by association lists in
  insertion order; Python sets are modelled by lists in insertion order
  (set iteration order is unspecified in Python; no settled claim depends
  on the iteration order of a set, and the one place where the spec claims
  an ordering that sets cannot provide is refuted by an order difference
  that holds for every set iteration order).
-/

namespace MicroWars

attribute [local semireducible] Rat.inv Rat.mul Rat.add Rat.sub

/-- Decidable equality for `Except`, used to evaluate concrete runs. -/
instance {ε α : Type} [DecidableEq ε] [DecidableEq α] :
    DecidableEq (Except ε α) := fun x y =>
  match x, y with
  | .ok a, .ok b =>
    if h : a = b then .isTrue (by rw [h])
    else .isFalse (by intro hh; injection hh; exact h (by assumption))
  | .error a, .error b =>
    if h : a = b then .isTrue (by rw [h])
    else .isFalse (by intro hh; injection hh; exact h (by assumption))
  | .ok _, .error _ => .isFalse (by intro hh; injection hh)
  | .error _, .ok _ => .isFalse (by intro hh; injection hh)

/-! ## Part A: `event.py` (units, FightData, Fight, make_fights) -/

/-- A scenario unit, as read from the unit template
(`AoE2ScenarioParser` `UnitStruct`).  `unitId` is the AoE2 unit constant,
`uname` the catalog name `units.unit_names[unitId]`. -/
structure EUnit where
  unitId : Nat
  uname : String
  x : ℚ
  y : ℚ
deriving DecidableEq, Repr

/-- Python `int(q)` for our rationals: truncation toward zero. -/
def pyInt (q : ℚ) : Int :=
  if q < 0 then -((-q).floor) else q.floor

/-- `event.MAX_POINTS`: the maximum number of points a fight is worth. -/
def MAX_POINTS : Int := 100

/-- `event.TILE_WIDTH`. -/
def TILE_WIDTH : Nat := 20

/-- `event.FIGHT_GRID_LENGTH`. -/
def FIGHT_GRID_LENGTH : Nat := 6

/-- `event.get_start_tile`: `y, x = divmod(index, FIGHT_GRID_LENGTH)`,
returns `(x * TILE_WIDTH, y * TILE_WIDTH)`. -/
def getStartTile (index : Nat) : Nat × Nat :=
  let y := index / FIGHT_GRID_LENGTH
  let x := index % FIGHT_GRID_LENGTH
  (x * TILE_WIDTH, y * TILE_WIDTH)

/-- `util_units.units_in_area`: all units in the closed square with corners
`(x1, y1)` and `(x2, y2)`. -/
def unitsInArea (arr : List EUnit) (x1 y1 x2 y2 : ℚ) : List EUnit :=
  arr.filter (fun u => x1 ≤ u.x ∧ u.x ≤ x2 ∧ y1 ≤ u.y ∧ u.y ≤ y2)

/-- `util_units.avg_pos`.  The Python function raises on an empty list; it is
only applied to nonempty lists in `make_fights`, and on the empty list this
model returns `(0, 0)` (division by zero in `ℚ` yields `0`). -/
def avgPos (l : List EUnit) : ℚ × ℚ :=
  let n : ℚ := l.length
  ((l.foldl (fun s u => s + u.x) 0) / n, (l.foldl (fun s u => s + u.y) 0) / n)

/-- `util_units.center_pos`: translate relative to the group average, move to
the new center, apply the offset, truncate to ints. -/
def centerPos (u : EUnit) (avg center : ℚ × ℚ) (offset : Int) : Int × Int :=
  (pyInt (u.x - avg.1 + center.1 + offset), pyInt (u.y - avg.2 + center.2 - offset))

/-- `util_units.center_pos_flipped`: reflect the position relative to the
group average across the horizontal axis (relative x and y swap), then
translate to the center and apply the offset with flipped signs. -/
def centerPosFlipped (u : EUnit) (avg center : ℚ × ℚ) (offset : Int) : Int × Int :=
  let x := u.x - avg.1
  let y := u.y - avg.2
  (pyInt (y + center.1 - offset), pyInt (x + center.2 + offset))

/-- `util_units.center_units` (in-place mutation modelled functionally). -/
def centerUnits (arr : List EUnit) (center : ℚ × ℚ) (offset : Int) : List EUnit :=
  let avg := avgPos arr
  arr.map (fun u =>
    let p := centerPos u avg center offset
    { u with x := (p.1 : ℚ), y := (p.2 : ℚ) })

/-- `util_units.center_units_flip`.  The facing flip (`flip_facing_h`) acts
only on the unmodelled rotation field. -/
def centerUnitsFlip (arr : List EUnit) (center : ℚ × ℚ) (offset : Int) : List EUnit :=
  let avg := avgPos arr
  arr.map (fun u =>
    let p := centerPosFlipped u avg center offset
    { u with x := (p.1 : ℚ), y := (p.2 : ℚ) })

/-- Structured model of the `ValueError`s raised in `event.py`, one
constructor per raise site reached by the claims. -/
inductive EventErr
  | playerHasNoUnits (player : Nat)
  | noPointValue (uname : String)
  | pointLimitExceeded (player : Nat)
  | fightAtTileHasNoUnits (tileIndex : Nat)
  | duplicateTech (tech : String)
deriving DecidableEq, Repr

/-- `event.FightData`: technology list plus the unit-name → point-value
table (a Python dict, modelled as an association list with distinct keys).
The constructor validation (valid tech/unit names, nonnegative values) is
modelled by `fightDataValid` below. -/
structure FightData where
  techs : List String
  points : List (String × Int)
deriving DecidableEq, Repr

/-- The point-value validation performed by `FightData.__init__`: every
point value is nonnegative (the code raises on `point_value < 0`). -/
def fightDataValid (fd : FightData) : Prop :=
  ∀ pr ∈ fd.points, 0 ≤ pr.2

/-- Dict lookup `self.points[name]` preceded by the `name in points` check. -/
def lookupPoints (points : List (String × Int)) (name : String) : Option Int :=
  (points.find? (fun pr => pr.1 = name)).map (fun pr => pr.2)

/-- `event.Fight`: the accepted fight together with the two win bonuses
computed by its constructor. -/
structure FightR where
  techs : List String
  points : List (String × Int)
  p1Units : List EUnit
  p2Units : List EUnit
  p2Bonus : Int
  p1Bonus : Int
deriving DecidableEq, Repr

/-- One of the two bonus-computing loops in `Fight.__init__`: starting from
`MAX_POINTS`, subtract each unit's point value, raising if the value is
missing or if the running bonus drops below zero.  `player` is the owner of
`units` (named in the two error messages). -/
def consumePoints (points : List (String × Int)) (player : Nat) :
    List EUnit → Int → Except EventErr Int
  | [], bonus => .ok bonus
  | u :: rest, bonus =>
    match lookupPoints points u.uname with
    | none => .error (.noPointValue u.uname)
    | some pts =>
      let b := bonus - pts
      if b < 0 then .error (.pointLimitExceeded player)
      else consumePoints points player rest b

/-- `event.Fight.__init__`. -/
def fightInit (fd : FightData) (p1Units p2Units : List EUnit) :
    Except EventErr FightR :=
  if p1Units = [] then .error (.playerHasNoUnits 1)
  else if p2Units = [] then .error (.playerHasNoUnits 2)
  else do
    let p2Bonus ← consumePoints fd.points 1 p1Units MAX_POINTS
    let p1Bonus ← consumePoints fd.points 2 p2Units MAX_POINTS
    .ok ⟨fd.techs, fd.points, p1Units, p2Units, p2Bonus, p1Bonus⟩

/-- The sum of the declared point values of a unit list (missing entries
count 0; the theorems using this also assert every entry is present). -/
def sumPoints (points : List (String × Int)) (units : List EUnit) : Int :=
  (units.map (fun u => (lookupPoints points u.uname).getD 0)).sum

/-- An input event: either fight data or a named minigame
(`event.FightData` / `event.Minigame`). -/
inductive EventInput
  | fightData (fd : FightData)
  | minigame (name : String) (techs : List String)
deriving DecidableEq, Repr

/-- An output event of `make_fights`: a constructed `Fight` or a minigame. -/
inductive MWEvent
  | fight (f : FightR)
  | minigame (name : String)
deriving DecidableEq, Repr

/-- The duplicate-technology check at the end of each fight iteration of
`make_fights`: `for tech in fd.techs: if tech in techs: raise; techs.add`. -/
def checkTechs : List String → List String → Except EventErr (List String)
  | [], seen => .ok seen
  | t :: rest, seen =>
    if t ∈ seen then .error (.duplicateTech t)
    else checkTechs rest (seen ++ [t])

/-- The body of one `FightData` iteration of `event.make_fights` (source
lines 232–257): load both players' units from the fight square, then either
build one mirrored fight (only player 1 has units) or two fights with the
armies swapped and mirrored (both players have units).  The deep copies are
taken before `center_units` mutates the originals, exactly as in the
source. -/
def processFightData (fd : FightData) (p1T p2T : List EUnit)
    (center : ℚ × ℚ) (offset : Int) : Except EventErr (List MWEvent) :=
  if p2T = [] then do
    -- Symmetrical fight where only 1 player has units.
    let p2c := p1T
    let f ← fightInit fd (centerUnits p1T center offset)
      (centerUnitsFlip p2c center offset)
    .ok [.fight f]
  else do
    -- Asymmetrical fight: two rounds, players switching units between fights.
    let p1u2 := p2T
    let p2u2 := p1T
    let f1 ← fightInit fd (centerUnits p1T center offset)
      (centerUnits p2T center (-offset))
    let f2 ← fightInit fd (centerUnitsFlip p1u2 center (-offset))
      (centerUnitsFlip p2u2 center offset)
    .ok [.fight f1, .fight f2]

/-- The units loaded from the fight square of the given fight index:
`units_in_area` applied to the square starting at `get_start_tile`. -/
def tileUnits (allUnits : List EUnit) (fightIndex : Nat) : List EUnit :=
  let p := getStartTile fightIndex
  unitsInArea allUnits (p.1 : ℚ) (p.2 : ℚ)
    ((p.1 + TILE_WIDTH : Nat) : ℚ) ((p.2 + TILE_WIDTH : Nat) : ℚ)

/-- The loop of `event.make_fights`, recursing over the event list while
tracking the next fight tile index and the set of researched technologies.
The mutation of the overall unit rosters by `center_units` is not written
back (it matters only when a centered unit lands inside a later fight's
tile square, which the map geometry precludes). -/
def makeFightsLoop (p1All p2All : List EUnit) (center : ℚ × ℚ) (offset : Int) :
    Nat → List String → List EventInput → Except EventErr (List MWEvent)
  | _, _, [] => .ok []
  | fightIndex, seen, .minigame name _ :: rest => do
    let evs ← makeFightsLoop p1All p2All center offset fightIndex seen rest
    .ok (.minigame name :: evs)
  | fightIndex, seen, .fightData fd :: rest =>
    let p1T := tileUnits p1All fightIndex
    if p1T = [] then .error (.fightAtTileHasNoUnits fightIndex)
    else do
      let p2T := tileUnits p2All fightIndex
      let here ← processFightData fd p1T p2T center offset
      let seen' ← checkTechs fd.techs seen
      let evs ← makeFightsLoop p1All p2All center offset (fightIndex + 1) seen' rest
      .ok (here ++ evs)

/-- `event.make_fights`. -/
def makeFights (p1All p2All : List EUnit) (eventData : List EventInput)
    (center : ℚ × ℚ) (offset : Int) : Except EventErr (List MWEvent) :=
  makeFightsLoop p1All p2All center offset 0 [] eventData

/-! ## Part B: the name registry and edge table of `ScnData` (string level)

`ScnData._add_trigger` keeps a bidirectional map from trigger name to index;
this model keeps the list of registered names in registration order (the
index of a name is its position, `len(self._trigger_ids)` at insertion).
`ScnData._add_activate` / `_add_deactivate` keep, per edge kind, a map from
source name to the set of its target names; this model keeps the list of
declared `(source, target)` pairs of each kind in declaration order. -/

/-- Result of a call on the mutable `ScnData` registry: the registry after
the call, and whether the call raised `ValueError`.  The Python methods
check for the duplicate and raise before mutating, so on a raise the
registry is returned unchanged. -/
structure RegistryCall (α : Type) where
  result : α
  raised : Bool
deriving DecidableEq, Repr

/-- `ScnData._add_trigger` restricted to its effect on `self._trigger_ids`:
raise if the name is registered, else register it with the next index. -/
def addTriggerName (ids : List String) (name : String) : RegistryCall (List String) :=
  if name ∈ ids then ⟨ids, true⟩
  else ⟨ids ++ [name], false⟩

/-- `ScnData._add_activate` on the edge list of the activate kind. -/
def addActivateEdge (edges : List (String × String)) (src tgt : String) :
    RegistryCall (List (String × String)) :=
  if (src, tgt) ∈ edges then ⟨edges, true⟩
  else ⟨edges ++ [(src, tgt)], false⟩

/-- `ScnData._add_deactivate` on the edge list of the deactivate kind.
Its body is identical to `_add_activate`'s but acts on the independent
`_deactivate_triggers` mapping. -/
def addDeactivateEdge (edges : List (String × String)) (src tgt : String) :
    RegistryCall (List (String × String)) :=
  if (src, tgt) ∈ edges then ⟨edges, true⟩
  else ⟨edges ++ [(src, tgt)], false⟩

/-- The two edge tables of `ScnData` together, for stating that the two
kinds are tracked independently. -/
structure EdgeTables where
  activates : List (String × String)
  deactivates : List (String × String)
deriving DecidableEq, Repr

/-- `_add_activate` acting on the pair of tables. -/
def tablesAddActivate (t : EdgeTables) (src tgt : String) : RegistryCall EdgeTables :=
  let c := addActivateEdge t.activates src tgt
  ⟨⟨c.result, t.deactivates⟩, c.raised⟩

/-- `_add_deactivate` acting on the pair of tables. -/
def tablesAddDeactivate (t : EdgeTables) (src tgt : String) : RegistryCall EdgeTables :=
  let c := addDeactivateEdge t.deactivates src tgt
  ⟨⟨t.activates, c.result⟩, c.raised⟩

/-! ## Part C: the trigger-graph compiler of `build_scenario.py`

Triggers, conditions, effects, the activate/deactivate edge tables, and the
final resolution pass are modelled explicitly.  Construction is modelled as
a list of primitive operations (`BOp`), one per `add_trigger` /
`add_condition` / `add_effect` / `_add_activate` / `_add_deactivate` call of
the source, executed in program order by `runOps`.

Trigger names: the source builds names with f-string templates; the
templates are pairwise non-colliding as strings (each has a distinct fixed
prefix or infix), so names are modelled symbolically, one constructor per
template, with the template's varying parts as arguments.  `[T]` is the
prefix used for index 0 and `[Ri]` for round index `i ≥ 1`, so the round
index argument determines the prefix.

Variables: conditions and effects refer to variables by their numeric id
`self._var_ids[name]`; the id is the position of the name in
`INITIAL_VARIABLES` (assigned in `_name_variables` in registration order),
so variables are referred to here by name — a bijective renaming.

Effects and conditions that no claim inspects (unit creation, ownership
changes, camera moves, resource grants, objective text, …) are carried as
opaque tagged entries so that the position and presence of the inspected
entries within each trigger's ordered lists is preserved. -/

/-- `INITIAL_VARIABLES` from `build_scenario.py`. -/
def INITIAL_VARIABLES : List (String × Int) :=
  [("p1-score", 0), ("p2-score", 0), ("score-difference", 0),
   ("p1-wins", 0), ("p2-wins", 0), ("round", 0),
   ("p1-boar", 0), ("p2-boar", 0),
   ("p1-battlefield-points", 0), ("p2-battlefield-points", 0),
   ("p1-most-relics", 0), ("p2-most-relics", 0),
   ("p1-castle-constructed", 0), ("p2-castle-constructed", 0),
   ("p1-castle-destroyed", 0), ("p2-castle-destroyed", 0),
   ("p1-hero-killed", 0), ("p2-hero-killed", 0)]

/-- Timing constants of `build_scenario.py`. -/
def DELAY_BEGIN : Nat := 5
def DELAY_ROUND_AFTER : Nat := 3
def DELAY_ROUND_BEFORE : Nat := 3
def DELAY_CLEANUP : Nat := 3
def DELAY_VICTORY : Nat := 10

/-- `util_triggers.ChangeVarOp`. -/
inductive ChangeVarOp
  | setOp | add | subtract | multiply | divide
deriving DecidableEq, Repr

/-- `util_triggers.VarValComp`. -/
inductive VarValComp
  | equal | less | larger | lessOrEqual | largerOrEqual
deriving DecidableEq, Repr

/-- Trigger-name templates with no varying part. -/
inductive GName
  | headerInit | headerObjectives | headerVictory | headerTiebreaker
  | initVariables | initStartTimer | initStartViews | revealerHide
  | initBoarFood | initTrainLocs
  | objTitle | objDescription | objScoreHeader | objScoreP1 | objScoreP2
  | dispScoreHeader | dispScoreP1 | dispScoreP2
  | roundObjHeader | tiebreakerObj
  | stbObjBoar1 | stbObjBoar2 | ctrObjP1 | ctrObjP2
  | dautObjP1 | dautObjP2 | csObjP1 | csObjP2 | regObjK1 | regObjK2
  | roundsCompleted | checkTie | checkNotTie | checkWinner
  | checkP1Winner | checkP2Winner
  | p1Victorious | p2Victorious | declareP1Victory | declareP2Victory
deriving DecidableEq, Repr

/-- Trigger-name templates whose only varying part is the round index.
For the six scaffold roles the index also selects the prefix:
`[T]` for index 0, `[Ri]` for `i ≥ 1`. -/
inductive RName
  | headerMinigame | headerFight
  | fightObj | stbObjRound | tbObjHeader | tbObjDesc | tbObjP1 | tbObjP2
  | galleyObj | xbowObj | ctrObj | dautObj | csObj | regObjKing
  | roundInit | roundBegin | p1Wins | p2Wins | roundCleanup | roundInc
  | stbBoarDead | regStalemate
deriving DecidableEq, Repr

/-- Templates varying in round index and player number. -/
inductive PName
  | stbScoutRespawn | stbScoutCountdown
  | dautBuildsCastle | dautLosesArmy | csLosesCastle | csLosesArmy
  | regKillHero
deriving DecidableEq, Repr

/-- Templates varying in round index, player number, and a counter. -/
inductive KName
  | galleyPts | regPts
deriving DecidableEq, Repr

/-- Symbolic trigger names, one constructor per group of f-string templates
used in `build_scenario.py`.  The templates are pairwise non-colliding as
strings (each has a distinct fixed prefix or infix), so symbolic names
mirror string names faithfully.  The init trigger of index 0 is the
distinguished `TIEBREAKER_INIT_NAME`; `RName.roundInit` is used only with
`i ≥ 1`. -/
inductive TName
  | fixed (n : GName)
  | ri (n : RName) (i : Nat)
  | rp (n : PName) (i p : Nat)
  | rpk (n : KName) (i p k : Nat)
  | tiebreakerInit
  /-- Steal the Bacon capture trigger, named after the flag position. -/
  | stbCapture (i p : Nat) (x y : Int)
  /-- fight per-unit scoring trigger, named after the (pretty-printed,
  carried unprinted) unit name and a per-type counter. -/
  | fightPts (i p : Nat) (uname : String) (k : Nat)
deriving DecidableEq, Repr

/-- The six scaffold trigger names of `_TriggerNames` for a round index. -/
def initName (i : Nat) : TName :=
  if i = 0 then .tiebreakerInit else .ri .roundInit i
def beginName (i : Nat) : TName := .ri .roundBegin i
def p1WinsName (i : Nat) : TName := .ri .p1Wins i
def p2WinsName (i : Nat) : TName := .ri .p2Wins i
def cleanupName (i : Nat) : TName := .ri .roundCleanup i
def incName (i : Nat) : TName := .ri .roundInc i

/-- Condition kinds that no claim inspects. -/
inductive CondKind
  | gaiaDefeated | objectInArea | accumulateAttribute | destroyObject
deriving DecidableEq, Repr

/-- A trigger condition. -/
inductive BCond
  | varValue (var : String) (amount : Int) (cmp : VarValComp) (inverted : Bool)
  | timer (seconds : Nat)
  | other (kind : CondKind)
deriving DecidableEq, Repr

/-- Effect kinds that no claim inspects. -/
inductive EffKind
  | createObject | changeOwnership | changeView | researchTechnology
  | removeObject | modifyAttribute | modifyResource | replaceObject
  | displayInstructions | displayTimer | clearTimer | killObject
  | declareVictory | buffStats
deriving DecidableEq, Repr

/-- A trigger effect.  `activateTrigger` / `deactivateTrigger` reference the
target trigger's numeric index and are produced only by the final
resolution pass. -/
inductive BEffect
  | changeVar (var : String) (quantity : Int) (op : ChangeVarOp)
  | activateTrigger (target : Nat)
  | deactivateTrigger (target : Nat)
  | other (kind : EffKind)
deriving DecidableEq, Repr

/-- A trigger under construction / as emitted. -/
structure BTrigger where
  name : TName
  enabled : Bool
  looping : Bool
  conds : List BCond
  effs : List BEffect
deriving DecidableEq, Repr

/-- A primitive construction step. -/
inductive BOp
  /-- `ScnData._add_trigger` followed by the attribute assignments and the
  condition/effect additions performed at the creation site before any
  other trigger is touched. -/
  | addTrigger (name : TName) (enabled looping : Bool)
      (conds : List BCond) (effs : List BEffect)
  /-- later `add_condition` calls on an existing trigger -/
  | appendConds (name : TName) (conds : List BCond)
  /-- later `add_effect` calls on an existing trigger -/
  | appendEffs (name : TName) (effs : List BEffect)
  /-- `ScnData._add_activate` -/
  | activate (source target : TName)
  /-- `ScnData._add_deactivate` -/
  | deactivate (source target : TName)
deriving DecidableEq, Repr

/-- The state mutated while building the trigger graph: the created
triggers in creation order (a trigger's id is its position) and the two
edge tables in declaration order. -/
structure ScnState where
  triggers : List BTrigger
  activates : List (TName × TName)
  deactivates : List (TName × TName)
deriving DecidableEq, Repr

def ScnState.empty : ScnState := ⟨[], [], []⟩

/-- Model of the exceptions that `setup_scenario` can raise. -/
inductive BErr
  | duplicateTrigger (name : TName)
  | duplicateActivate (source target : TName)
  | duplicateDeactivate (source target : TName)
  | missingTrigger (name : TName)
  | assertionError
  | attributeError (attr : String)
  | typeError
deriving DecidableEq, Repr

def ScnState.hasTrigger (st : ScnState) (name : TName) : Bool :=
  st.triggers.any (fun tr => tr.name = name)

/-- Append conditions/effects to the trigger with the given name. -/
def ScnState.modifyTrigger (st : ScnState) (name : TName)
    (f : BTrigger → BTrigger) : ScnState :=
  { st with triggers := st.triggers.map (fun tr => if tr.name = name then f tr else tr) }

/-- Execute one primitive step. -/
def applyOp (st : ScnState) : BOp → Except BErr ScnState
  | .addTrigger name enabled looping conds effs =>
    if st.hasTrigger name then .error (.duplicateTrigger name)
    else .ok { st with triggers := st.triggers ++ [⟨name, enabled, looping, conds, effs⟩] }
  | .appendConds name conds =>
    if st.hasTrigger name then
      .ok (st.modifyTrigger name (fun tr => { tr with conds := tr.conds ++ conds }))
    else .error (.missingTrigger name)
  | .appendEffs name effs =>
    if st.hasTrigger name then
      .ok (st.modifyTrigger name (fun tr => { tr with effs := tr.effs ++ effs }))
    else .error (.missingTrigger name)
  | .activate src tgt =>
    if (src, tgt) ∈ st.activates then .error (.duplicateActivate src tgt)
    else .ok { st with activates := st.activates ++ [(src, tgt)] }
  | .deactivate src tgt =>
    if (src, tgt) ∈ st.deactivates then .error (.duplicateDeactivate src tgt)
    else .ok { st with deactivates := st.deactivates ++ [(src, tgt)] }

/-- Execute a list of primitive steps in order. -/
def runOps : List BOp → ScnState → Except BErr ScnState
  | [], st => .ok st
  | op :: ops, st =>
    match applyOp st op with
    | .error e => .error e
    | .ok st' => runOps ops st'

/-- The trigger names in creation order (the key set of
`self._trigger_ids`). -/
def ScnState.names (st : ScnState) : List TName :=
  st.triggers.map (fun tr => tr.name)

/-- The position of a name in a name list. -/
def idxOfName : List TName → TName → Option Nat
  | [], _ => none
  | n :: rest, nm =>
    if n = nm then some 0 else (idxOfName rest nm).map (fun k => k + 1)

/-- The numeric id of a trigger: its position in creation order
(`self._trigger_ids[name]`). -/
def ScnState.triggerIndex (st : ScnState) (name : TName) : Option Nat :=
  idxOfName st.names name

/-- Append one effect to the named trigger (the trigger manager holds the
trigger by id; names never change during resolution). -/
def ScnState.appendEff (st : ScnState) (name : TName) (e : BEffect) : ScnState :=
  st.modifyTrigger name (fun tr => { tr with effs := tr.effs ++ [e] })

/-- Resolve the edges of one kind: for each declared edge, look up both
endpoints and append one activate/deactivate effect referencing the
target's numeric id to the source trigger.  A missing endpoint is the
`KeyError` of the bidict lookup. -/
def resolveKind (mk : Nat → BEffect) :
    List (TName × TName) → ScnState → Except BErr ScnState
  | [], st => .ok st
  | (src, tgt) :: rest, st =>
    match st.triggerIndex src with
    | none => .error (.missingTrigger src)
    | some _ =>
      match st.triggerIndex tgt with
      | none => .error (.missingTrigger tgt)
      | some tid => resolveKind mk rest (st.appendEff src (mk tid))

/-- `ScnData._add_activate_and_deactivate_effects`: the activate mapping is
processed first, then the deactivate mapping.  Python iterates each
per-source target set in unspecified set order; this model iterates each
kind's edges in declaration order.  Per trigger, the resulting effect list
agrees with Python's whenever Python's set iteration happens to follow
declaration order; the settled claims depend only on the kind split and on
the one-effect-per-edge property, which hold for every set order. -/
def resolveAllEdges (st : ScnState) : Except BErr ScnState :=
  match resolveKind BEffect.activateTrigger st.activates st with
  | .error e => .error e
  | .ok st' => resolveKind BEffect.deactivateTrigger st.deactivates st'

/-- The conditions of the first trigger with the given name in a list
(empty if absent). -/
def condsOfList : List BTrigger → TName → List BCond
  | [], _ => []
  | tr :: rest, nm => if tr.name = nm then tr.conds else condsOfList rest nm

/-- The effects of the first trigger with the given name in a list. -/
def effsOfList : List BTrigger → TName → List BEffect
  | [], _ => []
  | tr :: rest, nm => if tr.name = nm then tr.effs else effsOfList rest nm

/-- The enabled flag of the first trigger with the given name in a list. -/
def enabledOfList : List BTrigger → TName → Option Bool
  | [], _ => none
  | tr :: rest, nm => if tr.name = nm then some tr.enabled else enabledOfList rest nm

/-- The conditions of the trigger with the given name (empty if absent). -/
def ScnState.condsOf (st : ScnState) (name : TName) : List BCond :=
  condsOfList st.triggers name

/-- The effects of the trigger with the given name (empty if absent). -/
def ScnState.effsOf (st : ScnState) (name : TName) : List BEffect :=
  effsOfList st.triggers name

/-- The enabled flag of the trigger with the given name. -/
def ScnState.enabledOf (st : ScnState) (name : TName) : Option Bool :=
  enabledOfList st.triggers name

/-! #### Contribution functions for the run lemmas -/

/-- The conditions an op contributes to the trigger named `nm`. -/
def condContrib (nm : TName) : BOp → List BCond
  | .addTrigger n _ _ cs _ => if n = nm then cs else []
  | .appendConds n cs => if n = nm then cs else []
  | _ => []

/-- The effects an op contributes to the trigger named `nm`. -/
def effContrib (nm : TName) : BOp → List BEffect
  | .addTrigger n _ _ _ es => if n = nm then es else []
  | .appendEffs n es => if n = nm then es else []
  | _ => []

/-- The activate edge an op declares, if any. -/
def actContrib : BOp → List (TName × TName)
  | .activate s t => [(s, t)]
  | _ => []

/-- The deactivate edge an op declares, if any. -/
def deactContrib : BOp → List (TName × TName)
  | .deactivate s t => [(s, t)]
  | _ => []

/-- The conditions an op carries, regardless of the target trigger. -/
def opConds : BOp → List BCond
  | .addTrigger _ _ _ cs _ => cs
  | .appendConds _ cs => cs
  | _ => []

/-- The enabled flag an op gives a trigger it creates with name `nm`. -/
def enabledContrib (nm : TName) : BOp → Option Bool
  | .addTrigger n e _ _ _ => if n = nm then some e else none
  | _ => none

/-- The name of the trigger an op creates, if any. -/
def creationName : BOp → Option TName
  | .addTrigger n _ _ _ _ => some n
  | _ => none

/-- The enabled flag of the first creation of `nm` within an op list. -/
def firstEnabled (nm : TName) : List BOp → Option Bool
  | [] => none
  | op :: rest =>
    match enabledContrib nm op with
    | some b => some b
    | none => firstEnabled nm rest

/-! ### Construction scripts

Each `...Ops` definition lists, in program order, the primitive steps the
corresponding source method performs.  Conventions:

* conditions and effects added to a trigger between its creation and the
  next trigger's creation are folded into the creation op; edge
  declarations keep their program position (edges live in a disjoint state
  component, so this preserves all observable state);
* effects that no claim inspects are carried as opaque `BEffect.other`
  entries; where their exact multiplicity depends on unmodelled data
  (technology dedup, buff stats, cosmetic setup) a single opaque entry
  stands for the batch — no settled claim counts these entries. -/

/-- `util_triggers.add_cond_pop0`: an inverted accumulate-attribute
condition on population headroom. -/
def condPop0 : BCond := .other .accumulateAttribute

/-- Equality variable-value condition. -/
def condVarEq (v : String) (amount : Int) : BCond := .varValue v amount .equal false

/-- `ScnData._add_effect_p1_score`: add `pts` to `p1-score` and to
`score-difference`. -/
def p1ScoreEffs (pts : Int) : List BEffect :=
  [.changeVar "p1-score" pts .add, .changeVar "score-difference" pts .add]

/-- `ScnData._add_effect_p2_score`: add `pts` to `p2-score` and subtract it
from `score-difference`. -/
def p2ScoreEffs (pts : Int) : List BEffect :=
  [.changeVar "p2-score" pts .add, .changeVar "score-difference" pts .subtract]

/-- `ScnData._add_effect_score`. -/
def scoreEffs (p : Nat) (pts : Int) : List BEffect :=
  if p = 1 then p1ScoreEffs pts else p2ScoreEffs pts

/-- `build_scenario.other_player`. -/
def otherPlayer (p : Nat) : Nat := if p = 1 then 2 else 1

/-- `ScnData._create_unit_sequence` / `_create_unit_sequence_explicit`:
create-object plus ownership-to-gaia effects on the init trigger (with the
optional stat-buff effects folded into one opaque entry) and an
ownership-to-player effect on the begin trigger. -/
def createUnitSequenceOps (initNm beginNm : TName) (buff : Bool) : List BOp :=
  [.appendEffs initNm
      ([BEffect.other .createObject] ++
        (if buff then [BEffect.other .buffStats] else []) ++
        [BEffect.other .changeOwnership]),
   .appendEffs beginNm [.other .changeOwnership]]

/-- `build_scenario.map_revealer_pos` produces a 19 × 19 grid. -/
def mapRevealerPosCount : Nat := 19 * 19

/-- `ScnData._add_revealers`: one create-object effect per player per
revealer position. -/
def revealerEffs : List BEffect :=
  List.replicate (2 * mapRevealerPosCount) (BEffect.other .createObject)

/-- `ScnData._research_techs`: research-technology effects for the event's
technology list (three per not-yet-researched technology; the dedup set
`_researched_techs` and the multiplicity are folded into one opaque
entry). -/
def researchEffs : List BEffect := [.other .researchTechnology]

def isMinigameEv : MWEvent → Bool
  | .minigame _ => true
  | .fight _ => false

/-- `_RoundTriggers.__init__` for round index `i`: the six scaffold
triggers with their shared conditions, effects, and edges.  `e` is
`self._events[index]`, `prevE` is `self._events[index - 1]` (for `i = 0`
Python indexes `-1`, the last event), `nextE` is `self._events[index + 1]`
when it exists, `objNames` is `self._round_objectives[index]`. -/
def rtsOps (i : Nat) (e prevE : MWEvent) (nextE : Option MWEvent)
    (numRounds : Nat) (objNames : List TName) : List BOp :=
  (if i = 0 then
    [.addTrigger (initName 0) false false [] [],
     .activate (initName 0) (.fixed .tiebreakerObj)]
   else
    [.addTrigger (initName i) true false [condVarEq "round" i] []]
    ++ (if i = 1 then [.activate (initName i) (.fixed .roundObjHeader)] else [])
    ++ objNames.map (fun o => .activate (initName i) o))
  ++ (if isMinigameEv e ∨ (¬isMinigameEv e ∧ (i = 1 ∨ isMinigameEv prevE)) then
       [.appendEffs (initName i) revealerEffs]
     else [])
  ++ [.appendEffs (initName i) [.other .changeView, .other .changeView],
      .appendEffs (initName i) researchEffs,
      .activate (initName i) (beginName i),
      .addTrigger (beginName i) false false [.timer DELAY_ROUND_BEFORE] [],
      .addTrigger (p1WinsName i) false false [] [],
      .activate (p1WinsName i) (cleanupName i),
      .addTrigger (p2WinsName i) false false [] [],
      .activate (p2WinsName i) (cleanupName i),
      .addTrigger (cleanupName i) false false [.timer DELAY_CLEANUP] [],
      .activate (cleanupName i) (incName i)]
  ++ (if i = numRounds then [.deactivate (cleanupName i) (.fixed .roundObjHeader)] else [])
  ++ (if (¬isMinigameEv e ∧ i ≠ numRounds ∧ (nextE.elim false isMinigameEv))
        ∨ isMinigameEv e then
       [.activate (cleanupName i) (.fixed .revealerHide)]
     else [])
  ++ objNames.map (fun o => .deactivate (cleanupName i) o)
  ++ [.addTrigger (incName i) false false [.timer DELAY_ROUND_AFTER]
        (if i = 0 then [] else [.changeVar "round" 1 .add])]
  ++ (if i = 0 then
       [.deactivate (incName 0) (.fixed .tiebreakerObj),
        .activate (incName 0) (.fixed .checkWinner)]
     else [])

/-! #### One-time initialization triggers (`_add_initial_triggers`) -/

/-- `_initialize_variable_values`, `_add_start_timer`, `_set_start_views`,
`_create_map_revealer_remover`, `_remove_boar_food`,
`_change_train_locations`, preceded by the `Init` section header. -/
def initSectionOps : List BOp :=
  [.addTrigger (.fixed .headerInit) false false [] [],
   .addTrigger (.fixed .initVariables) true false []
     (INITIAL_VARIABLES.map (fun pr => .changeVar pr.1 pr.2 .setOp)),
   .addTrigger (.fixed .initStartTimer) true false [.timer DELAY_BEGIN]
     [.changeVar "round" 1 .add],
   .addTrigger (.fixed .initStartViews) true false []
     [.other .changeView, .other .changeView],
   .addTrigger (.fixed .revealerHide) false true []
     [.other .removeObject, .other .removeObject, .other .removeObject],
   .deactivate (.fixed .revealerHide) (.fixed .revealerHide),
   .addTrigger (.fixed .initBoarFood) true false []
     [.other .modifyAttribute, .other .modifyAttribute],
   .addTrigger (.fixed .initTrainLocs) true false [] [.other .modifyAttribute]]

/-- The per-round objective triggers `_add_objectives` /
`_add_minigame_objective` create for the event at index `i ≥ 1` (name and
condition list; each is created disabled).  `none` models the
`AssertionError` for a minigame without objectives. -/
def eventObjectiveTriggers (i : Nat) : MWEvent → Option (List (TName × List BCond))
  | .fight _ => some [(.ri .fightObj i, [.other .gaiaDefeated])]
  | .minigame n =>
    if n = "Steal the Bacon" then some
      [(.ri .stbObjRound i, [.other .gaiaDefeated]),
       (.fixed .stbObjBoar1, [condVarEq "p1-boar" 5]),
       (.fixed .stbObjBoar2, [condVarEq "p2-boar" 5])]
    else if n = "Tower Battlefield" then some
      [(.ri .tbObjHeader i, [.other .gaiaDefeated]),
       (.ri .tbObjDesc i, [.other .gaiaDefeated]),
       (.ri .tbObjP1 i, [condVarEq "p1-battlefield-points" 100]),
       (.ri .tbObjP2 i, [condVarEq "p2-battlefield-points" 100])]
    else if n = "Galley Micro" then some
      [(.ri .galleyObj i, [.other .gaiaDefeated])]
    else if n = "Xbow Timer" then some
      [(.ri .xbowObj i, [.other .gaiaDefeated])]
    else if n = "Capture the Relic" then some
      [(.ri .ctrObj i, [.other .gaiaDefeated]),
       (.fixed .ctrObjP1, [condVarEq "p1-most-relics" 1]),
       (.fixed .ctrObjP2, [condVarEq "p2-most-relics" 1])]
    else if n = "DauT Castle" then some
      [(.ri .dautObj i, [.other .gaiaDefeated]),
       (.fixed .dautObjP1, [condVarEq "p1-castle-constructed" 1]),
       (.fixed .dautObjP2, [condVarEq "p2-castle-constructed" 1])]
    else if n = "Castle Siege" then some
      [(.ri .csObj i, [.other .gaiaDefeated]),
       (.fixed .csObjP1, [condVarEq "p1-castle-destroyed" 1]),
       (.fixed .csObjP2, [condVarEq "p2-castle-destroyed" 1])]
    else if n = "Regicide" then some
      [(.ri .regObjKing i, [.other .gaiaDefeated]),
       (.fixed .regObjK1, [condVarEq "p1-hero-killed" 1]),
       (.fixed .regObjK2, [condVarEq "p2-hero-killed" 1])]
    else none

/-- `self._round_objectives` after `_add_objectives`: the objective trigger
names of each round (empty for index 0 and for unknown minigames, which
abort construction anyway). -/
def roundObjectiveNames (events : List MWEvent) : List (List TName) :=
  events.enum.map (fun pr =>
    if pr.1 = 0 then []
    else match eventObjectiveTriggers pr.1 pr.2 with
      | some l => l.map (fun t => t.1)
      | none => [])

/-- The per-event loop at the end of `_add_objectives` (index 0, the
tiebreaker, is skipped). -/
def objectivesPerEventOps : List (Nat × MWEvent) → Except BErr (List BOp)
  | [] => .ok []
  | (i, e) :: rest =>
    if i = 0 then objectivesPerEventOps rest
    else match eventObjectiveTriggers i e with
      | none => .error .assertionError
      | some l =>
        match objectivesPerEventOps rest with
        | .error err => .error err
        | .ok ops =>
          .ok ((l.map (fun t => BOp.addTrigger t.1 false false t.2 [])) ++ ops)

/-- `ScnData._add_objectives`: the `Objectives` header, the fixed menu and
on-screen score triggers, the round header and tiebreaker header
objectives, and the per-event objective triggers.  An unknown minigame
name is the dispatch `AssertionError`. -/
def objectivesOps (events : List MWEvent) : Except BErr (List BOp) :=
  let fixedPart : List BOp :=
    [.addTrigger (.fixed .headerObjectives) false false [] [],
     .addTrigger (.fixed .objTitle) true false [.other .gaiaDefeated] [],
     .addTrigger (.fixed .objDescription) true false [.other .gaiaDefeated] [],
     .addTrigger (.fixed .objScoreHeader) true false [.other .gaiaDefeated] [],
     .addTrigger (.fixed .objScoreP1) true false [condVarEq "p1-wins" 1] [],
     .addTrigger (.fixed .objScoreP2) true false [condVarEq "p2-wins" 1] [],
     .addTrigger (.fixed .dispScoreHeader) true false [.other .gaiaDefeated] [],
     .addTrigger (.fixed .dispScoreP1) true false [condVarEq "p1-wins" 1] [],
     .addTrigger (.fixed .dispScoreP2) true false [condVarEq "p2-wins" 1] [],
     .addTrigger (.fixed .roundObjHeader) false false [.other .gaiaDefeated] [],
     .addTrigger (.fixed .tiebreakerObj) false false [.other .gaiaDefeated] []]
  match objectivesPerEventOps events.enum with
  | .error e => .error e
  | .ok ops => .ok (fixedPart ++ ops)

/-- `ScnData._add_victory_conditions`: the `Victory` header and the
victory-arbitration subgraph. -/
def victoryOps (numRounds : Nat) : List BOp :=
  [.addTrigger (.fixed .headerVictory) false false [] [],
   .addTrigger (.fixed .roundsCompleted) true false
     [condVarEq "round" (numRounds + 1)] [],
   .activate (.fixed .roundsCompleted) (.fixed .checkTie),
   .activate (.fixed .roundsCompleted) (.fixed .checkNotTie),
   .addTrigger (.fixed .checkTie) false false
     [condVarEq "score-difference" 0] [],
   .deactivate (.fixed .checkTie) (.fixed .checkNotTie),
   .activate (.fixed .checkTie) .tiebreakerInit,
   .addTrigger (.fixed .checkNotTie) false false
     [.varValue "score-difference" 0 .equal true] [],
   .deactivate (.fixed .checkNotTie) (.fixed .checkTie),
   .activate (.fixed .checkNotTie) (.fixed .checkWinner),
   .addTrigger (.fixed .checkWinner) false false [] [],
   .activate (.fixed .checkWinner) (.fixed .checkP1Winner),
   .activate (.fixed .checkWinner) (.fixed .checkP2Winner),
   .addTrigger (.fixed .checkP1Winner) false false
     [.varValue "score-difference" 0 .larger false]
     [.changeVar "p1-wins" 1 .setOp],
   .deactivate (.fixed .checkP1Winner) (.fixed .checkP2Winner),
   .addTrigger (.fixed .checkP2Winner) false false
     [.varValue "score-difference" 0 .less false]
     [.changeVar "p2-wins" 1 .setOp],
   .deactivate (.fixed .checkP2Winner) (.fixed .checkP1Winner),
   .addTrigger (.fixed .p1Victorious) true false
     [condVarEq "p1-wins" 1] [.other .displayInstructions],
   .activate (.fixed .p1Victorious) (.fixed .declareP1Victory),
   .deactivate (.fixed .p1Victorious) (.fixed .p2Victorious),
   .addTrigger (.fixed .p2Victorious) true false
     [condVarEq "p2-wins" 1] [.other .displayInstructions],
   .activate (.fixed .p2Victorious) (.fixed .declareP2Victory),
   .deactivate (.fixed .p2Victorious) (.fixed .p1Victorious),
   .addTrigger (.fixed .declareP1Victory) false false
     [.timer DELAY_VICTORY] [.other .declareVictory],
   .addTrigger (.fixed .declareP2Victory) false false
     [.timer DELAY_VICTORY] [.other .declareVictory]]

/-! #### Per-event compilers (`_add_fight` and the minigame methods) -/

/-- First occurrences of a list's elements, in order (the key order of a
Python `Counter` / insertion-ordered set of the unit constants). -/
def firstDedup (l : List Nat) : List Nat :=
  l.foldl (fun acc u => if u ∈ acc then acc else acc ++ [u]) []

/-- The catalog name of a unit constant within a unit list. -/
def unameOf (ulst : List EUnit) (uconst : Nat) : String :=
  (((ulst.find? (fun u => u.unitId = uconst)).map (fun u => u.uname))).getD ""

/-- `ScnData._add_fight_units`: unit-creation sequences, one scoring
trigger per unit per distinct unit constant (`Counter`), and one cleanup
remove-object effect per distinct unit constant.  The trigger name carries
the (pretty-printed, carried unprinted) unit name and the per-type
counter. -/
def fightUnitsOps (i p : Nat) (ulst : List EUnit) (points : List (String × Int)) :
    List BOp :=
  (ulst.flatMap (fun _ => createUnitSequenceOps (initName i) (beginName i) false))
  ++ ((firstDedup (ulst.map (fun u => u.unitId))).flatMap (fun uconst =>
        (List.range (ulst.countP (fun u => u.unitId = uconst))).flatMap (fun k =>
          [.addTrigger (.fightPts i p (unameOf ulst uconst) k) false false
             [.other .objectInArea] [],
           .activate (beginName i) (.fightPts i p (unameOf ulst uconst) k),
           .deactivate (if p = 1 then p1WinsName i else p2WinsName i)
             (.fightPts i p (unameOf ulst uconst) k),
           .appendEffs (.fightPts i p (unameOf ulst uconst) k)
             (scoreEffs (otherPlayer p)
               ((lookupPoints points (unameOf ulst uconst)).getD 0))])))
  ++ ((firstDedup (ulst.map (fun u => u.unitId))).map (fun _ =>
        .appendEffs (cleanupName i) [.other .removeObject]))

/-- `ScnData._add_fight`. -/
def addFightOps (i : Nat) (e prevE : MWEvent) (nextE : Option MWEvent)
    (numRounds : Nat) (objNames : List TName) (f : FightR) : List BOp :=
  rtsOps i e prevE nextE numRounds objNames
  ++ [.activate (beginName i) (p1WinsName i),
      .activate (beginName i) (p2WinsName i),
      .deactivate (p1WinsName i) (p2WinsName i),
      .appendEffs (p1WinsName i) (p1ScoreEffs f.p1Bonus),
      .appendConds (p1WinsName i) [condPop0],
      .deactivate (p2WinsName i) (p1WinsName i),
      .appendEffs (p2WinsName i) (p2ScoreEffs f.p2Bonus),
      .appendConds (p2WinsName i) [condPop0]]
  ++ fightUnitsOps i 1 f.p1Units f.points
  ++ fightUnitsOps i 2 f.p2Units f.points

/-- Per-minigame template data read from the unit managers, fixed
parameters of one compile (template scenarios are external inputs). -/
structure BuildEnv where
  /-- Steal the Bacon: players owning a scout (the `scouts` dict keys in
  iteration order). -/
  stbScoutPlayers : List Nat
  /-- Steal the Bacon: the players' flags as (player, x, y). -/
  stbFlags : List (Nat × Int × Int)
  /-- Steal the Bacon: reference ids of the Boar units. -/
  stbBoars : List Nat
  /-- Galley Micro: each player's unit count in the minigame area. -/
  galleys1 : Nat
  galleys2 : Nat
  /-- Regicide: each player's unit constants in the minigame area. -/
  regUnits1 : List Nat
  regUnits2 : List Nat
  /-- The `ScnData` regicide parameters. -/
  regicideHero : Nat
  regicideBuff : Bool
deriving DecidableEq, Repr

/-- `UCONST_INVISIBLE_OBJECT`. -/
def UCONST_INVISIBLE_OBJECT : Nat := 1291
/-- `FLAG_A_UCONST`. -/
def FLAG_A_UCONST : Nat := 600
/-- `units.king` (= `UCONST_KING`). -/
def UCONST_KING : Nat := 434
/-- `UCONST_GENGHIS_KHAN`. -/
def UCONST_GENGHIS_KHAN : Nat := 731
/-- `UCONST_JOAN_OF_ARC`. -/
def UCONST_JOAN_OF_ARC : Nat := 629
/-- `BOAR_POINTS`. -/
def BOAR_POINTS : Int := 20

/-- `ScnData._add_steal_the_bacon` (after the `assert index`). -/
def stbOps (env : BuildEnv) (i : Nat) (e prevE : MWEvent) (nextE : Option MWEvent)
    (numRounds : Nat) (objNames : List TName) : List BOp :=
  rtsOps i e prevE nextE numRounds objNames
  ++ [.activate (beginName i) (p1WinsName i),
      .activate (beginName i) (p2WinsName i),
      .activate (beginName i) (.ri .stbBoarDead i)]
  ++ (env.stbScoutPlayers.flatMap (fun p =>
       [.appendEffs (initName i) [.other .createObject, .other .changeOwnership],
        .appendEffs (beginName i) [.other .changeOwnership],
        .addTrigger (.rp .stbScoutRespawn i p) false true [condPop0] [],
        .activate (beginName i) (.rp .stbScoutRespawn i p),
        .deactivate (.rp .stbScoutRespawn i p) (.rp .stbScoutRespawn i p),
        .activate (.rp .stbScoutRespawn i p) (.rp .stbScoutCountdown i p),
        .deactivate (cleanupName i) (.rp .stbScoutRespawn i p),
        .addTrigger (.rp .stbScoutCountdown i p) false false [.timer 10]
          [.other .createObject],
        .activate (.rp .stbScoutCountdown i p) (.rp .stbScoutRespawn i p),
        .deactivate (cleanupName i) (.rp .stbScoutCountdown i p)]))
  ++ (env.stbFlags.flatMap (fun fl =>
       [.appendEffs (initName i) [.other .createObject, .other .changeOwnership],
        .appendEffs (beginName i) [.other .changeOwnership],
        .activate (beginName i) (.stbCapture i fl.1 fl.2.1 fl.2.2),
        .addTrigger (.stbCapture i fl.1 fl.2.1 fl.2.2) false false
          [.other .objectInArea]
          ([.other .removeObject, .other .replaceObject]
            ++ scoreEffs fl.1 BOAR_POINTS
            ++ [.changeVar (if fl.1 = 1 then "p1-boar" else "p2-boar") 1 .add]),
        .deactivate (p1WinsName i) (.stbCapture i fl.1 fl.2.1 fl.2.2),
        .deactivate (p2WinsName i) (.stbCapture i fl.1 fl.2.1 fl.2.2)]))
  ++ [.appendConds (p1WinsName i) [condVarEq "p1-boar" 5],
      .deactivate (p1WinsName i) (p2WinsName i),
      .deactivate (p1WinsName i) (.ri .stbBoarDead i),
      .appendConds (p2WinsName i) [condVarEq "p2-boar" 5],
      .deactivate (p2WinsName i) (p1WinsName i),
      .deactivate (p2WinsName i) (.ri .stbBoarDead i),
      .addTrigger (.ri .stbBoarDead i) false false
        (env.stbBoars.map (fun _ => .other .destroyObject)) [],
      .deactivate (.ri .stbBoarDead i) (p1WinsName i),
      .deactivate (.ri .stbBoarDead i) (p2WinsName i),
      .activate (.ri .stbBoarDead i) (cleanupName i),
      .appendEffs (cleanupName i) [.other .changeOwnership, .other .changeOwnership]]

/-- `ScnData._add_galley_micro` (after the `assert index`). -/
def galleyOps (env : BuildEnv) (i : Nat) (e prevE : MWEvent) (nextE : Option MWEvent)
    (numRounds : Nat) (objNames : List TName) : List BOp :=
  rtsOps i e prevE nextE numRounds objNames
  ++ [.activate (beginName i) (p1WinsName i),
      .appendConds (p1WinsName i) [condPop0],
      .activate (beginName i) (p2WinsName i),
      .appendConds (p2WinsName i) [condPop0]]
  ++ ([(1, env.galleys1), (2, env.galleys2)].flatMap (fun pr =>
       ((List.range pr.2).flatMap (fun _ =>
          createUnitSequenceOps (initName i) (beginName i) false))
       ++ ((List.range pr.2).flatMap (fun k =>
            [.addTrigger (.rpk .galleyPts i pr.1 k) false false
               [.other .objectInArea] [],
             .activate (beginName i) (.rpk .galleyPts i pr.1 k),
             .deactivate (if pr.1 = 1 then p1WinsName i else p2WinsName i)
               (.rpk .galleyPts i pr.1 k),
             .appendEffs (.rpk .galleyPts i pr.1 k)
               (scoreEffs (otherPlayer pr.1) (MAX_POINTS / pr.2)),
             .appendEffs (cleanupName i) [.other .removeObject]]))))
  ++ [.deactivate (p1WinsName i) (p2WinsName i),
      .deactivate (p2WinsName i) (p1WinsName i)]

/-- The regicide unit-constant set `uconsts` of one player: the player's
unit constants together with the two hero constants (a Python set; its
iteration order is unspecified and only its size is observable here). -/
def regUconsts (ulst : List Nat) : List Nat :=
  let base := firstDedup ulst
  base
    ++ (if UCONST_GENGHIS_KHAN ∈ base then [] else [UCONST_GENGHIS_KHAN])
    ++ (if UCONST_JOAN_OF_ARC ∈ base ∨ UCONST_JOAN_OF_ARC = UCONST_GENGHIS_KHAN
        then [] else [UCONST_JOAN_OF_ARC])

/-- The per-player body of `ScnData._add_regicide`. -/
def regicidePlayerOps (env : BuildEnv) (i p : Nat) (ulst : List Nat) : List BOp :=
  (ulst.flatMap (fun uconst =>
    (if uconst = UCONST_KING then
      [.addTrigger (.rp .regKillHero i p) false false [.other .objectInArea]
         ([.changeVar (if p = 1 then "p1-hero-killed" else "p2-hero-killed") 1 .add]
           ++ (regUconsts ulst).map (fun _ => .other .killObject)),
       .activate (beginName i) (.rp .regKillHero i p),
       .deactivate (cleanupName i) (.rp .regKillHero i p)]
     else [])
    ++ createUnitSequenceOps (initName i) (beginName i) env.regicideBuff))
  ++ ((List.range 100).flatMap (fun k =>
       [.addTrigger (.rpk .regPts i p k) false false [.other .accumulateAttribute]
          (scoreEffs (otherPlayer p) 1),
        .activate (beginName i) (.rpk .regPts i p k),
        .deactivate (cleanupName i) (.rpk .regPts i p k)]
       ++ (if env.regicideHero = UCONST_KING then
            [.deactivate (.ri .regStalemate i) (.rpk .regPts i p k)]
           else [])
       ++ [.deactivate (if p = 1 then p1WinsName i else p2WinsName i)
             (.rpk .regPts i p k)]))
  ++ ((regUconsts ulst).map (fun _ =>
       .appendEffs (cleanupName i) [.other .removeObject]))

/-- `ScnData._add_regicide` (after the `assert index`). -/
def regicideOps (env : BuildEnv) (i : Nat) (e prevE : MWEvent)
    (nextE : Option MWEvent) (numRounds : Nat) (objNames : List TName) : List BOp :=
  rtsOps i e prevE nextE numRounds objNames
  ++ regicidePlayerOps env i 1 env.regUnits1
  ++ regicidePlayerOps env i 2 env.regUnits2
  ++ (if env.regicideHero = UCONST_KING then
       [.addTrigger (.ri .regStalemate i) false false
          [.other .accumulateAttribute, .other .accumulateAttribute,
           .other .accumulateAttribute, .other .accumulateAttribute] [],
        .activate (beginName i) (.ri .regStalemate i),
        .activate (.ri .regStalemate i) (cleanupName i),
        .deactivate (.ri .regStalemate i) (p1WinsName i),
        .deactivate (.ri .regStalemate i) (p2WinsName i),
        .deactivate (p1WinsName i) (.ri .regStalemate i),
        .deactivate (p2WinsName i) (.ri .regStalemate i)]
      else [])
  ++ [.activate (beginName i) (p1WinsName i),
      .deactivate (p1WinsName i) (p2WinsName i),
      .appendConds (p1WinsName i) [condPop0],
      .activate (beginName i) (p2WinsName i),
      .deactivate (p2WinsName i) (p1WinsName i),
      .appendConds (p2WinsName i) [condPop0]]

/-! #### The round dispatcher and the orchestrator -/

/-- `self._events[index - 1]`: for index 0 Python indexes `-1`, the last
event (events is nonempty whenever a round is compiled). -/
def prevEvent (events : List MWEvent) (i : Nat) : MWEvent :=
  if i = 0 then (events.getLast?).getD (.minigame "")
  else (events.get? (i - 1)).getD (.minigame "")

/-- One round of `_setup_rounds`: the section header, then the dispatch of
`_add_minigame` / `_add_fight`.  The result is the ops to execute plus an
optional exception raised afterwards:

* a minigame at index 0 fails the compilers' `assert index`;
* an unknown minigame name is the dispatch `AssertionError`;
* Tower Battlefield, Capture the Relic, and Xbow Timer raise an
  `AttributeError` right after their initial ops: they read the attributes
  `ACC_ATTR_WOOD` / `ACC_ATTR_GOLD` / `TimerUnits` of `util_triggers`,
  which defines only `ACC_ATTR_STONE` and `ACC_ATTR_POP_HEADROOM` (besides
  its enums and helper functions);
* DauT Castle and Castle Siege raise a `TypeError` right after their
  initial round triggers: both call `util_triggers.add_effect_modify_res`
  with three positional arguments while that function requires four
  (`trigger, player, quantity, tribute_list`), so the call never binds and
  everything after it in those compilers is dead code. -/
def roundOps (env : BuildEnv) (events : List MWEvent) (numRounds : Nat)
    (robj : List (List TName)) (i : Nat) (e : MWEvent) :
    Except BErr (List BOp × Option BErr) :=
  let prevE := prevEvent events i
  let nextE := events.get? (i + 1)
  let objNames := (robj.get? i).getD []
  match e with
  | .fight f =>
    .ok ((if i = 0 then [.addTrigger (.fixed .headerTiebreaker) false false [] []]
          else [.addTrigger (.ri .headerFight i) false false [] []])
         ++ addFightOps i e prevE nextE numRounds objNames f, none)
  | .minigame n =>
    let header : List BOp := [.addTrigger (.ri .headerMinigame i) false false [] []]
    if i = 0 then
      -- the dispatch for an unknown name and the `assert index` of every
      -- compiler both raise AssertionError after the header is created
      .ok (header, some .assertionError)
    else if n = "Steal the Bacon" then
      .ok (header ++ stbOps env i e prevE nextE numRounds objNames, none)
    else if n = "Tower Battlefield" then
      .ok (header ++ rtsOps i e prevE nextE numRounds objNames,
        some (.attributeError "ACC_ATTR_WOOD"))
    else if n = "Galley Micro" then
      .ok (header ++ galleyOps env i e prevE nextE numRounds objNames, none)
    else if n = "Xbow Timer" then
      .ok (header ++ rtsOps i e prevE nextE numRounds objNames
           ++ [.appendEffs (beginName i) [.other .displayTimer]],
        some (.attributeError "TimerUnits"))
    else if n = "Capture the Relic" then
      .ok (header ++ rtsOps i e prevE nextE numRounds objNames,
        some (.attributeError "ACC_ATTR_GOLD"))
    else if n = "DauT Castle" then
      .ok (header ++ rtsOps i e prevE nextE numRounds objNames,
        some .typeError)
    else if n = "Castle Siege" then
      .ok (header ++ rtsOps i e prevE nextE numRounds objNames,
        some .typeError)
    else if n = "Regicide" then
      .ok (header ++ regicideOps env i e prevE nextE numRounds objNames, none)
    else .ok (header, some .assertionError)

/-- Execute one round: run its ops, then raise its trailing exception if
it has one. -/
def runRound (env : BuildEnv) (events : List MWEvent) (numRounds : Nat)
    (robj : List (List TName)) (i : Nat) (e : MWEvent) (st : ScnState) :
    Except BErr ScnState :=
  match roundOps env events numRounds robj i e with
  | .error err => .error err
  | .ok (ops, none) => runOps ops st
  | .ok (ops, some err) =>
    match runOps ops st with
    | .error err' => .error err'
    | .ok _ => .error err

/-- The loop of `_setup_rounds`. -/
def runRounds (env : BuildEnv) (events : List MWEvent) (numRounds : Nat)
    (robj : List (List TName)) :
    List (Nat × MWEvent) → ScnState → Except BErr ScnState
  | [], st => .ok st
  | (i, e) :: rest, st =>
    match runRound env events numRounds robj i e st with
    | .error err => .error err
    | .ok st' => runRounds env events numRounds robj rest st'

/-- `ScnData.setup_scenario`: clear unused units (unit-manager state only),
name the variables (their ids are their positions in `INITIAL_VARIABLES`),
add the initial triggers (init section, objectives, victory conditions),
compile every round in order, and run the final edge-resolution pass. -/
def setupScenario (env : BuildEnv) (events : List MWEvent) :
    Except BErr ScnState :=
  let numRounds := events.length - 1
  let robj := roundObjectiveNames events
  match objectivesOps events with
  | .error err => .error err
  | .ok objOps =>
    match runOps (initSectionOps ++ objOps ++ victoryOps numRounds) .empty with
    | .error err => .error err
    | .ok st0 =>
      match runRounds env events numRounds robj events.enum st0 with
      | .error err => .error err
      | .ok st1 => resolveAllEdges st1

/-- The `build_scenario.build_scenario` pipeline restricted to the trigger
graph: load the events, then set up the scenario; a failure at any stage
emits nothing. -/
inductive PipelineErr
  | eventErr (e : EventErr)
  | buildErr (e : BErr)
deriving DecidableEq, Repr

/-- The emitted trigger graph of a full build, or the failure that aborted
it. -/
def buildPipeline (env : BuildEnv) (p1All p2All : List EUnit)
    (eventData : List EventInput) (center : ℚ × ℚ) (offset : Int) :
    Except PipelineErr ScnState :=
  match makeFights p1All p2All eventData center offset with
  | .error e => .error (.eventErr e)
  | .ok events =>
    match setupScenario env events with
    | .error e => .error (.buildErr e)
    | .ok st => .ok st

/-! #### Concrete instances used by counterexamples and witnesses -/

/-- Whether an effect is a deactivate-trigger effect. -/
def isDeactivateEff : BEffect → Bool
  | .deactivateTrigger _ => true
  | _ => false

/-- A minimal construction exercising the resolution pass: three triggers,
then a deactivate edge declared before an activate edge with the same
source. -/
def c7Ops : List BOp :=
  [.addTrigger (.fixed .objTitle) true false [] [],
   .addTrigger (.fixed .objScoreP1) true false [] [],
   .addTrigger (.fixed .objScoreP2) true false [] [],
   .deactivate (.fixed .objTitle) (.fixed .objScoreP2),
   .activate (.fixed .objTitle) (.fixed .objScoreP1)]

/-- The state after declaring `c7Ops`. -/
def c7BaseState : ScnState :=
  match runOps c7Ops ScnState.empty with
  | .ok st => st
  | .error _ => ScnState.empty

/-- The state after the resolution pass on `c7BaseState`. -/
def c7ResolvedState : ScnState :=
  match resolveAllEdges c7BaseState with
  | .ok st => st
  | .error _ => ScnState.empty

/-- A small accepted fight: one 30-point archer per side. -/
def c3fd : FightData := ⟨[], [("archer", 30)]⟩
def c3u1 : EUnit := ⟨4, "archer", 0, 0⟩
def c3u2 : EUnit := ⟨4, "archer", 1, 1⟩
def c3f : FightR := ⟨[], [("archer", 30)], [c3u1], [c3u2], 70, 70⟩

/-- A fight whose single declared unit is worth 101 points. -/
def c4fd : FightData := ⟨[], [("knight", 101)]⟩
def c4u1 : EUnit := ⟨38, "knight", 0, 0⟩
def c4u2 : EUnit := ⟨38, "knight", 1, 1⟩

/-- An asymmetrical fight input: one archer for player 1 and one
skirmisher for player 2 in fight square 0. -/
def c10fd : FightData := ⟨[], [("archer", 30), ("skirmisher", 30)]⟩
def c10u1 : EUnit := ⟨4, "archer", 2, 5⟩
def c10u2 : EUnit := ⟨7, "skirmisher", 3, 4⟩
def c10Out : Except EventErr (List MWEvent) :=
  makeFights [c10u1] [c10u2] [.fightData c10fd] (121, 120) 7
def c10f1 : FightR :=
  ⟨[], [("archer", 30), ("skirmisher", 30)],
   [⟨4, "archer", 128, 113⟩], [⟨7, "skirmisher", 114, 127⟩], 70, 70⟩
def c10f2 : FightR :=
  ⟨[], [("archer", 30), ("skirmisher", 30)],
   [⟨7, "skirmisher", 128, 113⟩], [⟨4, "archer", 114, 127⟩], 70, 70⟩

/-- An environment with no scenario-dependent unit data, enough for the
minigames that never read it. -/
def c9Env : BuildEnv := ⟨[], [], [], 0, 0, [], [], 0, false⟩

/-- A second data-free environment, for the C2 and C8 instances. -/
def c2Env : BuildEnv := ⟨[], [], [], 0, 0, [], [], 0, false⟩

/-- A tiebreaker fight followed by a DauT Castle round. -/
def c2Events : List MWEvent := [.fight c3f, .minigame "DauT Castle"]

/-- A single tiebreaker fight: the smallest event list the program
accepts end to end. -/
def c8Events : List MWEvent := [.fight c3f]

/-- The emitted trigger graph of the `c8Events` build. -/
def c8Final : ScnState :=
  match setupScenario c2Env c8Events with
  | .ok st => st
  | .error _ => ScnState.empty

/-- Whether an `Except` value is a success. -/
def exceptIsOk {e a : Type} : Except e a → Bool
  | .ok _ => true
  | .error _ => false

/-- Whether an effect deactivates the trigger named `tgt` (by its numeric
id in `st`). -/
def isDeactTargeting (st : ScnState) (tgt : TName) : BEffect → Bool
  | .deactivateTrigger idx => st.triggerIndex tgt = some idx
  | _ => false

/-- An event list containing both broken minigames. -/
def c9Events : List MWEvent :=
  [.minigame "Tower Battlefield", .minigame "Capture the Relic"]

/-! ### Lemmas about the bonus-computing loops -/

theorem lookupPoints_mem (points : List (String × Int)) (name : String) (v : Int)
    (h : lookupPoints points name = some v) : ∃ pr ∈ points, pr.2 = v := by
  unfold lookupPoints at h
  cases hf : List.find? (fun pr => pr.1 = name) points with
  | none => rw [hf] at h; simp at h
  | some pr =>
    rw [hf] at h
    simp at h
    exact ⟨pr, List.mem_of_find?_eq_some hf, h⟩

theorem consumePoints_ok (points : List (String × Int)) (player : Nat) :
    ∀ (units : List EUnit) (b b' : Int),
      consumePoints points player units b = .ok b' →
      b' = b - sumPoints points units ∧
      ∀ u ∈ units, (lookupPoints points u.uname).isSome := by
  intro units
  induction units with
  | nil =>
    intro b b' h
    simp [consumePoints] at h
    simp [h, sumPoints]
  | cons u rest ih =>
    intro b b' h
    cases hl : lookupPoints points u.uname with
    | none => simp only [consumePoints, hl] at h; exact absurd h (by simp)
    | some pts =>
      simp only [consumePoints, hl] at h
      by_cases hb : b - pts < 0
      · rw [if_pos hb] at h; exact absurd h (by simp)
      · rw [if_neg hb] at h
        obtain ⟨h1, h2⟩ := ih _ _ h
        refine ⟨?_, ?_⟩
        · rw [h1]; simp [sumPoints, hl]; ring
        · intro v hv
          rcases List.mem_cons.mp hv with h' | h'
          · subst h'; simp [hl]
          · exact h2 v h'

/-- If every unit has a declared value and the budget would go strictly
negative overall, the loop raises the point-limit error. -/
theorem consumePoints_budget_error (points : List (String × Int)) (player : Nat) :
    ∀ (units : List EUnit) (b : Int), 0 ≤ b →
      (∀ u ∈ units, (lookupPoints points u.uname).isSome) →
      b - sumPoints points units < 0 →
      consumePoints points player units b = .error (.pointLimitExceeded player) := by
  intro units
  induction units with
  | nil =>
    intro b hb _ hlt
    simp [sumPoints] at hlt
    omega
  | cons u rest ih =>
    intro b hb hsome hlt
    obtain ⟨pts, hl⟩ := Option.isSome_iff_exists.mp (hsome u (by simp))
    simp only [consumePoints, hl]
    by_cases hneg : b - pts < 0
    · rw [if_pos hneg]
    · rw [if_neg hneg]
      refine ih (b - pts) (by omega) (fun v hv => hsome v (by simp [hv])) ?_
      simp [sumPoints, hl] at hlt ⊢
      omega

/-- Every lookup present and every declared value nonnegative makes the
point sum of any unit list nonnegative. -/
theorem sumPoints_nonneg (points : List (String × Int))
    (hval : ∀ pr ∈ points, 0 ≤ pr.2) :
    ∀ units : List EUnit, 0 ≤ sumPoints points units := by
  intro units
  induction units with
  | nil => simp [sumPoints]
  | cons u rest ih =>
    have h0 : (0 : Int) ≤ (lookupPoints points u.uname).getD 0 := by
      cases hl : lookupPoints points u.uname with
      | none => simp
      | some v =>
        obtain ⟨pr, hmem, hpr⟩ := lookupPoints_mem points u.uname v hl
        simpa [hpr] using hval pr hmem
    simp only [sumPoints, List.map_cons, List.sum_cons]
    have hrest := ih
    simp only [sumPoints] at hrest
    omega

/-- If every unit has a declared nonnegative value and the total fits the
budget, the loop succeeds and returns the budget minus the total. -/
theorem consumePoints_ok_of_fits (points : List (String × Int)) (player : Nat)
    (hval : ∀ pr ∈ points, 0 ≤ pr.2) :
    ∀ (units : List EUnit) (b : Int),
      (∀ u ∈ units, (lookupPoints points u.uname).isSome) →
      0 ≤ b - sumPoints points units →
      consumePoints points player units b = .ok (b - sumPoints points units) := by
  intro units
  induction units with
  | nil => intro b _ _; simp [consumePoints, sumPoints]
  | cons u rest ih =>
    intro b hsome hfits
    obtain ⟨pts, hl⟩ := Option.isSome_iff_exists.mp (hsome u (by simp))
    have hrest : 0 ≤ sumPoints points rest :=
      sumPoints_nonneg points hval rest
    have hsum : sumPoints points (u :: rest) = pts + sumPoints points rest := by
      simp [sumPoints, hl]
    rw [hsum] at hfits
    simp only [consumePoints, hl]
    rw [if_neg (by omega)]
    rw [ih (b - pts) (fun v hv => hsome v (by simp [hv])) (by omega)]
    rw [hsum]
    congr 1
    omega

/-- `centerUnits` does not change the identity fields of the units. -/
theorem centerUnits_idFields (arr : List EUnit) (center : ℚ × ℚ) (offset : Int) :
    (centerUnits arr center offset).map (fun u => (u.unitId, u.uname)) =
      arr.map (fun u => (u.unitId, u.uname)) := by
  simp [centerUnits]

/-- `centerUnitsFlip` does not change the identity fields of the units. -/
theorem centerUnitsFlip_idFields (arr : List EUnit) (center : ℚ × ℚ) (offset : Int) :
    (centerUnitsFlip arr center offset).map (fun u => (u.unitId, u.uname)) =
      arr.map (fun u => (u.unitId, u.uname)) := by
  simp [centerUnitsFlip]

/-! ### Run lemmas for the op semantics -/

theorem runOps_append (l1 l2 : List BOp) (st : ScnState) :
    runOps (l1 ++ l2) st =
      match runOps l1 st with
      | .error e => .error e
      | .ok st1 => runOps l2 st1 := by
  induction l1 generalizing st with
  | nil => simp [runOps]
  | cons op ops ih =>
    simp only [List.cons_append, runOps]
    cases applyOp st op with
    | error e => rfl
    | ok st1 => exact ih st1

theorem condsOfList_nil_of_not_mem (l : List BTrigger) (nm : TName)
    (h : l.any (fun tr => tr.name = nm) = false) :
    condsOfList l nm = [] := by
  induction l with
  | nil => rfl
  | cons tr rest ih =>
    simp only [List.any_cons, Bool.or_eq_false_iff] at h
    rw [condsOfList, if_neg (of_decide_eq_false h.1)]
    exact ih h.2

theorem condsOfList_append_right (l1 l2 : List BTrigger) (nm : TName)
    (h : l1.any (fun tr => tr.name = nm) = false) :
    condsOfList (l1 ++ l2) nm = condsOfList l2 nm := by
  induction l1 with
  | nil => rfl
  | cons tr rest ih =>
    simp only [List.any_cons, Bool.or_eq_false_iff] at h
    rw [List.cons_append, condsOfList, if_neg (of_decide_eq_false h.1)]
    exact ih h.2

theorem condsOfList_append_single_ne (l : List BTrigger) (tr : BTrigger)
    (nm : TName) (h : tr.name ≠ nm) :
    condsOfList (l ++ [tr]) nm = condsOfList l nm := by
  induction l with
  | nil => simp [condsOfList, if_neg h]
  | cons hd rest ih =>
    rw [List.cons_append, condsOfList, condsOfList]
    by_cases hh : hd.name = nm
    · rw [if_pos hh, if_pos hh]
    · rw [if_neg hh, if_neg hh]; exact ih

theorem effsOfList_nil_of_not_mem (l : List BTrigger) (nm : TName)
    (h : l.any (fun tr => tr.name = nm) = false) :
    effsOfList l nm = [] := by
  induction l with
  | nil => rfl
  | cons tr rest ih =>
    simp only [List.any_cons, Bool.or_eq_false_iff] at h
    rw [effsOfList, if_neg (of_decide_eq_false h.1)]
    exact ih h.2

theorem effsOfList_append_right (l1 l2 : List BTrigger) (nm : TName)
    (h : l1.any (fun tr => tr.name = nm) = false) :
    effsOfList (l1 ++ l2) nm = effsOfList l2 nm := by
  induction l1 with
  | nil => rfl
  | cons tr rest ih =>
    simp only [List.any_cons, Bool.or_eq_false_iff] at h
    rw [List.cons_append, effsOfList, if_neg (of_decide_eq_false h.1)]
    exact ih h.2

theorem effsOfList_append_single_ne (l : List BTrigger) (tr : BTrigger)
    (nm : TName) (h : tr.name ≠ nm) :
    effsOfList (l ++ [tr]) nm = effsOfList l nm := by
  induction l with
  | nil => simp [effsOfList, if_neg h]
  | cons hd rest ih =>
    rw [List.cons_append, effsOfList, effsOfList]
    by_cases hh : hd.name = nm
    · rw [if_pos hh, if_pos hh]
    · rw [if_neg hh, if_neg hh]; exact ih

theorem enabledOfList_none_of_not_mem (l : List BTrigger) (nm : TName)
    (h : l.any (fun tr => tr.name = nm) = false) :
    enabledOfList l nm = none := by
  induction l with
  | nil => rfl
  | cons tr rest ih =>
    simp only [List.any_cons, Bool.or_eq_false_iff] at h
    rw [enabledOfList, if_neg (of_decide_eq_false h.1)]
    exact ih h.2

theorem enabledOfList_append_right (l1 l2 : List BTrigger) (nm : TName)
    (h : l1.any (fun tr => tr.name = nm) = false) :
    enabledOfList (l1 ++ l2) nm = enabledOfList l2 nm := by
  induction l1 with
  | nil => rfl
  | cons tr rest ih =>
    simp only [List.any_cons, Bool.or_eq_false_iff] at h
    rw [List.cons_append, enabledOfList, if_neg (of_decide_eq_false h.1)]
    exact ih h.2

theorem enabledOfList_append_single_ne (l : List BTrigger) (tr : BTrigger)
    (nm : TName) (h : tr.name ≠ nm) :
    enabledOfList (l ++ [tr]) nm = enabledOfList l nm := by
  induction l with
  | nil => simp [enabledOfList, if_neg h]
  | cons hd rest ih =>
    rw [List.cons_append, enabledOfList, enabledOfList]
    by_cases hh : hd.name = nm
    · rw [if_pos hh, if_pos hh]
    · rw [if_neg hh, if_neg hh]; exact ih

/-- An effs-append update of one trigger leaves every condition list
unchanged. -/
theorem condsOfList_updateEffs (l : List BTrigger) (n : TName)
    (es : List BEffect) (nm : TName) :
    condsOfList (l.map (fun tr =>
      if tr.name = n then { tr with effs := tr.effs ++ es } else tr)) nm =
      condsOfList l nm := by
  induction l with
  | nil => rfl
  | cons hd rest ih =>
    simp only [List.map_cons]
    by_cases hh : hd.name = n
    · rw [if_pos hh, condsOfList, condsOfList]
      by_cases hnm : hd.name = nm
      · simp [hnm]
      · rw [if_neg hnm, if_neg hnm]; exact ih
    · rw [if_neg hh, condsOfList, condsOfList]
      by_cases hnm : hd.name = nm
      · rw [if_pos hnm, if_pos hnm]
      · rw [if_neg hnm, if_neg hnm]; exact ih

/-- A conds-append update of one trigger leaves every effect list
unchanged. -/
theorem effsOfList_updateConds (l : List BTrigger) (n : TName)
    (cs : List BCond) (nm : TName) :
    effsOfList (l.map (fun tr =>
      if tr.name = n then { tr with conds := tr.conds ++ cs } else tr)) nm =
      effsOfList l nm := by
  induction l with
  | nil => rfl
  | cons hd rest ih =>
    simp only [List.map_cons]
    by_cases hh : hd.name = n
    · rw [if_pos hh, effsOfList, effsOfList]
      by_cases hnm : hd.name = nm
      · simp [hnm]
      · rw [if_neg hnm, if_neg hnm]; exact ih
    · rw [if_neg hh, effsOfList, effsOfList]
      by_cases hnm : hd.name = nm
      · rw [if_pos hnm, if_pos hnm]
      · rw [if_neg hnm, if_neg hnm]; exact ih

/-- Updating the conditions of trigger `n` changes only `n`'s condition
list, appending to it when the trigger is present. -/
theorem condsOfList_updateConds_ne (l : List BTrigger) (n : TName)
    (cs : List BCond) (nm : TName) (h : n ≠ nm) :
    condsOfList (l.map (fun tr =>
      if tr.name = n then { tr with conds := tr.conds ++ cs } else tr)) nm =
      condsOfList l nm := by
  induction l with
  | nil => rfl
  | cons hd rest ih =>
    simp only [List.map_cons]
    by_cases hh : hd.name = n
    · rw [if_pos hh, condsOfList, condsOfList,
        if_neg (show hd.name ≠ nm by rw [hh]; exact h),
        if_neg (show hd.name ≠ nm by rw [hh]; exact h)]
      exact ih
    · rw [condsOfList, if_neg hh, condsOfList]
      by_cases hnm : hd.name = nm
      · rw [if_pos hnm, if_pos hnm]
      · rw [if_neg hnm, if_neg hnm]; exact ih

theorem condsOfList_updateConds_eq (l : List BTrigger) (nm : TName)
    (cs : List BCond) (h : l.any (fun tr => tr.name = nm) = true) :
    condsOfList (l.map (fun tr =>
      if tr.name = nm then { tr with conds := tr.conds ++ cs } else tr)) nm =
      condsOfList l nm ++ cs := by
  induction l with
  | nil => simp at h
  | cons hd rest ih =>
    simp only [List.map_cons]
    by_cases hh : hd.name = nm
    · rw [if_pos hh, condsOfList, condsOfList, if_pos hh, if_pos hh]
    · rw [if_neg hh, condsOfList, condsOfList, if_neg hh, if_neg hh]
      simp only [List.any_cons, Bool.or_eq_true] at h
      rcases h with h | h
      · exact absurd (of_decide_eq_true h) hh
      · exact ih h

theorem effsOfList_updateEffs_ne (l : List BTrigger) (n : TName)
    (es : List BEffect) (nm : TName) (h : n ≠ nm) :
    effsOfList (l.map (fun tr =>
      if tr.name = n then { tr with effs := tr.effs ++ es } else tr)) nm =
      effsOfList l nm := by
  induction l with
  | nil => rfl
  | cons hd rest ih =>
    simp only [List.map_cons]
    by_cases hh : hd.name = n
    · rw [if_pos hh, effsOfList, effsOfList,
        if_neg (show hd.name ≠ nm by rw [hh]; exact h),
        if_neg (show hd.name ≠ nm by rw [hh]; exact h)]
      exact ih
    · rw [effsOfList, if_neg hh, effsOfList]
      by_cases hnm : hd.name = nm
      · rw [if_pos hnm, if_pos hnm]
      · rw [if_neg hnm, if_neg hnm]; exact ih

theorem effsOfList_updateEffs_eq (l : List BTrigger) (nm : TName)
    (es : List BEffect) (h : l.any (fun tr => tr.name = nm) = true) :
    effsOfList (l.map (fun tr =>
      if tr.name = nm then { tr with effs := tr.effs ++ es } else tr)) nm =
      effsOfList l nm ++ es := by
  induction l with
  | nil => simp at h
  | cons hd rest ih =>
    simp only [List.map_cons]
    by_cases hh : hd.name = nm
    · rw [if_pos hh, effsOfList, effsOfList, if_pos hh, if_pos hh]
    · rw [if_neg hh, effsOfList, effsOfList, if_neg hh, if_neg hh]
      simp only [List.any_cons, Bool.or_eq_true] at h
      rcases h with h | h
      · exact absurd (of_decide_eq_true h) hh
      · exact ih h

/-- Both update shapes preserve every enabled flag. -/
theorem enabledOfList_updateConds (l : List BTrigger) (n : TName)
    (cs : List BCond) (nm : TName) :
    enabledOfList (l.map (fun tr =>
      if tr.name = n then { tr with conds := tr.conds ++ cs } else tr)) nm =
      enabledOfList l nm := by
  induction l with
  | nil => rfl
  | cons hd rest ih =>
    simp only [List.map_cons]
    by_cases hh : hd.name = n
    · rw [if_pos hh, enabledOfList, enabledOfList]
      by_cases hnm : hd.name = nm
      · simp [hnm]
      · rw [if_neg hnm, if_neg hnm]; exact ih
    · rw [if_neg hh, enabledOfList, enabledOfList]
      by_cases hnm : hd.name = nm
      · rw [if_pos hnm, if_pos hnm]
      · rw [if_neg hnm, if_neg hnm]; exact ih

theorem enabledOfList_updateEffs (l : List BTrigger) (n : TName)
    (es : List BEffect) (nm : TName) :
    enabledOfList (l.map (fun tr =>
      if tr.name = n then { tr with effs := tr.effs ++ es } else tr)) nm =
      enabledOfList l nm := by
  induction l with
  | nil => rfl
  | cons hd rest ih =>
    simp only [List.map_cons]
    by_cases hh : hd.name = n
    · rw [if_pos hh, enabledOfList, enabledOfList]
      by_cases hnm : hd.name = nm
      · simp [hnm]
      · rw [if_neg hnm, if_neg hnm]; exact ih
    · rw [if_neg hh, enabledOfList, enabledOfList]
      by_cases hnm : hd.name = nm
      · rw [if_pos hnm, if_pos hnm]
      · rw [if_neg hnm, if_neg hnm]; exact ih

/-- Both update shapes preserve the name list. -/
theorem namesOf_updateConds (l : List BTrigger) (n : TName) (cs : List BCond) :
    (l.map (fun tr =>
      if tr.name = n then { tr with conds := tr.conds ++ cs } else tr)).map
        (fun tr => tr.name) = l.map (fun tr => tr.name) := by
  rw [List.map_map]
  refine List.map_congr_left (fun tr _ => ?_)
  by_cases hh : tr.name = n
  · simp [hh]
  · simp [hh]

theorem namesOf_updateEffs (l : List BTrigger) (n : TName) (es : List BEffect) :
    (l.map (fun tr =>
      if tr.name = n then { tr with effs := tr.effs ++ es } else tr)).map
        (fun tr => tr.name) = l.map (fun tr => tr.name) := by
  rw [List.map_map]
  refine List.map_congr_left (fun tr _ => ?_)
  by_cases hh : tr.name = n
  · simp [hh]
  · simp [hh]

/-! ### Master lemmas: what a run contributes to each component -/

theorem runOps_condsOf : ∀ (ops : List BOp) (st st' : ScnState) (nm : TName),
    runOps ops st = .ok st' →
    st'.condsOf nm = st.condsOf nm ++ ops.flatMap (condContrib nm) := by
  intro ops
  induction ops with
  | nil =>
    intro st st' nm h
    simp only [runOps] at h
    simp only [Except.ok.injEq] at h
    subst h
    simp
  | cons op rest ih =>
    intro st st' nm h
    rw [runOps] at h
    cases hap : applyOp st op with
    | error e => rw [hap] at h; exact absurd h (by simp)
    | ok st1 =>
      rw [hap] at h
      have hrest := ih st1 st' nm h
      have hstep : st1.condsOf nm = st.condsOf nm ++ condContrib nm op := by
        cases op with
        | addTrigger n e lo cs es =>
          simp only [applyOp] at hap
          by_cases hhas : st.hasTrigger n = true
          · rw [if_pos hhas] at hap; exact absurd hap (by simp)
          · rw [if_neg hhas] at hap
            simp only [Except.ok.injEq] at hap
            subst hap
            simp only [ScnState.condsOf, condContrib]
            by_cases hn : n = nm
            · subst hn
              have hfalse : st.triggers.any (fun tr => tr.name = n) = false := by
                simpa [ScnState.hasTrigger] using hhas
              rw [if_pos rfl,
                condsOfList_append_right _ _ _ hfalse,
                condsOfList_nil_of_not_mem _ _ hfalse]
              simp [condsOfList]
            · rw [if_neg hn, condsOfList_append_single_ne _ _ _ hn]
              simp
        | appendConds n cs =>
          simp only [applyOp] at hap
          by_cases hhas : st.hasTrigger n = true
          · rw [if_pos hhas] at hap
            simp only [Except.ok.injEq] at hap
            subst hap
            simp only [ScnState.condsOf, ScnState.modifyTrigger, condContrib]
            by_cases hn : n = nm
            · subst hn
              rw [if_pos rfl, condsOfList_updateConds_eq _ _ _
                (by simpa [ScnState.hasTrigger] using hhas)]
            · rw [if_neg hn, condsOfList_updateConds_ne _ _ _ _ hn]
              simp
          · rw [if_neg hhas] at hap; exact absurd hap (by simp)
        | appendEffs n es =>
          simp only [applyOp] at hap
          by_cases hhas : st.hasTrigger n = true
          · rw [if_pos hhas] at hap
            simp only [Except.ok.injEq] at hap
            subst hap
            simp only [ScnState.condsOf, ScnState.modifyTrigger, condContrib]
            rw [condsOfList_updateEffs]
            simp
          · rw [if_neg hhas] at hap; exact absurd hap (by simp)
        | activate s t =>
          simp only [applyOp] at hap
          by_cases hmem : (s, t) ∈ st.activates
          · rw [if_pos hmem] at hap; exact absurd hap (by simp)
          · rw [if_neg hmem] at hap
            simp only [Except.ok.injEq] at hap
            subst hap
            simp [ScnState.condsOf, condContrib]
        | deactivate s t =>
          simp only [applyOp] at hap
          by_cases hmem : (s, t) ∈ st.deactivates
          · rw [if_pos hmem] at hap; exact absurd hap (by simp)
          · rw [if_neg hmem] at hap
            simp only [Except.ok.injEq] at hap
            subst hap
            simp [ScnState.condsOf, condContrib]
      rw [hrest, hstep, List.flatMap_cons, List.append_assoc]

theorem runOps_effsOf : ∀ (ops : List BOp) (st st' : ScnState) (nm : TName),
    runOps ops st = .ok st' →
    st'.effsOf nm = st.effsOf nm ++ ops.flatMap (effContrib nm) := by
  intro ops
  induction ops with
  | nil =>
    intro st st' nm h
    simp only [runOps] at h
    simp only [Except.ok.injEq] at h
    subst h
    simp
  | cons op rest ih =>
    intro st st' nm h
    rw [runOps] at h
    cases hap : applyOp st op with
    | error e => rw [hap] at h; exact absurd h (by simp)
    | ok st1 =>
      rw [hap] at h
      have hrest := ih st1 st' nm h
      have hstep : st1.effsOf nm = st.effsOf nm ++ effContrib nm op := by
        cases op with
        | addTrigger n e lo cs es =>
          simp only [applyOp] at hap
          by_cases hhas : st.hasTrigger n = true
          · rw [if_pos hhas] at hap; exact absurd hap (by simp)
          · rw [if_neg hhas] at hap
            simp only [Except.ok.injEq] at hap
            subst hap
            simp only [ScnState.effsOf, effContrib]
            by_cases hn : n = nm
            · subst hn
              have hfalse : st.triggers.any (fun tr => tr.name = n) = false := by
                simpa [ScnState.hasTrigger] using hhas
              rw [if_pos rfl,
                effsOfList_append_right _ _ _ hfalse,
                effsOfList_nil_of_not_mem _ _ hfalse]
              simp [effsOfList]
            · rw [if_neg hn, effsOfList_append_single_ne _ _ _ hn]
              simp
        | appendConds n cs =>
          simp only [applyOp] at hap
          by_cases hhas : st.hasTrigger n = true
          · rw [if_pos hhas] at hap
            simp only [Except.ok.injEq] at hap
            subst hap
            simp only [ScnState.effsOf, ScnState.modifyTrigger, effContrib]
            rw [effsOfList_updateConds]
            simp
          · rw [if_neg hhas] at hap; exact absurd hap (by simp)
        | appendEffs n es =>
          simp only [applyOp] at hap
          by_cases hhas : st.hasTrigger n = true
          · rw [if_pos hhas] at hap
            simp only [Except.ok.injEq] at hap
            subst hap
            simp only [ScnState.effsOf, ScnState.modifyTrigger, effContrib]
            by_cases hn : n = nm
            · subst hn
              rw [if_pos rfl, effsOfList_updateEffs_eq _ _ _
                (by simpa [ScnState.hasTrigger] using hhas)]
            · rw [if_neg hn, effsOfList_updateEffs_ne _ _ _ _ hn]
              simp
          · rw [if_neg hhas] at hap; exact absurd hap (by simp)
        | activate s t =>
          simp only [applyOp] at hap
          by_cases hmem : (s, t) ∈ st.activates
          · rw [if_pos hmem] at hap; exact absurd hap (by simp)
          · rw [if_neg hmem] at hap
            simp only [Except.ok.injEq] at hap
            subst hap
            simp [ScnState.effsOf, effContrib]
        | deactivate s t =>
          simp only [applyOp] at hap
          by_cases hmem : (s, t) ∈ st.deactivates
          · rw [if_pos hmem] at hap; exact absurd hap (by simp)
          · rw [if_neg hmem] at hap
            simp only [Except.ok.injEq] at hap
            subst hap
            simp [ScnState.effsOf, effContrib]
      rw [hrest, hstep, List.flatMap_cons, List.append_assoc]

theorem runOps_enabledOf : ∀ (ops : List BOp) (st st' : ScnState) (nm : TName),
    runOps ops st = .ok st' →
    st'.enabledOf nm =
      match st.enabledOf nm with
      | some b => some b
      | none => firstEnabled nm ops := by
  intro ops
  induction ops with
  | nil =>
    intro st st' nm h
    simp only [runOps] at h
    simp only [Except.ok.injEq] at h
    subst h
    cases st.enabledOf nm <;> simp [firstEnabled]
  | cons op rest ih =>
    intro st st' nm h
    rw [runOps] at h
    cases hap : applyOp st op with
    | error e => rw [hap] at h; exact absurd h (by simp)
    | ok st1 =>
      rw [hap] at h
      have hrest := ih st1 st' nm h
      have hstep : st1.enabledOf nm =
          match st.enabledOf nm with
          | some b => some b
          | none => enabledContrib nm op := by
        cases op with
        | addTrigger n e lo cs es =>
          simp only [applyOp] at hap
          by_cases hhas : st.hasTrigger n = true
          · rw [if_pos hhas] at hap; exact absurd hap (by simp)
          · rw [if_neg hhas] at hap
            simp only [Except.ok.injEq] at hap
            subst hap
            simp only [ScnState.enabledOf, enabledContrib]
            by_cases hn : n = nm
            · subst hn
              have hfalse : st.triggers.any (fun tr => tr.name = n) = false := by
                simpa [ScnState.hasTrigger] using hhas
              rw [if_pos rfl,
                enabledOfList_append_right _ _ _ hfalse,
                enabledOfList_none_of_not_mem _ _ hfalse]
              simp [enabledOfList]
            · rw [if_neg hn, enabledOfList_append_single_ne _ _ _ hn]
              cases enabledOfList st.triggers nm <;> simp
        | appendConds n cs =>
          simp only [applyOp] at hap
          by_cases hhas : st.hasTrigger n = true
          · rw [if_pos hhas] at hap
            simp only [Except.ok.injEq] at hap
            subst hap
            simp only [ScnState.enabledOf, ScnState.modifyTrigger, enabledContrib]
            rw [enabledOfList_updateConds]
            cases enabledOfList st.triggers nm <;> simp
          · rw [if_neg hhas] at hap; exact absurd hap (by simp)
        | appendEffs n es =>
          simp only [applyOp] at hap
          by_cases hhas : st.hasTrigger n = true
          · rw [if_pos hhas] at hap
            simp only [Except.ok.injEq] at hap
            subst hap
            simp only [ScnState.enabledOf, ScnState.modifyTrigger, enabledContrib]
            rw [enabledOfList_updateEffs]
            cases enabledOfList st.triggers nm <;> simp
          · rw [if_neg hhas] at hap; exact absurd hap (by simp)
        | activate s t =>
          simp only [applyOp] at hap
          by_cases hmem : (s, t) ∈ st.activates
          · rw [if_pos hmem] at hap; exact absurd hap (by simp)
          · rw [if_neg hmem] at hap
            simp only [Except.ok.injEq] at hap
            subst hap
            simp only [ScnState.enabledOf, enabledContrib]
            cases enabledOfList st.triggers nm <;> simp
        | deactivate s t =>
          simp only [applyOp] at hap
          by_cases hmem : (s, t) ∈ st.deactivates
          · rw [if_pos hmem] at hap; exact absurd hap (by simp)
          · rw [if_neg hmem] at hap
            simp only [Except.ok.injEq] at hap
            subst hap
            simp only [ScnState.enabledOf, enabledContrib]
            cases enabledOfList st.triggers nm <;> simp
      rw [hrest, hstep]
      cases hse : st.enabledOf nm with
      | some b => simp
      | none =>
        rw [firstEnabled]

theorem runOps_names : ∀ (ops : List BOp) (st st' : ScnState),
    runOps ops st = .ok st' →
    st'.names = st.names ++ ops.filterMap creationName := by
  intro ops
  induction ops with
  | nil =>
    intro st st' h
    simp only [runOps] at h
    simp only [Except.ok.injEq] at h
    subst h
    simp
  | cons op rest ih =>
    intro st st' h
    rw [runOps] at h
    cases hap : applyOp st op with
    | error e => rw [hap] at h; exact absurd h (by simp)
    | ok st1 =>
      rw [hap] at h
      have hrest := ih st1 st' h
      have hstep : st1.names = st.names ++ (creationName op).toList := by
        cases op with
        | addTrigger n e lo cs es =>
          simp only [applyOp] at hap
          by_cases hhas : st.hasTrigger n = true
          · rw [if_pos hhas] at hap; exact absurd hap (by simp)
          · rw [if_neg hhas] at hap
            simp only [Except.ok.injEq] at hap
            subst hap
            simp [ScnState.names, creationName]
        | appendConds n cs =>
          simp only [applyOp] at hap
          by_cases hhas : st.hasTrigger n = true
          · rw [if_pos hhas] at hap
            simp only [Except.ok.injEq] at hap
            subst hap
            simp only [ScnState.names, ScnState.modifyTrigger, creationName]
            rw [namesOf_updateConds]
            simp
          · rw [if_neg hhas] at hap; exact absurd hap (by simp)
        | appendEffs n es =>
          simp only [applyOp] at hap
          by_cases hhas : st.hasTrigger n = true
          · rw [if_pos hhas] at hap
            simp only [Except.ok.injEq] at hap
            subst hap
            simp only [ScnState.names, ScnState.modifyTrigger, creationName]
            rw [namesOf_updateEffs]
            simp
          · rw [if_neg hhas] at hap; exact absurd hap (by simp)
        | activate s t =>
          simp only [applyOp] at hap
          by_cases hmem : (s, t) ∈ st.activates
          · rw [if_pos hmem] at hap; exact absurd hap (by simp)
          · rw [if_neg hmem] at hap
            simp only [Except.ok.injEq] at hap
            subst hap
            simp [ScnState.names, creationName]
        | deactivate s t =>
          simp only [applyOp] at hap
          by_cases hmem : (s, t) ∈ st.deactivates
          · rw [if_pos hmem] at hap; exact absurd hap (by simp)
          · rw [if_neg hmem] at hap
            simp only [Except.ok.injEq] at hap
            subst hap
            simp [ScnState.names, creationName]
      rw [hrest, hstep, List.filterMap_cons, List.append_assoc]
      cases creationName op <;> simp

theorem runOps_activates : ∀ (ops : List BOp) (st st' : ScnState),
    runOps ops st = .ok st' →
    st'.activates = st.activates ++ ops.flatMap actContrib := by
  intro ops
  induction ops with
  | nil =>
    intro st st' h
    simp only [runOps] at h
    simp only [Except.ok.injEq] at h
    subst h
    simp
  | cons op rest ih =>
    intro st st' h
    rw [runOps] at h
    cases hap : applyOp st op with
    | error e => rw [hap] at h; exact absurd h (by simp)
    | ok st1 =>
      rw [hap] at h
      have hrest := ih st1 st' h
      have hstep : st1.activates = st.activates ++ actContrib op := by
        cases op with
        | addTrigger n e lo cs es =>
          simp only [applyOp] at hap
          by_cases hhas : st.hasTrigger n = true
          · rw [if_pos hhas] at hap; exact absurd hap (by simp)
          · rw [if_neg hhas] at hap
            simp only [Except.ok.injEq] at hap
            subst hap
            simp [actContrib]
        | appendConds n cs =>
          simp only [applyOp] at hap
          by_cases hhas : st.hasTrigger n = true
          · rw [if_pos hhas] at hap
            simp only [Except.ok.injEq] at hap
            subst hap
            simp [ScnState.modifyTrigger, actContrib]
          · rw [if_neg hhas] at hap; exact absurd hap (by simp)
        | appendEffs n es =>
          simp only [applyOp] at hap
          by_cases hhas : st.hasTrigger n = true
          · rw [if_pos hhas] at hap
            simp only [Except.ok.injEq] at hap
            subst hap
            simp [ScnState.modifyTrigger, actContrib]
          · rw [if_neg hhas] at hap; exact absurd hap (by simp)
        | activate s t =>
          simp only [applyOp] at hap
          by_cases hmem : (s, t) ∈ st.activates
          · rw [if_pos hmem] at hap; exact absurd hap (by simp)
          · rw [if_neg hmem] at hap
            simp only [Except.ok.injEq] at hap
            subst hap
            simp [actContrib]
        | deactivate s t =>
          simp only [applyOp] at hap
          by_cases hmem : (s, t) ∈ st.deactivates
          · rw [if_pos hmem] at hap; exact absurd hap (by simp)
          · rw [if_neg hmem] at hap
            simp only [Except.ok.injEq] at hap
            subst hap
            simp [actContrib]
      rw [hrest, hstep, List.flatMap_cons, List.append_assoc]

/-- A successful step keeps the trigger-name list duplicate-free. -/
theorem applyOp_nodup (st st1 : ScnState) (op : BOp)
    (hap : applyOp st op = .ok st1) (h : st.names.Nodup) : st1.names.Nodup := by
  cases op with
  | addTrigger n e lo cs es =>
    simp only [applyOp] at hap
    by_cases hhas : st.hasTrigger n = true
    · rw [if_pos hhas] at hap; exact absurd hap (by simp)
    · rw [if_neg hhas] at hap
      simp only [Except.ok.injEq] at hap
      subst hap
      have hnot : n ∉ st.names := by
        intro hmem
        apply hhas
        simp only [ScnState.names, List.mem_map] at hmem
        obtain ⟨tr, htr, hname⟩ := hmem
        simp only [ScnState.hasTrigger, List.any_eq_true]
        exact ⟨tr, htr, by simp [hname]⟩
      have hgoal : ((st.names) ++ [n]).Nodup := by
        refine List.Nodup.append h (List.nodup_singleton n) ?_
        intro a ha hb
        simp only [List.mem_singleton] at hb
        subst hb
        exact hnot ha
      simpa [ScnState.names] using hgoal
  | appendConds n cs =>
    simp only [applyOp] at hap
    by_cases hhas : st.hasTrigger n = true
    · rw [if_pos hhas] at hap
      simp only [Except.ok.injEq] at hap
      subst hap
      have : ({ st with triggers := st.triggers.map (fun tr =>
          if tr.name = n then { tr with conds := tr.conds ++ cs } else tr) } :
            ScnState).names = st.names := by
        simp only [ScnState.names]
        exact namesOf_updateConds _ _ _
      simpa [ScnState.modifyTrigger, this]
    · rw [if_neg hhas] at hap; exact absurd hap (by simp)
  | appendEffs n es =>
    simp only [applyOp] at hap
    by_cases hhas : st.hasTrigger n = true
    · rw [if_pos hhas] at hap
      simp only [Except.ok.injEq] at hap
      subst hap
      have : ({ st with triggers := st.triggers.map (fun tr =>
          if tr.name = n then { tr with effs := tr.effs ++ es } else tr) } :
            ScnState).names = st.names := by
        simp only [ScnState.names]
        exact namesOf_updateEffs _ _ _
      simpa [ScnState.modifyTrigger, this]
    · rw [if_neg hhas] at hap; exact absurd hap (by simp)
  | activate s t =>
    simp only [applyOp] at hap
    by_cases hmem : (s, t) ∈ st.activates
    · rw [if_pos hmem] at hap; exact absurd hap (by simp)
    · rw [if_neg hmem] at hap
      simp only [Except.ok.injEq] at hap
      subst hap
      simpa [ScnState.names]
  | deactivate s t =>
    simp only [applyOp] at hap
    by_cases hmem : (s, t) ∈ st.deactivates
    · rw [if_pos hmem] at hap; exact absurd hap (by simp)
    · rw [if_neg hmem] at hap
      simp only [Except.ok.injEq] at hap
      subst hap
      simpa [ScnState.names]

theorem runOps_nodup : ∀ (ops : List BOp) (st st' : ScnState),
    runOps ops st = .ok st' → st.names.Nodup → st'.names.Nodup := by
  intro ops
  induction ops with
  | nil =>
    intro st st' h hnd
    simp only [runOps, Except.ok.injEq] at h
    subst h
    exact hnd
  | cons op rest ih =>
    intro st st' h hnd
    rw [runOps] at h
    cases hap : applyOp st op with
    | error e => rw [hap] at h; exact absurd h (by simp)
    | ok st1 =>
      rw [hap] at h
      exact ih st1 st' h (applyOp_nodup st st1 op hap hnd)

theorem runOps_deactivates : ∀ (ops : List BOp) (st st' : ScnState),
    runOps ops st = .ok st' →
    st'.deactivates = st.deactivates ++ ops.flatMap deactContrib := by
  intro ops
  induction ops with
  | nil =>
    intro st st' h
    simp only [runOps] at h
    simp only [Except.ok.injEq] at h
    subst h
    simp
  | cons op rest ih =>
    intro st st' h
    rw [runOps] at h
    cases hap : applyOp st op with
    | error e => rw [hap] at h; exact absurd h (by simp)
    | ok st1 =>
      rw [hap] at h
      have hrest := ih st1 st' h
      have hstep : st1.deactivates = st.deactivates ++ deactContrib op := by
        cases op with
        | addTrigger n e lo cs es =>
          simp only [applyOp] at hap
          by_cases hhas : st.hasTrigger n = true
          · rw [if_pos hhas] at hap; exact absurd hap (by simp)
          · rw [if_neg hhas] at hap
            simp only [Except.ok.injEq] at hap
            subst hap
            simp [deactContrib]
        | appendConds n cs =>
          simp only [applyOp] at hap
          by_cases hhas : st.hasTrigger n = true
          · rw [if_pos hhas] at hap
            simp only [Except.ok.injEq] at hap
            subst hap
            simp [ScnState.modifyTrigger, deactContrib]
          · rw [if_neg hhas] at hap; exact absurd hap (by simp)
        | appendEffs n es =>
          simp only [applyOp] at hap
          by_cases hhas : st.hasTrigger n = true
          · rw [if_pos hhas] at hap
            simp only [Except.ok.injEq] at hap
            subst hap
            simp [ScnState.modifyTrigger, deactContrib]
          · rw [if_neg hhas] at hap; exact absurd hap (by simp)
        | activate s t =>
          simp only [applyOp] at hap
          by_cases hmem : (s, t) ∈ st.activates
          · rw [if_pos hmem] at hap; exact absurd hap (by simp)
          · rw [if_neg hmem] at hap
            simp only [Except.ok.injEq] at hap
            subst hap
            simp [deactContrib]
        | deactivate s t =>
          simp only [applyOp] at hap
          by_cases hmem : (s, t) ∈ st.deactivates
          · rw [if_pos hmem] at hap; exact absurd hap (by simp)
          · rw [if_neg hmem] at hap
            simp only [Except.ok.injEq] at hap
            subst hap
            simp [deactContrib]
      rw [hrest, hstep, List.flatMap_cons, List.append_assoc]

/-! ### Claims C5 and C6: the registry and the edge tables -/

/-- **C5**: for every reachable registry (the name list after any sequence
of `_add_trigger` calls), declaring a trigger whose name is already
registered raises the duplicate-name `ValueError`, and the failed call
leaves the name-to-index registry unchanged — no entry is added or
modified (the raise precedes the insertion in the source). -/
theorem addTrigger_duplicate_raises_and_preserves (ids : List String)
    (name : String) (h : name ∈ ids) :
    (addTriggerName ids name).raised = true ∧
    (addTriggerName ids name).result = ids := by
  constructor <;> simp [addTriggerName, h]

theorem addTrigger_duplicate_raises_and_preserves_witness :
    "a" ∈ ["x", "a"] ∧
    (addTriggerName ["x", "a"] "a").raised = true ∧
    (addTriggerName ["x", "a"] "a").result = ["x", "a"] :=
  ⟨by decide,
   addTrigger_duplicate_raises_and_preserves ["x", "a"] "a" (by decide)⟩

/-- **C6**: adding the exact same `(kind, source, target)` triple twice
raises the duplicate-edge `ValueError` (table unchanged); adding the same
source with a different target succeeds; and the activate and deactivate
kinds are tracked independently, so the same `(source, target)` pair may
be declared once for each kind. -/
theorem addEdge_duplicate_and_kinds_independent (t : EdgeTables)
    (src tgt other : String) :
    ((src, tgt) ∈ t.activates →
      (tablesAddActivate t src tgt).raised = true ∧
      (tablesAddActivate t src tgt).result = t) ∧
    ((src, tgt) ∈ t.deactivates →
      (tablesAddDeactivate t src tgt).raised = true ∧
      (tablesAddDeactivate t src tgt).result = t) ∧
    ((src, tgt) ∉ t.activates →
      (tablesAddActivate t src tgt).raised = false ∧
      (tgt ≠ other → (src, other) ∉ t.activates →
        (tablesAddActivate
          (tablesAddActivate t src tgt).result src other).raised = false) ∧
      ((src, tgt) ∉ t.deactivates →
        (tablesAddDeactivate
          (tablesAddActivate t src tgt).result src tgt).raised = false)) := by
  refine ⟨?_, ?_, ?_⟩
  · intro h
    constructor <;>
      simp [tablesAddActivate, addActivateEdge, h]
  · intro h
    constructor <;>
      simp [tablesAddDeactivate, addDeactivateEdge, h]
  · intro h
    refine ⟨by simp [tablesAddActivate, addActivateEdge, h], ?_, ?_⟩
    · intro hne hother
      simp only [tablesAddActivate, addActivateEdge, if_neg h]
      rw [if_neg]
      intro hmem
      rcases List.mem_append.mp hmem with hmem | hmem
      · exact hother hmem
      · simp only [List.mem_singleton, Prod.mk.injEq] at hmem
        exact hne hmem.2.symm
    · intro hd
      simp [tablesAddActivate, addActivateEdge, tablesAddDeactivate,
        addDeactivateEdge, h, hd]

theorem addEdge_duplicate_and_kinds_independent_witness :
    ("s", "t") ∈ ([("s", "t")] : List (String × String)) ∧
    ((tablesAddActivate ⟨[("s", "t")], []⟩ "s" "t").raised = true ∧
      (tablesAddActivate ⟨[("s", "t")], []⟩ "s" "t").result = ⟨[("s", "t")], []⟩) :=
  ⟨by decide,
   (addEdge_duplicate_and_kinds_independent ⟨[("s", "t")], []⟩ "s" "t" "u").1
     (by decide)⟩

/-! ### Resolution-pass lemmas -/

theorem appendEff_names (st : ScnState) (n : TName) (e : BEffect) :
    (st.appendEff n e).names = st.names := by
  simp only [ScnState.appendEff, ScnState.modifyTrigger, ScnState.names]
  exact namesOf_updateEffs _ _ _

theorem appendEff_triggerIndex (st : ScnState) (n : TName) (e : BEffect)
    (nm : TName) : (st.appendEff n e).triggerIndex nm = st.triggerIndex nm := by
  simp only [ScnState.triggerIndex, appendEff_names]

theorem appendEff_condsOf (st : ScnState) (n : TName) (e : BEffect) (nm : TName) :
    (st.appendEff n e).condsOf nm = st.condsOf nm := by
  simp only [ScnState.appendEff, ScnState.modifyTrigger, ScnState.condsOf]
  exact condsOfList_updateEffs _ _ _ _

theorem appendEff_enabledOf (st : ScnState) (n : TName) (e : BEffect) (nm : TName) :
    (st.appendEff n e).enabledOf nm = st.enabledOf nm := by
  simp only [ScnState.appendEff, ScnState.modifyTrigger, ScnState.enabledOf]
  exact enabledOfList_updateEffs _ _ _ _

theorem idxOfName_some_mem : ∀ (l : List TName) (nm : TName) (k : Nat),
    idxOfName l nm = some k → nm ∈ l := by
  intro l
  induction l with
  | nil => intro nm k h; simp [idxOfName] at h
  | cons n rest ih =>
    intro nm k h
    rw [idxOfName] at h
    by_cases hn : n = nm
    · simp [hn]
    · rw [if_neg hn] at h
      simp only [Option.map_eq_some'] at h
      obtain ⟨k', hk', _⟩ := h
      exact List.mem_cons_of_mem _ (ih nm k' hk')

theorem hasTrigger_of_triggerIndex_some (st : ScnState) (nm : TName) (k : Nat)
    (h : st.triggerIndex nm = some k) : st.hasTrigger nm = true := by
  have hmem := idxOfName_some_mem _ _ _ h
  simp only [ScnState.names, List.mem_map] at hmem
  obtain ⟨tr, htr, hname⟩ := hmem
  simp only [ScnState.hasTrigger, List.any_eq_true]
  exact ⟨tr, htr, by simp [hname]⟩

theorem appendEff_effsOf_eq (st : ScnState) (nm : TName) (e : BEffect)
    (h : st.hasTrigger nm = true) :
    (st.appendEff nm e).effsOf nm = st.effsOf nm ++ [e] := by
  simp only [ScnState.appendEff, ScnState.modifyTrigger, ScnState.effsOf]
  exact effsOfList_updateEffs_eq _ _ _ (by simpa [ScnState.hasTrigger] using h)

theorem appendEff_effsOf_ne (st : ScnState) (n : TName) (e : BEffect)
    (nm : TName) (h : n ≠ nm) :
    (st.appendEff n e).effsOf nm = st.effsOf nm := by
  simp only [ScnState.appendEff, ScnState.modifyTrigger, ScnState.effsOf]
  exact effsOfList_updateEffs_ne _ _ _ _ h

theorem appendEff_activates (st : ScnState) (n : TName) (e : BEffect) :
    (st.appendEff n e).activates = st.activates := rfl

theorem appendEff_deactivates (st : ScnState) (n : TName) (e : BEffect) :
    (st.appendEff n e).deactivates = st.deactivates := rfl

theorem resolveKind_preserves (mk : Nat → BEffect) :
    ∀ (edges : List (TName × TName)) (st st' : ScnState),
      resolveKind mk edges st = .ok st' →
      st'.names = st.names ∧ st'.activates = st.activates ∧
      st'.deactivates = st.deactivates ∧
      (∀ nm, st'.condsOf nm = st.condsOf nm) ∧
      (∀ nm, st'.enabledOf nm = st.enabledOf nm) := by
  intro edges
  induction edges with
  | nil =>
    intro st st' h
    simp only [resolveKind, Except.ok.injEq] at h
    subst h
    exact ⟨rfl, rfl, rfl, fun _ => rfl, fun _ => rfl⟩
  | cons pr rest ih =>
    intro st st' h
    obtain ⟨src, tgt⟩ := pr
    cases hsrc : st.triggerIndex src with
    | none => simp only [resolveKind, hsrc] at h; exact absurd h (by simp)
    | some si =>
      cases htgt : st.triggerIndex tgt with
      | none => simp only [resolveKind, hsrc, htgt] at h; exact absurd h (by simp)
      | some ti =>
        simp only [resolveKind, hsrc, htgt] at h
        obtain ⟨h1, h2, h3, h4, h5⟩ := ih _ _ h
        refine ⟨?_, ?_, ?_, ?_, ?_⟩
        · rw [h1, appendEff_names]
        · rw [h2, appendEff_activates]
        · rw [h3, appendEff_deactivates]
        · intro nm; rw [h4 nm, appendEff_condsOf]
        · intro nm; rw [h5 nm, appendEff_enabledOf]

theorem resolveKind_effsOf (mk : Nat → BEffect) :
    ∀ (edges : List (TName × TName)) (st st' : ScnState),
      resolveKind mk edges st = .ok st' →
      ∀ nm, st'.effsOf nm = st.effsOf nm ++
        (edges.filter (fun pr => pr.1 = nm)).map
          (fun pr => mk ((st.triggerIndex pr.2).getD 0)) := by
  intro edges
  induction edges with
  | nil =>
    intro st st' h nm
    simp only [resolveKind, Except.ok.injEq] at h
    subst h
    simp
  | cons pr rest ih =>
    intro st st' h nm
    obtain ⟨src, tgt⟩ := pr
    cases hsrc : st.triggerIndex src with
    | none => simp only [resolveKind, hsrc] at h; exact absurd h (by simp)
    | some si =>
      cases htgt : st.triggerIndex tgt with
      | none => simp only [resolveKind, hsrc, htgt] at h; exact absurd h (by simp)
      | some ti =>
        simp only [resolveKind, hsrc, htgt] at h
        have hrest := ih _ _ h nm
        have hidx : ∀ t : TName,
            (st.appendEff src (mk ti)).triggerIndex t = st.triggerIndex t :=
          fun t => appendEff_triggerIndex st src (mk ti) t
        rw [hrest]
        have hmap : List.map
            (fun pr => mk (((st.appendEff src (mk ti)).triggerIndex pr.2).getD 0))
            (List.filter (fun pr => pr.1 = nm) rest)
            = List.map (fun pr => mk ((st.triggerIndex pr.2).getD 0))
              (List.filter (fun pr => pr.1 = nm) rest) :=
          List.map_congr_left (fun pr _ => by rw [hidx pr.2])
        rw [hmap]
        by_cases hsn : src = nm
        · subst hsn
          rw [appendEff_effsOf_eq st src (mk ti)
            (hasTrigger_of_triggerIndex_some st src si hsrc)]
          simp [List.filter_cons, htgt, List.append_assoc]
        · rw [appendEff_effsOf_ne st src (mk ti) nm hsn]
          simp [List.filter_cons, hsn]

/-- The complete specification of the final resolution pass
`_add_activate_and_deactivate_effects`: it only appends effects — one
activate effect per declared activate edge, then one deactivate effect per
declared deactivate edge, each referencing the target's numeric id,
grouped per source trigger after that trigger's existing effects. -/
theorem resolveAllEdges_spec (st st' : ScnState)
    (h : resolveAllEdges st = .ok st') :
    st'.names = st.names ∧ st'.activates = st.activates ∧
    st'.deactivates = st.deactivates ∧
    (∀ nm, st'.condsOf nm = st.condsOf nm) ∧
    (∀ nm, st'.enabledOf nm = st.enabledOf nm) ∧
    (∀ nm, st'.effsOf nm = st.effsOf nm
      ++ (st.activates.filter (fun pr => pr.1 = nm)).map
          (fun pr => .activateTrigger ((st.triggerIndex pr.2).getD 0))
      ++ (st.deactivates.filter (fun pr => pr.1 = nm)).map
          (fun pr => .deactivateTrigger ((st.triggerIndex pr.2).getD 0))) := by
  unfold resolveAllEdges at h
  cases hA : resolveKind BEffect.activateTrigger st.activates st with
  | error e => rw [hA] at h; exact absurd h (by simp)
  | ok stA =>
    rw [hA] at h
    obtain ⟨hn1, ha1, hd1, hc1, he1⟩ :=
      resolveKind_preserves BEffect.activateTrigger st.activates st stA hA
    obtain ⟨hn2, ha2, hd2, hc2, he2⟩ :=
      resolveKind_preserves BEffect.deactivateTrigger st.deactivates stA st' h
    have hidxA : ∀ t : TName, stA.triggerIndex t = st.triggerIndex t := by
      intro t
      simp only [ScnState.triggerIndex, hn1]
    refine ⟨by rw [hn2, hn1], by rw [ha2, ha1], by rw [hd2, hd1],
      fun nm => by rw [hc2 nm, hc1 nm], fun nm => by rw [he2 nm, he1 nm], ?_⟩
    intro nm
    have hE1 := resolveKind_effsOf BEffect.activateTrigger st.activates st stA hA nm
    have hE2 := resolveKind_effsOf BEffect.deactivateTrigger st.deactivates stA st' h nm
    rw [hE2, hE1]
    congr 1
    exact List.map_congr_left (fun pr _ => by rw [hidxA pr.2])

/-! ### Claim C7: the final edge-resolution pass -/

/-- **C7 (counterexample)**: the claim that the resolution pass appends a
source's effects in edge-declaration order is false.  Here the source
trigger declares its deactivate edge (to the trigger with index 2) before
its activate edge (to the trigger with index 1), yet the resolved effect
list has the activate effect first: the pass processes the entire activate
mapping before the deactivate mapping, and the two `Dict[str, Set[str]]`
tables do not even record the relative declaration order of edges of
different kinds. -/
theorem resolution_not_declaration_order_counterexample :
    runOps c7Ops ScnState.empty = .ok c7BaseState ∧
    resolveAllEdges c7BaseState = .ok c7ResolvedState ∧
    c7ResolvedState.effsOf (.fixed .objTitle) =
      [.activateTrigger 1, .deactivateTrigger 2] ∧
    ([BEffect.activateTrigger 1, BEffect.deactivateTrigger 2] ≠
      [BEffect.deactivateTrigger 2, BEffect.activateTrigger 1]) := by
  exact ⟨by rfl, by rfl, by decide, by decide⟩

/-- **C7 (amended)**: the final edge-resolution pass appends, for every
declared edge, exactly one activate-trigger or deactivate-trigger effect
to the source trigger referencing the target's numeric index; for each
source trigger the appended effects consist of all its activate effects
followed by all its deactivate effects (not in overall declaration order),
each kind in the edge table's order (the model's declaration order; the
Python per-source sets iterate in unspecified order). -/
theorem resolution_appends_one_effect_per_edge (st st' : ScnState)
    (h : resolveAllEdges st = .ok st') (nm : TName) :
    st'.effsOf nm = st.effsOf nm
      ++ (st.activates.filter (fun pr => pr.1 = nm)).map
          (fun pr => .activateTrigger ((st.triggerIndex pr.2).getD 0))
      ++ (st.deactivates.filter (fun pr => pr.1 = nm)).map
          (fun pr => .deactivateTrigger ((st.triggerIndex pr.2).getD 0)) :=
  (resolveAllEdges_spec st st' h).2.2.2.2.2 nm

theorem resolution_appends_one_effect_per_edge_witness :
    c7ResolvedState.effsOf (.fixed .objTitle) =
      c7BaseState.effsOf (.fixed .objTitle)
      ++ (c7BaseState.activates.filter (fun pr => pr.1 = .fixed .objTitle)).map
          (fun pr => .activateTrigger ((c7BaseState.triggerIndex pr.2).getD 0))
      ++ (c7BaseState.deactivates.filter (fun pr => pr.1 = .fixed .objTitle)).map
          (fun pr => .deactivateTrigger ((c7BaseState.triggerIndex pr.2).getD 0)) :=
  resolution_appends_one_effect_per_edge c7BaseState c7ResolvedState
    (by rfl) (.fixed .objTitle)

/-! ### Claims C3 and C4: the fight point budget -/

theorem fightInit_ok_fields (fd : FightData) (p1Units p2Units : List EUnit)
    (f : FightR) (h : fightInit fd p1Units p2Units = .ok f) :
    f.techs = fd.techs ∧ f.points = fd.points ∧
    f.p1Units = p1Units ∧ f.p2Units = p2Units := by
  unfold fightInit at h
  by_cases h1 : p1Units = []
  · rw [if_pos h1] at h; exact absurd h (by simp)
  rw [if_neg h1] at h
  by_cases h2 : p2Units = []
  · rw [if_pos h2] at h; exact absurd h (by simp)
  rw [if_neg h2] at h
  cases hc1 : consumePoints fd.points 1 p1Units MAX_POINTS with
  | error e => simp only [hc1, bind, Except.bind] at h; exact absurd h (by simp)
  | ok b2 =>
    cases hc2 : consumePoints fd.points 2 p2Units MAX_POINTS with
    | error e => simp only [hc1, hc2, bind, Except.bind] at h; exact absurd h (by simp)
    | ok b1 =>
      simp only [hc1, hc2, bind, Except.bind, Except.ok.injEq] at h
      subst h
      exact ⟨rfl, rfl, rfl, rfl⟩

/-- **C3**: for every Fight whose construction does not raise, the player 1
win bonus plus the sum of the point values of player 2's units equals 100,
and the player 2 win bonus plus the sum of the point values of player 1's
units equals 100. -/
theorem fight_bonus_invariant (fd : FightData) (p1Units p2Units : List EUnit)
    (f : FightR) (h : fightInit fd p1Units p2Units = .ok f) :
    f.p1Bonus + sumPoints fd.points f.p2Units = MAX_POINTS ∧
    f.p2Bonus + sumPoints fd.points f.p1Units = MAX_POINTS := by
  unfold fightInit at h
  by_cases h1 : p1Units = []
  · rw [if_pos h1] at h; exact absurd h (by simp)
  rw [if_neg h1] at h
  by_cases h2 : p2Units = []
  · rw [if_pos h2] at h; exact absurd h (by simp)
  rw [if_neg h2] at h
  cases hc1 : consumePoints fd.points 1 p1Units MAX_POINTS with
  | error e => simp only [hc1, bind, Except.bind] at h; exact absurd h (by simp)
  | ok b2 =>
    cases hc2 : consumePoints fd.points 2 p2Units MAX_POINTS with
    | error e => simp only [hc1, hc2, bind, Except.bind] at h; exact absurd h (by simp)
    | ok b1 =>
      simp only [hc1, hc2, bind, Except.bind, Except.ok.injEq] at h
      subst h
      obtain ⟨hb2, _⟩ := consumePoints_ok fd.points 1 p1Units MAX_POINTS b2 hc1
      obtain ⟨hb1, _⟩ := consumePoints_ok fd.points 2 p2Units MAX_POINTS b1 hc2
      constructor
      · show b1 + sumPoints fd.points p2Units = MAX_POINTS
        rw [hb1]; ring
      · show b2 + sumPoints fd.points p1Units = MAX_POINTS
        rw [hb2]; ring

theorem fight_bonus_invariant_witness :
    fightInit c3fd [c3u1] [c3u2] = .ok c3f ∧
    (c3f.p1Bonus + sumPoints c3fd.points c3f.p2Units = MAX_POINTS ∧
     c3f.p2Bonus + sumPoints c3fd.points c3f.p1Units = MAX_POINTS) :=
  ⟨by rfl, fight_bonus_invariant c3fd [c3u1] [c3u2] c3f (by rfl)⟩

/-- **C4**: a Fight whose declared point values for one side's units sum to
101 or more is rejected during event construction with the point-budget
error ("Player N's units exceed the point limit 100"), and this happens
before any trigger is created or emitted: a failing Fight construction
aborts `make_fights`, and a failing `make_fights` aborts the build pipeline
before `setup_scenario` ever runs. -/
theorem fight_point_budget_error (fd : FightData) (p1Units p2Units : List EUnit) :
    (p1Units ≠ [] → p2Units ≠ [] →
      (∀ u ∈ p1Units, (lookupPoints fd.points u.uname).isSome) →
      101 ≤ sumPoints fd.points p1Units →
      fightInit fd p1Units p2Units = .error (.pointLimitExceeded 1)) ∧
    (fightDataValid fd → p1Units ≠ [] → p2Units ≠ [] →
      (∀ u ∈ p1Units, (lookupPoints fd.points u.uname).isSome) →
      sumPoints fd.points p1Units ≤ MAX_POINTS →
      (∀ u ∈ p2Units, (lookupPoints fd.points u.uname).isSome) →
      101 ≤ sumPoints fd.points p2Units →
      fightInit fd p1Units p2Units = .error (.pointLimitExceeded 2)) ∧
    (∀ (p1All p2All : List EUnit) (center : ℚ × ℚ) (offset : Int)
        (k : Nat) (seen : List String) (rest : List EventInput)
        (out : List MWEvent),
      makeFightsLoop p1All p2All center offset k seen (.fightData fd :: rest)
        = .ok out →
      ∃ here, processFightData fd (tileUnits p1All k) (tileUnits p2All k)
        center offset = .ok here) ∧
    (∀ (env : BuildEnv) (p1All p2All : List EUnit)
        (eventData : List EventInput) (center : ℚ × ℚ) (offset : Int)
        (err : EventErr),
      makeFights p1All p2All eventData center offset = .error err →
      buildPipeline env p1All p2All eventData center offset
        = .error (.eventErr err)) := by
  refine ⟨?_, ?_, ?_, ?_⟩
  · intro h1 h2 hsome hsum
    unfold fightInit
    rw [if_neg h1, if_neg h2]
    have herr := consumePoints_budget_error fd.points 1 p1Units MAX_POINTS
      (by norm_num [MAX_POINTS]) hsome (by simp [MAX_POINTS]; omega)
    simp only [herr, bind, Except.bind]
  · intro hval h1 h2 hsome1 hsum1 hsome2 hsum2
    unfold fightInit
    rw [if_neg h1, if_neg h2]
    have hok := consumePoints_ok_of_fits fd.points 1 hval p1Units MAX_POINTS
      hsome1 (by omega)
    have herr := consumePoints_budget_error fd.points 2 p2Units MAX_POINTS
      (by norm_num [MAX_POINTS]) hsome2 (by simp [MAX_POINTS]; omega)
    simp only [hok, herr, bind, Except.bind]
  · intro p1All p2All center offset k seen rest out h
    rw [makeFightsLoop] at h
    by_cases hemp : tileUnits p1All k = []
    · rw [if_pos hemp] at h; exact absurd h (by simp)
    · rw [if_neg hemp] at h
      cases hp : processFightData fd (tileUnits p1All k) (tileUnits p2All k)
          center offset with
      | error e => simp only [hp, bind, Except.bind] at h; exact absurd h (by simp)
      | ok here => exact ⟨here, rfl⟩
  · intro env p1All p2All eventData center offset err h
    unfold buildPipeline
    rw [h]

theorem fight_point_budget_error_witness :
    fightInit c4fd [c4u1] [c4u2] = .error (.pointLimitExceeded 1) :=
  (fight_point_budget_error c4fd [c4u1] [c4u2]).1
    (by decide) (by decide) (by decide) (by decide)

/-! ### Deactivate-edge counting for the win triggers -/

theorem count_deacts_eq_zero (ops : List BOp) (d : TName × TName)
    (h : ∀ s t, BOp.deactivate s t ∈ ops → (s, t) ≠ d) :
    (ops.flatMap deactContrib).count d = 0 := by
  rw [List.count_eq_zero]
  intro hmem
  obtain ⟨op, hop, hdc⟩ := List.mem_flatMap.mp hmem
  cases op with
  | deactivate s t =>
    simp only [deactContrib, List.mem_singleton] at hdc
    exact h s t hop hdc.symm
  | addTrigger n en lo cs es => simp [deactContrib] at hdc
  | appendConds n cs => simp [deactContrib] at hdc
  | appendEffs n es => simp [deactContrib] at hdc
  | activate s t => simp [deactContrib] at hdc

theorem rtsOps_deact_src (i : Nat) (e pe : MWEvent) (ne : Option MWEvent)
    (nr : Nat) (objN : List TName) (s t : TName)
    (h : BOp.deactivate s t ∈ rtsOps i e pe ne nr objN) :
    s = cleanupName i ∨ s = incName 0 := by
  simp only [rtsOps] at h
  split_ifs at h <;>
    simp only [List.mem_append, List.mem_cons, List.mem_map,
      List.mem_singleton, List.not_mem_nil, or_false, false_or] at h <;>
    aesop

theorem fightUnitsOps_deact (i p : Nat) (ulst : List EUnit)
    (pts : List (String × Int)) (s t : TName)
    (h : BOp.deactivate s t ∈ fightUnitsOps i p ulst pts) :
    ∃ nm k, t = TName.fightPts i p nm k := by
  simp only [fightUnitsOps, createUnitSequenceOps, List.mem_append,
    List.mem_flatMap, List.mem_map, List.mem_cons, List.not_mem_nil] at h
  aesop

theorem firstEnabled_cons_none (nm : TName) (op : BOp) (ops : List BOp)
    (h : enabledContrib nm op = none) :
    firstEnabled nm (op :: ops) = firstEnabled nm ops := by
  simp [firstEnabled, h]

theorem firstEnabled_append_of_none (nm : TName) (l1 l2 : List BOp)
    (h : ∀ op ∈ l1, enabledContrib nm op = none) :
    firstEnabled nm (l1 ++ l2) = firstEnabled nm l2 := by
  induction l1 with
  | nil => rfl
  | cons op rest ih =>
    rw [List.cons_append, firstEnabled_cons_none nm op (rest ++ l2)
      (h op (List.mem_cons_self op rest))]
    exact ih (fun o ho => h o (List.mem_cons_of_mem op ho))

theorem firstEnabled_append_some (nm : TName) (l1 l2 : List BOp) (b : Bool)
    (h : firstEnabled nm l1 = some b) :
    firstEnabled nm (l1 ++ l2) = some b := by
  induction l1 with
  | nil => simp [firstEnabled] at h
  | cons op rest ih =>
    rw [List.cons_append]
    rw [firstEnabled] at h ⊢
    cases he : enabledContrib nm op with
    | none => rw [he] at h; exact ih h
    | some b₁ => rw [he] at h; exact h

theorem rtsOps_wins_enabled (i : Nat) (e pe : MWEvent) (ne : Option MWEvent)
    (nr : Nat) (objN : List TName) (w : TName)
    (hw : w = p1WinsName i ∨ w = p2WinsName i) :
    firstEnabled w (rtsOps i e pe ne nr objN) = some false := by
  have hini : ∀ j, initName j ≠ w := by
    intro j
    rcases hw with hw | hw <;> rw [hw] <;> simp [initName, p1WinsName,
      p2WinsName] <;> split <;> simp
  have hpreA : ∀ op ∈ (if i = 0 then
        [BOp.addTrigger (initName 0) false false [] [],
         BOp.activate (initName 0) (TName.fixed .tiebreakerObj)]
       else
        [BOp.addTrigger (initName i) true false [condVarEq "round" i] []]
        ++ ((if i = 1 then [BOp.activate (initName i) (TName.fixed .roundObjHeader)]
            else [])
        ++ objN.map (fun o => BOp.activate (initName i) o))),
      enabledContrib w op = none := by
    intro op hop
    cases op with
    | addTrigger n en lo cs es =>
      have hn : n = initName 0 ∨ n = initName i := by
        split_ifs at hop <;>
          simp only [List.mem_append, List.mem_cons, List.mem_map,
            List.not_mem_nil, or_false, false_or] at hop <;>
          aesop
      simp only [enabledContrib]
      rcases hn with hn | hn <;> rw [hn] <;> simp [hini]
    | appendConds n cs => rfl
    | appendEffs n es => rfl
    | activate s t => rfl
    | deactivate s t => rfl
  have hpreB : ∀ op ∈ (if isMinigameEv e ∨ (¬isMinigameEv e ∧
        (i = 1 ∨ isMinigameEv pe)) then
        [BOp.appendEffs (initName i) revealerEffs]
      else ([] : List BOp)),
      enabledContrib w op = none := by
    intro op hop
    split_ifs at hop <;>
      simp only [List.mem_singleton, List.not_mem_nil] at hop
    subst hop; rfl
  rw [rtsOps]
  simp only [List.append_assoc]
  rw [firstEnabled_append_of_none w _ _ hpreA,
    firstEnabled_append_of_none w _ _ hpreB]
  rcases hw with hw | hw <;> subst hw <;>
    simp [firstEnabled, enabledContrib, initName, beginName, p1WinsName,
      p2WinsName]

theorem rtsOps_winDeacts_zero (i : Nat) (e pe : MWEvent) (ne : Option MWEvent)
    (nr : Nat) (objN : List TName) (a b : TName)
    (ha : a = p1WinsName i ∨ a = p2WinsName i) :
    ((rtsOps i e pe ne nr objN).flatMap deactContrib).count (a, b) = 0 := by
  apply count_deacts_eq_zero
  intro s t hmem heq
  rw [Prod.mk.injEq] at heq
  rcases rtsOps_deact_src i e pe ne nr objN s t hmem with hs | hs <;>
    rcases ha with ha | ha <;> rw [hs, ha] at heq <;>
    simp [cleanupName, incName, p1WinsName, p2WinsName] at heq

theorem fightUnitsOps_winDeacts_zero (i p : Nat) (ulst : List EUnit)
    (pts : List (String × Int)) (a b : TName) (j : Nat)
    (hb : b = p1WinsName j ∨ b = p2WinsName j) :
    ((fightUnitsOps i p ulst pts).flatMap deactContrib).count (a, b) = 0 := by
  apply count_deacts_eq_zero
  intro s t hmem heq
  obtain ⟨nm, k, ht⟩ := fightUnitsOps_deact i p ulst pts s t hmem
  rw [Prod.mk.injEq] at heq
  rcases hb with hb | hb <;> rw [ht, hb] at heq <;>
    simp [p1WinsName, p2WinsName] at heq

theorem addFightOps_winDeacts (i : Nat) (e pe : MWEvent) (ne : Option MWEvent)
    (nr : Nat) (objN : List TName) (f : FightR) :
    ((addFightOps i e pe ne nr objN f).flatMap deactContrib).count
        (p1WinsName i, p2WinsName i) = 1 ∧
    ((addFightOps i e pe ne nr objN f).flatMap deactContrib).count
        (p2WinsName i, p1WinsName i) = 1 := by
  rw [addFightOps]
  simp only [List.append_assoc, List.flatMap_append, List.count_append]
  rw [rtsOps_winDeacts_zero i e pe ne nr objN _ _ (Or.inl rfl),
    rtsOps_winDeacts_zero i e pe ne nr objN _ _ (Or.inr rfl),
    fightUnitsOps_winDeacts_zero i 1 f.p1Units f.points _ _ i (Or.inr rfl),
    fightUnitsOps_winDeacts_zero i 1 f.p1Units f.points _ _ i (Or.inl rfl),
    fightUnitsOps_winDeacts_zero i 2 f.p2Units f.points _ _ i (Or.inr rfl),
    fightUnitsOps_winDeacts_zero i 2 f.p2Units f.points _ _ i (Or.inl rfl)]
  constructor <;>
    simp [deactContrib, List.count_cons, p1WinsName, p2WinsName]

theorem stb_scout_chunk_zero (env : BuildEnv) (i : Nat) (a b : TName) (j : Nat)
    (ha : a = p1WinsName j ∨ a = p2WinsName j) :
    (((env.stbScoutPlayers.flatMap (fun p =>
       [BOp.appendEffs (initName i) [.other .createObject, .other .changeOwnership],
        BOp.appendEffs (beginName i) [.other .changeOwnership],
        BOp.addTrigger (.rp .stbScoutRespawn i p) false true [condPop0] [],
        BOp.activate (beginName i) (.rp .stbScoutRespawn i p),
        BOp.deactivate (.rp .stbScoutRespawn i p) (.rp .stbScoutRespawn i p),
        BOp.activate (.rp .stbScoutRespawn i p) (.rp .stbScoutCountdown i p),
        BOp.deactivate (cleanupName i) (.rp .stbScoutRespawn i p),
        BOp.addTrigger (.rp .stbScoutCountdown i p) false false [.timer 10]
          [.other .createObject],
        BOp.activate (.rp .stbScoutCountdown i p) (.rp .stbScoutRespawn i p),
        BOp.deactivate (cleanupName i) (.rp .stbScoutCountdown i p)]))).flatMap
      deactContrib).count (a, b) = 0 := by
  apply count_deacts_eq_zero
  intro s t hmem heq
  rw [Prod.mk.injEq] at heq
  obtain ⟨hs, ht⟩ := heq
  subst hs; subst ht
  rcases ha with ha | ha <;> subst ha <;>
    simp [List.mem_flatMap, p1WinsName, p2WinsName, cleanupName] at hmem

theorem stb_flag_chunk_zero (env : BuildEnv) (i : Nat) (a b : TName) (j : Nat)
    (hb : b = p1WinsName j ∨ b = p2WinsName j) :
    (((env.stbFlags.flatMap (fun fl =>
       [BOp.appendEffs (initName i) [.other .createObject, .other .changeOwnership],
        BOp.appendEffs (beginName i) [.other .changeOwnership],
        BOp.activate (beginName i) (.stbCapture i fl.1 fl.2.1 fl.2.2),
        BOp.addTrigger (.stbCapture i fl.1 fl.2.1 fl.2.2) false false
          [.other .objectInArea]
          ([.other .removeObject, .other .replaceObject]
            ++ (scoreEffs fl.1 BOAR_POINTS
            ++ [.changeVar (if fl.1 = 1 then "p1-boar" else "p2-boar") 1 .add])),
        BOp.deactivate (p1WinsName i) (.stbCapture i fl.1 fl.2.1 fl.2.2),
        BOp.deactivate (p2WinsName i) (.stbCapture i fl.1 fl.2.1 fl.2.2)]))).flatMap
      deactContrib).count (a, b) = 0 := by
  apply count_deacts_eq_zero
  intro s t hmem heq
  rw [Prod.mk.injEq] at heq
  obtain ⟨hs, ht⟩ := heq
  subst hs; subst ht
  rcases hb with hb | hb <;> subst hb <;>
    simp [List.mem_flatMap, p1WinsName, p2WinsName] at hmem

theorem stbOps_winDeacts (env : BuildEnv) (i : Nat) (e pe : MWEvent)
    (ne : Option MWEvent) (nr : Nat) (objN : List TName) :
    ((stbOps env i e pe ne nr objN).flatMap deactContrib).count
        (p1WinsName i, p2WinsName i) = 1 ∧
    ((stbOps env i e pe ne nr objN).flatMap deactContrib).count
        (p2WinsName i, p1WinsName i) = 1 := by
  rw [stbOps]
  simp only [List.append_assoc, List.flatMap_append, List.count_append]
  rw [rtsOps_winDeacts_zero i e pe ne nr objN _ _ (Or.inl rfl),
    rtsOps_winDeacts_zero i e pe ne nr objN _ _ (Or.inr rfl),
    stb_scout_chunk_zero env i _ _ i (Or.inl rfl),
    stb_scout_chunk_zero env i _ _ i (Or.inr rfl),
    stb_flag_chunk_zero env i _ _ i (Or.inr rfl),
    stb_flag_chunk_zero env i _ _ i (Or.inl rfl)]
  constructor <;>
    simp [deactContrib, List.count_cons, p1WinsName, p2WinsName]

theorem galley_loop_chunk_zero (env : BuildEnv) (i : Nat) (a b : TName) (j : Nat)
    (hb : b = p1WinsName j ∨ b = p2WinsName j) :
    (([(1, env.galleys1), (2, env.galleys2)].flatMap (fun pr =>
       ((List.range pr.2).flatMap (fun _ =>
          createUnitSequenceOps (initName i) (beginName i) false))
       ++ ((List.range pr.2).flatMap (fun k =>
            [BOp.addTrigger (.rpk .galleyPts i pr.1 k) false false
               [.other .objectInArea] [],
             BOp.activate (beginName i) (.rpk .galleyPts i pr.1 k),
             BOp.deactivate (if pr.1 = 1 then p1WinsName i else p2WinsName i)
               (.rpk .galleyPts i pr.1 k),
             BOp.appendEffs (.rpk .galleyPts i pr.1 k)
               (scoreEffs (otherPlayer pr.1) (MAX_POINTS / pr.2)),
             BOp.appendEffs (cleanupName i)
               [.other .removeObject]])))).flatMap
      deactContrib).count (a, b) = 0 := by
  apply count_deacts_eq_zero
  intro s t hmem heq
  rw [Prod.mk.injEq] at heq
  obtain ⟨hs, ht⟩ := heq
  subst hs; subst ht
  rcases hb with hb | hb <;> subst hb <;>
    simp [List.mem_flatMap, createUnitSequenceOps, p1WinsName,
      p2WinsName] at hmem

theorem galleyOps_winDeacts (env : BuildEnv) (i : Nat) (e pe : MWEvent)
    (ne : Option MWEvent) (nr : Nat) (objN : List TName) :
    ((galleyOps env i e pe ne nr objN).flatMap deactContrib).count
        (p1WinsName i, p2WinsName i) = 1 ∧
    ((galleyOps env i e pe ne nr objN).flatMap deactContrib).count
        (p2WinsName i, p1WinsName i) = 1 := by
  rw [galleyOps]
  simp only [List.append_assoc, List.flatMap_append, List.count_append]
  rw [rtsOps_winDeacts_zero i e pe ne nr objN _ _ (Or.inl rfl),
    rtsOps_winDeacts_zero i e pe ne nr objN _ _ (Or.inr rfl),
    galley_loop_chunk_zero env i _ _ i (Or.inr rfl),
    galley_loop_chunk_zero env i _ _ i (Or.inl rfl)]
  constructor <;>
    simp [deactContrib, List.count_cons, p1WinsName, p2WinsName]

theorem regicidePlayerOps_winDeacts_zero (env : BuildEnv) (i p : Nat)
    (ulst : List Nat) (a b : TName) (j : Nat)
    (hb : b = p1WinsName j ∨ b = p2WinsName j) :
    ((regicidePlayerOps env i p ulst).flatMap deactContrib).count (a, b) = 0 := by
  apply count_deacts_eq_zero
  intro s t hmem heq
  rw [Prod.mk.injEq] at heq
  obtain ⟨hs, ht⟩ := heq
  subst hs; subst ht
  rcases hb with hb | hb <;> subst hb <;>
    simp [regicidePlayerOps, createUnitSequenceOps, p1WinsName,
      p2WinsName] at hmem

theorem regicideOps_winDeacts (env : BuildEnv) (i : Nat) (e pe : MWEvent)
    (ne : Option MWEvent) (nr : Nat) (objN : List TName) :
    ((regicideOps env i e pe ne nr objN).flatMap deactContrib).count
        (p1WinsName i, p2WinsName i) = 1 ∧
    ((regicideOps env i e pe ne nr objN).flatMap deactContrib).count
        (p2WinsName i, p1WinsName i) = 1 := by
  rw [regicideOps]
  simp only [List.append_assoc, List.flatMap_append, List.count_append]
  rw [rtsOps_winDeacts_zero i e pe ne nr objN _ _ (Or.inl rfl),
    rtsOps_winDeacts_zero i e pe ne nr objN _ _ (Or.inr rfl),
    regicidePlayerOps_winDeacts_zero env i 1 env.regUnits1 _ _ i (Or.inr rfl),
    regicidePlayerOps_winDeacts_zero env i 1 env.regUnits1 _ _ i (Or.inl rfl),
    regicidePlayerOps_winDeacts_zero env i 2 env.regUnits2 _ _ i (Or.inr rfl),
    regicidePlayerOps_winDeacts_zero env i 2 env.regUnits2 _ _ i (Or.inl rfl)]
  constructor <;> split_ifs <;>
    simp [deactContrib, List.count_cons, p1WinsName, p2WinsName]

theorem firstEnabled_rts_prefix (i : Nat) (e pe : MWEvent) (ne : Option MWEvent)
    (nr : Nat) (objN : List TName) (rest : List BOp) (w : TName)
    (hw : w = p1WinsName i ∨ w = p2WinsName i) :
    firstEnabled w (rtsOps i e pe ne nr objN ++ rest) = some false :=
  firstEnabled_append_some w _ rest false (rtsOps_wins_enabled i e pe ne nr objN w hw)

theorem firstEnabled_header_cons (i : Nat) (rest : List BOp) (w : TName)
    (hw : w = p1WinsName i ∨ w = p2WinsName i) :
    firstEnabled w (BOp.addTrigger (.ri .headerMinigame i) false false [] []
      :: rest) = firstEnabled w rest := by
  apply firstEnabled_cons_none
  rcases hw with hw | hw <;> subst hw <;>
    simp [enabledContrib, p1WinsName, p2WinsName]

/-! ### Claim C2: mutual win-trigger deactivation -/

/-- **C2**: for every round whose compiler completes — the fight, Steal the
Bacon, Galley Micro, and Regicide variants, including the tiebreaker fight
at index 0 — the ops declare exactly one deactivate edge from the
player-1-wins trigger to the player-2-wins trigger and exactly one the
other way (the resolution pass turns each edge into exactly one deactivate
effect, by `resolveAllEdges_spec`), and both win triggers are created
disabled.  The DauT Castle and Castle Siege compilers never complete: both
call `util_triggers.add_effect_modify_res` with three arguments where it
requires four, raising an uncaught `TypeError` right after the round
prologue, so no compiled round lacks the mutual deactivation.  The final
conjunct bridges declared edges to the emitted deactivates table. -/
theorem mutual_win_deactivation_by_variant (env : BuildEnv)
    (events : List MWEvent) (numRounds : Nat) (robj : List (List TName))
    (i : Nat) (hi : i ≠ 0) :
    (∀ e ops tr, roundOps env events numRounds robj i e = .ok (ops, tr) →
      tr = none →
      (ops.flatMap deactContrib).count (p1WinsName i, p2WinsName i) = 1 ∧
      (ops.flatMap deactContrib).count (p2WinsName i, p1WinsName i) = 1 ∧
      firstEnabled (p1WinsName i) ops = some false ∧
      firstEnabled (p2WinsName i) ops = some false) ∧
    (∀ f ops tr, roundOps env events numRounds robj 0 (.fight f)
        = .ok (ops, tr) →
      (ops.flatMap deactContrib).count (p1WinsName 0, p2WinsName 0) = 1 ∧
      (ops.flatMap deactContrib).count (p2WinsName 0, p1WinsName 0) = 1 ∧
      firstEnabled (p1WinsName 0) ops = some false ∧
      firstEnabled (p2WinsName 0) ops = some false) ∧
    (∀ ops tr, roundOps env events numRounds robj i
        (.minigame "DauT Castle") = .ok (ops, tr) →
      tr = some BErr.typeError) ∧
    (∀ ops tr, roundOps env events numRounds robj i
        (.minigame "Castle Siege") = .ok (ops, tr) →
      tr = some BErr.typeError) ∧
    (∀ (ops : List BOp) (st st₁ : ScnState), runOps ops st = .ok st₁ →
      st₁.deactivates = st.deactivates ++ ops.flatMap deactContrib) := by
  have hw1 : ∀ j : Nat, p1WinsName j = p1WinsName j ∨ p1WinsName j = p2WinsName j :=
    fun j => Or.inl rfl
  have hw2 : ∀ j : Nat, p2WinsName j = p1WinsName j ∨ p2WinsName j = p2WinsName j :=
    fun j => Or.inr rfl
  refine ⟨?_, ?_, ?_, ?_,
    fun ops st st₁ h => runOps_deactivates ops st st₁ h⟩
  · intro e ops tr h htr
    subst htr
    cases e with
    | fight f =>
      have hro : roundOps env events numRounds robj i (.fight f)
          = .ok ([BOp.addTrigger (.ri .headerFight i) false false [] []]
            ++ addFightOps i (.fight f) (prevEvent events i)
              (events.get? (i + 1)) numRounds ((robj.get? i).getD []) f,
            none) := by
        simp [roundOps, hi]
      rw [hro, Except.ok.injEq, Prod.mk.injEq] at h
      obtain ⟨hops, -⟩ := h
      subst hops
      obtain ⟨h1, h2⟩ := addFightOps_winDeacts i (.fight f)
        (prevEvent events i) (events.get? (i + 1)) numRounds
        ((robj.get? i).getD []) f
      refine ⟨by simpa [deactContrib] using h1,
        by simpa [deactContrib] using h2, ?_, ?_⟩ <;>
      · rw [List.singleton_append,
          firstEnabled_cons_none _ _ _
            (by simp [enabledContrib, p1WinsName, p2WinsName]),
          addFightOps]
        simp only [List.append_assoc]
        exact firstEnabled_rts_prefix i (.fight f) (prevEvent events i)
          (events.get? (i + 1)) numRounds ((robj.get? i).getD []) _ _
          (by simp [p1WinsName, p2WinsName])
    | minigame n =>
      simp only [roundOps, if_neg hi] at h
      split_ifs at h with h1 h2 h3 h4 h5 h6 h7 h8 <;>
        simp only [Except.ok.injEq, Prod.mk.injEq, reduceCtorEq,
          and_false, false_and] at h
      · obtain ⟨hops, -⟩ := h
        subst hops
        obtain ⟨hc1, hc2⟩ := stbOps_winDeacts env i (.minigame n)
          (prevEvent events i) (events.get? (i + 1)) numRounds
          ((robj.get? i).getD [])
        refine ⟨by simpa [deactContrib] using hc1,
          by simpa [deactContrib] using hc2, ?_, ?_⟩ <;>
        · rw [List.singleton_append,
            firstEnabled_cons_none _ _ _
              (by simp [enabledContrib, p1WinsName, p2WinsName]),
            stbOps]
          simp only [List.append_assoc]
          exact firstEnabled_rts_prefix i (.minigame n) (prevEvent events i)
            (events.get? (i + 1)) numRounds ((robj.get? i).getD []) _ _
            (by simp [p1WinsName, p2WinsName])
      · obtain ⟨hops, -⟩ := h
        subst hops
        obtain ⟨hc1, hc2⟩ := galleyOps_winDeacts env i (.minigame n)
          (prevEvent events i) (events.get? (i + 1)) numRounds
          ((robj.get? i).getD [])
        refine ⟨by simpa [deactContrib] using hc1,
          by simpa [deactContrib] using hc2, ?_, ?_⟩ <;>
        · rw [List.singleton_append,
            firstEnabled_cons_none _ _ _
              (by simp [enabledContrib, p1WinsName, p2WinsName]),
            galleyOps]
          simp only [List.append_assoc]
          exact firstEnabled_rts_prefix i (.minigame n) (prevEvent events i)
            (events.get? (i + 1)) numRounds ((robj.get? i).getD []) _ _
            (by simp [p1WinsName, p2WinsName])
      · obtain ⟨hops, -⟩ := h
        subst hops
        obtain ⟨hc1, hc2⟩ := regicideOps_winDeacts env i (.minigame n)
          (prevEvent events i) (events.get? (i + 1)) numRounds
          ((robj.get? i).getD [])
        refine ⟨by simpa [deactContrib] using hc1,
          by simpa [deactContrib] using hc2, ?_, ?_⟩ <;>
        · rw [List.singleton_append,
            firstEnabled_cons_none _ _ _
              (by simp [enabledContrib, p1WinsName, p2WinsName]),
            regicideOps]
          simp only [List.append_assoc]
          exact firstEnabled_rts_prefix i (.minigame n) (prevEvent events i)
            (events.get? (i + 1)) numRounds ((robj.get? i).getD []) _ _
            (by simp [p1WinsName, p2WinsName])
  · intro f ops tr h
    have hro : roundOps env events numRounds robj 0 (.fight f)
        = .ok ([BOp.addTrigger (.fixed .headerTiebreaker) false false [] []]
          ++ addFightOps 0 (.fight f) (prevEvent events 0)
            (events.get? 1) numRounds ((robj.get? 0).getD []) f,
          none) := by
      simp [roundOps]
    rw [hro, Except.ok.injEq, Prod.mk.injEq] at h
    obtain ⟨hops, -⟩ := h
    subst hops
    obtain ⟨h1, h2⟩ := addFightOps_winDeacts 0 (.fight f)
      (prevEvent events 0) (events.get? 1) numRounds
      ((robj.get? 0).getD []) f
    refine ⟨by simpa [deactContrib] using h1,
      by simpa [deactContrib] using h2, ?_, ?_⟩ <;>
    · rw [List.singleton_append,
        firstEnabled_cons_none _ _ _
          (by simp [enabledContrib, p1WinsName, p2WinsName]),
        addFightOps]
      simp only [List.append_assoc]
      exact firstEnabled_rts_prefix 0 (.fight f) (prevEvent events 0)
        (events.get? 1) numRounds ((robj.get? 0).getD []) _ _
        (by simp [p1WinsName, p2WinsName])
  · intro ops tr h
    simp only [roundOps, if_neg hi] at h
    split_ifs at h <;>
      simp only [Except.ok.injEq, Prod.mk.injEq] at h <;>
      first
        | exact h.2.symm
        | simp_all
  · intro ops tr h
    simp only [roundOps, if_neg hi] at h
    split_ifs at h <;>
      simp only [Except.ok.injEq, Prod.mk.injEq] at h <;>
      first
        | exact h.2.symm
        | simp_all

theorem mutual_win_deactivation_by_variant_witness :
    ((1 : Nat) ≠ 0) ∧
    ((∀ e ops tr, roundOps c2Env c2Events 1 [] 1 e = .ok (ops, tr) →
      tr = none →
      (ops.flatMap deactContrib).count (p1WinsName 1, p2WinsName 1) = 1 ∧
      (ops.flatMap deactContrib).count (p2WinsName 1, p1WinsName 1) = 1 ∧
      firstEnabled (p1WinsName 1) ops = some false ∧
      firstEnabled (p2WinsName 1) ops = some false) ∧
    (∀ f ops tr, roundOps c2Env c2Events 1 [] 0 (.fight f)
        = .ok (ops, tr) →
      (ops.flatMap deactContrib).count (p1WinsName 0, p2WinsName 0) = 1 ∧
      (ops.flatMap deactContrib).count (p2WinsName 0, p1WinsName 0) = 1 ∧
      firstEnabled (p1WinsName 0) ops = some false ∧
      firstEnabled (p2WinsName 0) ops = some false) ∧
    (∀ ops tr, roundOps c2Env c2Events 1 [] 1
        (.minigame "DauT Castle") = .ok (ops, tr) →
      tr = some BErr.typeError) ∧
    (∀ ops tr, roundOps c2Env c2Events 1 [] 1
        (.minigame "Castle Siege") = .ok (ops, tr) →
      tr = some BErr.typeError) ∧
    (∀ (ops : List BOp) (st st₁ : ScnState), runOps ops st = .ok st₁ →
      st₁.deactivates = st.deactivates ++ ops.flatMap deactContrib)) :=
  ⟨by decide,
   mutual_win_deactivation_by_variant c2Env c2Events 1 [] 1 (by decide)⟩

/-! ### Claim C8: position of the sibling-deactivate effects -/

set_option maxRecDepth 10000 in
/-- **C8 (counterexample)**: the claim fails in the emitted graph of the
single-fight event list, an input the program accepts end to end: the
tiebreaker round's player-1-wins trigger carries exactly one effect
deactivating its sibling, but its first effect is the `p1-score`
change-variable effect the compiler added — the deactivate effects are
appended by the resolution pass after all compiler-added effects and after
the activate effects, so they are the last effects, not the first. -/
theorem sibling_deactivate_not_first_counterexample :
    exceptIsOk (setupScenario c2Env c8Events) = true ∧
    (c8Final.effsOf (p1WinsName 0)).countP
      (isDeactTargeting c8Final (p2WinsName 0)) = 1 ∧
    (c8Final.effsOf (p1WinsName 0)).head?
      = some (.changeVar "p1-score" 70 .add) ∧
    isDeactivateEff (.changeVar "p1-score" 70 ChangeVarOp.add) = false :=
  ⟨by decide, by decide, by decide, by decide⟩

/-- **C8 (amended)**: for every trigger of a resolved graph, the effect
list is the compiler-added effects, then one activate effect per declared
activate edge, then one deactivate effect per declared deactivate edge:
the sibling-deactivate effects of an exclusive-outcome group member are
the last effects of its ordered effect list, not the first. -/
theorem sibling_deactivates_appended_last (st st₁ : ScnState)
    (h : resolveAllEdges st = .ok st₁) (nm : TName) :
    st₁.effsOf nm
      = (st.effsOf nm
        ++ (st.activates.filter (fun pr => pr.1 = nm)).map
            (fun pr => BEffect.activateTrigger ((st.triggerIndex pr.2).getD 0)))
        ++ (st.deactivates.filter (fun pr => pr.1 = nm)).map
            (fun pr => BEffect.deactivateTrigger
              ((st.triggerIndex pr.2).getD 0)) := by
  have hs := (resolveAllEdges_spec st st₁ h).2.2.2.2.2 nm
  rw [hs]

theorem sibling_deactivates_appended_last_witness :
    resolveAllEdges c7BaseState = .ok c7ResolvedState ∧
    c7ResolvedState.effsOf (.fixed .objTitle)
      = (c7BaseState.effsOf (.fixed .objTitle)
        ++ (c7BaseState.activates.filter
            (fun pr => pr.1 = TName.fixed .objTitle)).map
            (fun pr => BEffect.activateTrigger
              ((c7BaseState.triggerIndex pr.2).getD 0)))
        ++ (c7BaseState.deactivates.filter
            (fun pr => pr.1 = TName.fixed .objTitle)).map
            (fun pr => BEffect.deactivateTrigger
              ((c7BaseState.triggerIndex pr.2).getD 0)) :=
  ⟨by rfl, sibling_deactivates_appended_last c7BaseState c7ResolvedState
    (by rfl) (.fixed .objTitle)⟩

/-! ### Round-counter wiring lemmas -/

theorem flatMap_eq_nil_of_forall {α β : Type} (l : List α) (f : α → List β)
    (h : ∀ a ∈ l, f a = []) : l.flatMap f = [] := by
  induction l with
  | nil => rfl
  | cons a rest ih =>
    rw [List.flatMap_cons, h a (List.mem_cons_self a rest),
      List.nil_append]
    exact ih (fun x hx => h x (List.mem_cons_of_mem a hx))

theorem flatMap_map_nil {α β γ : Type} (l : List α) (g : α → β)
    (f : β → List γ) (h : ∀ a, f (g a) = []) : (l.map g).flatMap f = [] := by
  apply flatMap_eq_nil_of_forall
  intro b hb
  obtain ⟨a, _, rfl⟩ := List.mem_map.mp hb
  exact h a

theorem countP_acts_eq_zero (ops : List BOp) (p : TName × TName → Bool)
    (h : ∀ s t, BOp.activate s t ∈ ops → p (s, t) = false) :
    (ops.flatMap actContrib).countP p = 0 := by
  rw [List.countP_eq_zero]
  intro pr hpr
  obtain ⟨op, hop, hc⟩ := List.mem_flatMap.mp hpr
  cases op with
  | activate s t =>
    simp only [actContrib, List.mem_singleton] at hc
    subst hc
    simp [h s t hop]
  | addTrigger n en lo cs es => simp [actContrib] at hc
  | appendConds n cs => simp [actContrib] at hc
  | appendEffs n es => simp [actContrib] at hc
  | deactivate s t => simp [actContrib] at hc

theorem rtsOps_act_tgt (i : Nat) (e pe : MWEvent) (ne : Option MWEvent)
    (nr : Nat) (objN : List TName) (s t : TName)
    (h : BOp.activate s t ∈ rtsOps i e pe ne nr objN) :
    t = TName.fixed .tiebreakerObj ∨ t = TName.fixed .roundObjHeader ∨
    t ∈ objN ∨ t = beginName i ∨ t = cleanupName i ∨ t = incName i ∨
    t = TName.fixed .revealerHide ∨ t = TName.fixed .checkWinner := by
  simp only [rtsOps] at h
  split_ifs at h <;>
    simp only [List.mem_append, List.mem_cons, List.mem_map,
      List.mem_singleton, List.not_mem_nil, or_false, false_or] at h <;>
    aesop

theorem rtsOps_init_conds (i : Nat) (e pe : MWEvent) (ne : Option MWEvent)
    (nr : Nat) (objN : List TName) (hi : i ≠ 0) :
    (rtsOps i e pe ne nr objN).flatMap (condContrib (initName i))
      = [condVarEq "round" i] := by
  rw [rtsOps]
  simp [hi, List.flatMap_append,
    apply_ite (fun l : List BOp => l.flatMap (condContrib (TName.ri RName.roundInit i))),
    condContrib, initName, beginName, cleanupName, incName,
    p1WinsName, p2WinsName]

theorem rtsOps_inc_effs (i : Nat) (e pe : MWEvent) (ne : Option MWEvent)
    (nr : Nat) (objN : List TName) (hi : i ≠ 0) :
    (rtsOps i e pe ne nr objN).flatMap (effContrib (incName i))
      = [BEffect.changeVar "round" 1 .add] := by
  rw [rtsOps]
  simp [hi, List.flatMap_append,
    apply_ite (fun l : List BOp => l.flatMap (effContrib (TName.ri RName.roundInc i))),
    effContrib, initName, beginName, cleanupName, incName,
    p1WinsName, p2WinsName]
  rw [flatMap_map_nil _ _ _ (fun o => rfl),
    flatMap_map_nil _ _ _ (fun o => rfl)]
  simp

theorem stbOps_c1 (env : BuildEnv) (i : Nat) (e pe : MWEvent)
    (ne : Option MWEvent) (nr : Nat) (objN : List TName) (hi : i ≠ 0) :
    (stbOps env i e pe ne nr objN).flatMap (condContrib (initName i))
      = [condVarEq "round" i] ∧
    (stbOps env i e pe ne nr objN).flatMap (effContrib (incName i))
      = [BEffect.changeVar "round" 1 .add] := by
  constructor
  · rw [stbOps]
    simp only [List.append_assoc, List.flatMap_append]
    rw [rtsOps_init_conds i e pe ne nr objN hi]
    simp [List.flatMap_assoc, condContrib, initName, hi, beginName,
      cleanupName, incName, p1WinsName, p2WinsName, List.flatMap_eq_nil_iff]
  · rw [stbOps]
    simp only [List.append_assoc, List.flatMap_append]
    rw [rtsOps_inc_effs i e pe ne nr objN hi]
    simp [List.flatMap_assoc, effContrib, initName, hi, beginName,
      cleanupName, incName, p1WinsName, p2WinsName, List.flatMap_eq_nil_iff]

theorem stbOps_acts (env : BuildEnv) (i : Nat) (e pe : MWEvent)
    (ne : Option MWEvent) (nr : Nat) (objN : List TName)
    (hobj : ∀ o ∈ objN, o ≠ TName.tiebreakerInit) :
    ((stbOps env i e pe ne nr objN).flatMap actContrib).countP
      (fun pr => pr.2 = TName.tiebreakerInit) = 0 := by
  apply countP_acts_eq_zero
  intro s t hmem
  simp only [decide_eq_false_iff_not]
  intro hte
  subst hte
  rw [stbOps] at hmem
  simp only [List.append_assoc, List.mem_append] at hmem
  rcases hmem with h | h
  · rcases rtsOps_act_tgt i e pe ne nr objN s _ h with
      h | h | h | h | h | h | h | h <;>
      first
        | (exact hobj _ h rfl)
        | simp [beginName, cleanupName, incName] at h
  · simp [createUnitSequenceOps, beginName, cleanupName, incName,
      p1WinsName, p2WinsName, initName] at h

theorem addFightOps_c1 (i : Nat) (e pe : MWEvent) (ne : Option MWEvent)
    (nr : Nat) (objN : List TName) (f : FightR) (hi : i ≠ 0) :
    (addFightOps i e pe ne nr objN f).flatMap (condContrib (initName i))
      = [condVarEq "round" i] ∧
    (addFightOps i e pe ne nr objN f).flatMap (effContrib (incName i))
      = [BEffect.changeVar "round" 1 .add] := by
  constructor
  · rw [addFightOps]
    simp only [List.append_assoc, List.flatMap_append]
    rw [rtsOps_init_conds i e pe ne nr objN hi]
    simp [List.flatMap_assoc, fightUnitsOps, createUnitSequenceOps,
      condContrib, initName, hi, beginName, cleanupName, incName,
      p1WinsName, p2WinsName, List.flatMap_eq_nil_iff, List.flatMap_append]
  · rw [addFightOps]
    simp only [List.append_assoc, List.flatMap_append]
    rw [rtsOps_inc_effs i e pe ne nr objN hi]
    simp [List.flatMap_assoc, fightUnitsOps, createUnitSequenceOps,
      effContrib, initName, hi, beginName, cleanupName, incName,
      p1WinsName, p2WinsName, List.flatMap_eq_nil_iff, List.flatMap_append]

theorem addFightOps_acts (i : Nat) (e pe : MWEvent) (ne : Option MWEvent)
    (nr : Nat) (objN : List TName) (f : FightR)
    (hobj : ∀ o ∈ objN, o ≠ TName.tiebreakerInit) :
    ((addFightOps i e pe ne nr objN f).flatMap actContrib).countP
      (fun pr => pr.2 = TName.tiebreakerInit) = 0 := by
  apply countP_acts_eq_zero
  intro s t hmem
  simp only [decide_eq_false_iff_not]
  intro hte
  subst hte
  rw [addFightOps] at hmem
  simp only [List.append_assoc, List.mem_append] at hmem
  rcases hmem with h | h
  · rcases rtsOps_act_tgt i e pe ne nr objN s _ h with
      h | h | h | h | h | h | h | h <;>
      first
        | (exact hobj _ h rfl)
        | simp [beginName, cleanupName, incName] at h
  · simp [fightUnitsOps, createUnitSequenceOps, beginName, cleanupName,
      incName, p1WinsName, p2WinsName, initName] at h

theorem galleyOps_c1 (env : BuildEnv) (i : Nat) (e pe : MWEvent)
    (ne : Option MWEvent) (nr : Nat) (objN : List TName) (hi : i ≠ 0) :
    (galleyOps env i e pe ne nr objN).flatMap (condContrib (initName i))
      = [condVarEq "round" i] ∧
    (galleyOps env i e pe ne nr objN).flatMap (effContrib (incName i))
      = [BEffect.changeVar "round" 1 .add] := by
  constructor
  · rw [galleyOps]
    simp only [List.append_assoc, List.flatMap_append]
    rw [rtsOps_init_conds i e pe ne nr objN hi]
    simp [List.flatMap_assoc, createUnitSequenceOps,
      condContrib, initName, hi, beginName, cleanupName, incName,
      p1WinsName, p2WinsName, List.flatMap_eq_nil_iff, List.flatMap_append]
  · rw [galleyOps]
    simp only [List.append_assoc, List.flatMap_append]
    rw [rtsOps_inc_effs i e pe ne nr objN hi]
    simp [List.flatMap_assoc, createUnitSequenceOps,
      effContrib, initName, hi, beginName, cleanupName, incName,
      p1WinsName, p2WinsName, List.flatMap_eq_nil_iff, List.flatMap_append]

theorem galleyOps_acts (env : BuildEnv) (i : Nat) (e pe : MWEvent)
    (ne : Option MWEvent) (nr : Nat) (objN : List TName)
    (hobj : ∀ o ∈ objN, o ≠ TName.tiebreakerInit) :
    ((galleyOps env i e pe ne nr objN).flatMap actContrib).countP
      (fun pr => pr.2 = TName.tiebreakerInit) = 0 := by
  apply countP_acts_eq_zero
  intro s t hmem
  simp only [decide_eq_false_iff_not]
  intro hte
  subst hte
  rw [galleyOps] at hmem
  simp only [List.append_assoc, List.mem_append] at hmem
  rcases hmem with h | h
  · rcases rtsOps_act_tgt i e pe ne nr objN s _ h with
      h | h | h | h | h | h | h | h <;>
      first
        | (exact hobj _ h rfl)
        | simp [beginName, cleanupName, incName] at h
  · simp [createUnitSequenceOps, beginName, cleanupName, incName,
      p1WinsName, p2WinsName, initName] at h

theorem regicideOps_c1 (env : BuildEnv) (i : Nat) (e pe : MWEvent)
    (ne : Option MWEvent) (nr : Nat) (objN : List TName) (hi : i ≠ 0) :
    (regicideOps env i e pe ne nr objN).flatMap (condContrib (initName i))
      = [condVarEq "round" i] ∧
    (regicideOps env i e pe ne nr objN).flatMap (effContrib (incName i))
      = [BEffect.changeVar "round" 1 .add] := by
  constructor
  · rw [regicideOps]
    simp only [List.append_assoc, List.flatMap_append]
    rw [rtsOps_init_conds i e pe ne nr objN hi]
    simp [List.flatMap_assoc, createUnitSequenceOps, regicidePlayerOps,
      apply_ite (fun l : List BOp =>
        l.flatMap (condContrib (TName.ri RName.roundInit i))),
      condContrib, initName, hi, beginName, cleanupName, incName,
      p1WinsName, p2WinsName, List.flatMap_eq_nil_iff, List.flatMap_append]
  · rw [regicideOps]
    simp only [List.append_assoc, List.flatMap_append]
    rw [rtsOps_inc_effs i e pe ne nr objN hi]
    simp [List.flatMap_assoc, createUnitSequenceOps, regicidePlayerOps,
      apply_ite (fun l : List BOp =>
        l.flatMap (effContrib (TName.ri RName.roundInc i))),
      effContrib, initName, hi, beginName, cleanupName, incName,
      p1WinsName, p2WinsName, List.flatMap_eq_nil_iff, List.flatMap_append]

theorem regicideOps_acts (env : BuildEnv) (i : Nat) (e pe : MWEvent)
    (ne : Option MWEvent) (nr : Nat) (objN : List TName)
    (hobj : ∀ o ∈ objN, o ≠ TName.tiebreakerInit) :
    ((regicideOps env i e pe ne nr objN).flatMap actContrib).countP
      (fun pr => pr.2 = TName.tiebreakerInit) = 0 := by
  apply countP_acts_eq_zero
  intro s t hmem
  simp only [decide_eq_false_iff_not]
  intro hte
  subst hte
  rw [regicideOps] at hmem
  simp only [List.append_assoc, List.mem_append] at hmem
  rcases hmem with h | h
  · rcases rtsOps_act_tgt i e pe ne nr objN s _ h with
      h | h | h | h | h | h | h | h <;>
      first
        | (exact hobj _ h rfl)
        | simp [beginName, cleanupName, incName] at h
  · simp [createUnitSequenceOps, regicidePlayerOps, beginName, cleanupName,
      incName, p1WinsName, p2WinsName, initName] at h

theorem count_acts_eq_zero (ops : List BOp) (d : TName × TName)
    (h : ∀ s t, BOp.activate s t ∈ ops → (s, t) ≠ d) :
    (ops.flatMap actContrib).count d = 0 := by
  rw [List.count_eq_zero]
  intro hmem
  obtain ⟨op, hop, hc⟩ := List.mem_flatMap.mp hmem
  cases op with
  | activate s t =>
    simp only [actContrib, List.mem_singleton] at hc
    exact h s t hop hc.symm
  | addTrigger n en lo cs es => simp [actContrib] at hc
  | appendConds n cs => simp [actContrib] at hc
  | appendEffs n es => simp [actContrib] at hc
  | deactivate s t => simp [actContrib] at hc

theorem rtsOps_init_conds0 (e pe : MWEvent) (ne : Option MWEvent)
    (nr : Nat) (objN : List TName) :
    (rtsOps 0 e pe ne nr objN).flatMap (condContrib (initName 0)) = [] := by
  rw [rtsOps]
  simp [List.flatMap_append,
    apply_ite (fun l : List BOp => l.flatMap (condContrib TName.tiebreakerInit)),
    condContrib, initName, beginName, cleanupName, incName,
    p1WinsName, p2WinsName]

theorem rtsOps_inc_effs0 (e pe : MWEvent) (ne : Option MWEvent)
    (nr : Nat) (objN : List TName) :
    (rtsOps 0 e pe ne nr objN).flatMap (effContrib (incName 0)) = [] := by
  rw [rtsOps]
  simp [List.flatMap_append,
    apply_ite (fun l : List BOp => l.flatMap (effContrib (TName.ri RName.roundInc 0))),
    effContrib, initName, beginName, cleanupName, incName,
    p1WinsName, p2WinsName]

theorem addFightOps_c1_zero (e pe : MWEvent) (ne : Option MWEvent)
    (nr : Nat) (objN : List TName) (f : FightR) :
    (addFightOps 0 e pe ne nr objN f).flatMap (condContrib (initName 0)) = [] ∧
    (addFightOps 0 e pe ne nr objN f).flatMap (effContrib (incName 0)) = [] := by
  constructor
  · rw [addFightOps]
    simp only [List.append_assoc, List.flatMap_append]
    rw [rtsOps_init_conds0 e pe ne nr objN]
    simp [List.flatMap_assoc, fightUnitsOps, createUnitSequenceOps,
      condContrib, initName, beginName, cleanupName, incName,
      p1WinsName, p2WinsName, List.flatMap_eq_nil_iff, List.flatMap_append]
  · rw [addFightOps]
    simp only [List.append_assoc, List.flatMap_append]
    rw [rtsOps_inc_effs0 e pe ne nr objN]
    simp [List.flatMap_assoc, fightUnitsOps, createUnitSequenceOps,
      effContrib, initName, beginName, cleanupName, incName,
      p1WinsName, p2WinsName, List.flatMap_eq_nil_iff, List.flatMap_append]

theorem rtsOps0_init_enabled (e pe : MWEvent) (ne : Option MWEvent)
    (nr : Nat) (objN : List TName) :
    firstEnabled (initName 0) (rtsOps 0 e pe ne nr objN) = some false := by
  rw [rtsOps]
  simp [firstEnabled, enabledContrib, initName]

theorem rtsOps0_checkWinner_act (e pe : MWEvent) (ne : Option MWEvent)
    (nr : Nat) (objN : List TName) :
    ((rtsOps 0 e pe ne nr objN).flatMap actContrib).count
      ((incName 0 : TName), TName.fixed GName.checkWinner) = 1 := by
  rw [rtsOps]
  have hmapA : (objN.map (fun o =>
      BOp.deactivate (TName.ri RName.roundCleanup 0) o)).flatMap
      actContrib = [] :=
    flatMap_map_nil _ _ _ (fun o => rfl)
  simp [List.append_assoc, List.flatMap_append, List.count_append, hmapA,
    apply_ite (fun l : List BOp => l.flatMap actContrib),
    apply_ite (fun l : List (TName × TName) =>
      List.count ((TName.ri RName.roundInc 0 : TName),
        TName.fixed GName.checkWinner) l),
    actContrib, initName, beginName, cleanupName, incName,
    p1WinsName, p2WinsName, List.count_cons]

theorem fightUnitsOps_cw_act_zero (i p : Nat) (ulst : List EUnit)
    (pts : List (String × Int)) :
    ((fightUnitsOps i p ulst pts).flatMap actContrib).count
      ((incName 0 : TName), TName.fixed GName.checkWinner) = 0 := by
  apply count_acts_eq_zero
  intro s t hmem heq
  rw [Prod.mk.injEq] at heq
  obtain ⟨hs, ht⟩ := heq
  subst hs; subst ht
  simp [fightUnitsOps, createUnitSequenceOps, beginName, incName] at hmem

theorem addFightOps0_checkWinner_act (e pe : MWEvent) (ne : Option MWEvent)
    (nr : Nat) (objN : List TName) (f : FightR) :
    ((addFightOps 0 e pe ne nr objN f).flatMap actContrib).count
      ((incName 0 : TName), TName.fixed GName.checkWinner) = 1 := by
  rw [addFightOps]
  simp only [List.append_assoc, List.flatMap_append, List.count_append]
  rw [rtsOps0_checkWinner_act e pe ne nr objN,
    fightUnitsOps_cw_act_zero 0 1 f.p1Units f.points,
    fightUnitsOps_cw_act_zero 0 2 f.p2Units f.points]
  simp [actContrib, List.count_cons, beginName, incName]

theorem victoryOps_tiebreaker_acts (n : Nat) :
    ((victoryOps n).flatMap actContrib).filter
        (fun pr => pr.2 = TName.tiebreakerInit)
      = [(TName.fixed GName.checkTie, TName.tiebreakerInit)] := by
  simp [victoryOps, actContrib, List.filter_cons]

theorem initSectionOps_no_acts : initSectionOps.flatMap actContrib = [] := by
  simp [initSectionOps, actContrib]

theorem objectivesPerEventOps_no_acts :
    ∀ (l : List (Nat × MWEvent)) (ops : List BOp),
      objectivesPerEventOps l = .ok ops → ops.flatMap actContrib = [] := by
  intro l
  induction l with
  | nil =>
    intro ops h
    simp only [objectivesPerEventOps, Except.ok.injEq] at h
    subst h
    rfl
  | cons pr rest ih =>
    obtain ⟨i, e⟩ := pr
    intro ops h
    rw [objectivesPerEventOps] at h
    by_cases hi : i = 0
    · rw [if_pos hi] at h
      exact ih ops h
    · rw [if_neg hi] at h
      cases het : eventObjectiveTriggers i e with
      | none => rw [het] at h; exact absurd h (by simp)
      | some l2 =>
        rw [het] at h
        cases hro : objectivesPerEventOps rest with
        | error err => rw [hro] at h; exact absurd h (by simp)
        | ok ops2 =>
          rw [hro] at h
          simp only [Except.ok.injEq] at h
          subst h
          rw [List.flatMap_append, ih ops2 hro,
            flatMap_map_nil _ _ _ (fun t => rfl)]
          rfl

theorem objectivesOps_no_acts (events : List MWEvent) (ops : List BOp)
    (h : objectivesOps events = .ok ops) :
    ops.flatMap actContrib = [] := by
  rw [objectivesOps] at h
  cases hpe : objectivesPerEventOps events.enum with
  | error e => rw [hpe] at h; exact absurd h (by simp)
  | ok ops2 =>
    rw [hpe] at h
    simp only [Except.ok.injEq] at h
    subst h
    rw [List.flatMap_append, objectivesPerEventOps_no_acts events.enum ops2 hpe]
    rfl

theorem roundObjectiveNames_no_tiebreaker (events : List MWEvent) :
    ∀ j : Nat, ∀ o ∈ ((roundObjectiveNames events).get? j).getD [],
      o ≠ TName.tiebreakerInit := by
  intro j o ho
  cases hg : (roundObjectiveNames events).get? j with
  | none => rw [hg] at ho; simp at ho
  | some l =>
    rw [hg] at ho
    simp only [Option.getD_some] at ho
    have hl : l ∈ roundObjectiveNames events := List.get?_mem hg
    simp only [roundObjectiveNames, List.mem_map] at hl
    obtain ⟨pr, _, hpr⟩ := hl
    subst hpr
    split_ifs at ho
    · simp at ho
    · cases het : eventObjectiveTriggers pr.1 pr.2 with
      | none => rw [het] at ho; simp at ho
      | some l2 =>
        rw [het] at ho
        simp only [List.mem_map] at ho
        obtain ⟨t, htl, hto⟩ := ho
        subst hto
        cases he : pr.2 with
        | fight g =>
          rw [he] at het
          simp only [eventObjectiveTriggers, Option.some.injEq] at het
          subst het
          simp at htl
          rw [htl]
          simp
        | minigame n =>
          rw [he] at het
          simp only [eventObjectiveTriggers] at het
          split_ifs at het <;>
            simp only [Option.some.injEq] at het <;>
            subst het <;>
            simp at htl <;>
            rcases htl with rfl | rfl | rfl | rfl <;> simp

/-! ### Claim C1: round sequencing via the shared round counter -/

/-- **C1**: round sequencing is driven by the shared `round` variable.  For
every compiling round at index `i ≥ 1` (any event variant whose compiler
finishes), the ops contribute to the round Init trigger exactly the single
condition `round == i` and to the Advance (increment) trigger exactly the
single effect `round += 1`, and no declared activate edge targets the
tiebreaker Init.  The tiebreaker round (index 0) creates its Init with
`enabled = false` and no condition, gives its Advance trigger no effect
(in particular no counter increment) and exactly one activate edge to the
check-winner trigger.  Among the victory ops exactly one activate edge
targets the tiebreaker Init — from the scores-tied branch `check tie` —
and the initialization and objectives sections declare no activate edge
at all, while the round-objective table never names the tiebreaker Init:
so along a walk of the counter 1, 2, ... each value `v` enables exactly
the round-`v` Init among the round triggers, and the tiebreaker Init is
reachable only through the tie branch.  The final conjuncts bridge the
contribution sums to the emitted trigger fields. -/
theorem round_counter_wiring (env : BuildEnv) (events : List MWEvent)
    (numRounds : Nat) (robj : List (List TName)) (i : Nat) (hi : i ≠ 0)
    (hobj : ∀ j : Nat, ∀ o ∈ (robj.get? j).getD [],
      o ≠ TName.tiebreakerInit) :
    (∀ e ops tr, roundOps env events numRounds robj i e = .ok (ops, tr) →
      tr = none →
      ops.flatMap (condContrib (initName i)) = [condVarEq "round" i] ∧
      ops.flatMap (effContrib (incName i))
        = [BEffect.changeVar "round" 1 .add] ∧
      (ops.flatMap actContrib).countP
        (fun pr => pr.2 = TName.tiebreakerInit) = 0) ∧
    (∀ f ops tr, roundOps env events numRounds robj 0 (.fight f)
        = .ok (ops, tr) →
      ops.flatMap (condContrib (initName 0)) = [] ∧
      firstEnabled (initName 0) ops = some false ∧
      ops.flatMap (effContrib (incName 0)) = [] ∧
      (ops.flatMap actContrib).count
        ((incName 0 : TName), TName.fixed GName.checkWinner) = 1 ∧
      (ops.flatMap actContrib).countP
        (fun pr => pr.2 = TName.tiebreakerInit) = 0) ∧
    ((victoryOps numRounds).flatMap actContrib).filter
        (fun pr => pr.2 = TName.tiebreakerInit)
      = [(TName.fixed GName.checkTie, TName.tiebreakerInit)] ∧
    initSectionOps.flatMap actContrib = [] ∧
    (∀ objOps, objectivesOps events = .ok objOps →
      objOps.flatMap actContrib = []) ∧
    (∀ j : Nat, ∀ o ∈ ((roundObjectiveNames events).get? j).getD [],
      o ≠ TName.tiebreakerInit) ∧
    (∀ (ops : List BOp) (st st₁ : ScnState) (nm : TName),
      runOps ops st = .ok st₁ →
      st₁.condsOf nm = st.condsOf nm ++ ops.flatMap (condContrib nm)) ∧
    (∀ (ops : List BOp) (st st₁ : ScnState) (nm : TName),
      runOps ops st = .ok st₁ →
      st₁.effsOf nm = st.effsOf nm ++ ops.flatMap (effContrib nm)) ∧
    (∀ (ops : List BOp) (st st₁ : ScnState),
      runOps ops st = .ok st₁ →
      st₁.activates = st.activates ++ ops.flatMap actContrib) := by
  refine ⟨?_, ?_, victoryOps_tiebreaker_acts numRounds, initSectionOps_no_acts,
    fun objOps h => objectivesOps_no_acts events objOps h,
    roundObjectiveNames_no_tiebreaker events,
    fun ops st st₁ nm h => runOps_condsOf ops st st₁ nm h,
    fun ops st st₁ nm h => runOps_effsOf ops st st₁ nm h,
    fun ops st st₁ h => runOps_activates ops st st₁ h⟩
  · intro e ops tr h htr
    subst htr
    cases e with
    | fight f =>
      have hro : roundOps env events numRounds robj i (.fight f)
          = .ok ([BOp.addTrigger (.ri .headerFight i) false false [] []]
            ++ addFightOps i (.fight f) (prevEvent events i)
              (events.get? (i + 1)) numRounds ((robj.get? i).getD []) f,
            none) := by
        simp [roundOps, hi]
      rw [hro, Except.ok.injEq, Prod.mk.injEq] at h
      obtain ⟨hops, -⟩ := h
      subst hops
      refine ⟨?_, ?_, ?_⟩
      · rw [List.flatMap_append,
          show ([BOp.addTrigger (.ri .headerFight i) false false [] []]).flatMap
            (condContrib (initName i)) = [] from by simp [condContrib],
          List.nil_append]
        exact (addFightOps_c1 i (.fight f) (prevEvent events i)
          (events.get? (i + 1)) numRounds ((robj.get? i).getD []) f hi).1
      · rw [List.flatMap_append,
          show ([BOp.addTrigger (.ri .headerFight i) false false [] []]).flatMap
            (effContrib (incName i)) = [] from by simp [effContrib],
          List.nil_append]
        exact (addFightOps_c1 i (.fight f) (prevEvent events i)
          (events.get? (i + 1)) numRounds ((robj.get? i).getD []) f hi).2
      · rw [List.flatMap_append, List.countP_append,
          show ([BOp.addTrigger (.ri .headerFight i) false false [] []]).flatMap
            actContrib = [] from rfl]
        simp only [List.countP_nil, Nat.zero_add]
        exact addFightOps_acts i (.fight f) (prevEvent events i)
          (events.get? (i + 1)) numRounds ((robj.get? i).getD []) f (hobj i)
    | minigame n =>
      simp only [roundOps, if_neg hi] at h
      split_ifs at h with h1 h2 h3 h4 h5 h6 h7 h8 <;>
        simp only [Except.ok.injEq, Prod.mk.injEq, reduceCtorEq,
          and_false, false_and] at h
      · obtain ⟨hops, -⟩ := h
        subst hops
        refine ⟨?_, ?_, ?_⟩
        · rw [List.flatMap_append,
            show ([BOp.addTrigger (.ri .headerMinigame i) false false [] []]).flatMap
              (condContrib (initName i)) = [] from by simp [condContrib],
            List.nil_append]
          exact (stbOps_c1 env i (.minigame n) (prevEvent events i)
            (events.get? (i + 1)) numRounds ((robj.get? i).getD []) hi).1
        · rw [List.flatMap_append,
            show ([BOp.addTrigger (.ri .headerMinigame i) false false [] []]).flatMap
              (effContrib (incName i)) = [] from by simp [effContrib],
            List.nil_append]
          exact (stbOps_c1 env i (.minigame n) (prevEvent events i)
            (events.get? (i + 1)) numRounds ((robj.get? i).getD []) hi).2
        · rw [List.flatMap_append, List.countP_append,
            show ([BOp.addTrigger (.ri .headerMinigame i) false false [] []]).flatMap
              actContrib = [] from rfl]
          simp only [List.countP_nil, Nat.zero_add]
          exact stbOps_acts env i (.minigame n) (prevEvent events i)
            (events.get? (i + 1)) numRounds ((robj.get? i).getD []) (hobj i)
      · obtain ⟨hops, -⟩ := h
        subst hops
        refine ⟨?_, ?_, ?_⟩
        · rw [List.flatMap_append,
            show ([BOp.addTrigger (.ri .headerMinigame i) false false [] []]).flatMap
              (condContrib (initName i)) = [] from by simp [condContrib],
            List.nil_append]
          exact (galleyOps_c1 env i (.minigame n) (prevEvent events i)
            (events.get? (i + 1)) numRounds ((robj.get? i).getD []) hi).1
        · rw [List.flatMap_append,
            show ([BOp.addTrigger (.ri .headerMinigame i) false false [] []]).flatMap
              (effContrib (incName i)) = [] from by simp [effContrib],
            List.nil_append]
          exact (galleyOps_c1 env i (.minigame n) (prevEvent events i)
            (events.get? (i + 1)) numRounds ((robj.get? i).getD []) hi).2
        · rw [List.flatMap_append, List.countP_append,
            show ([BOp.addTrigger (.ri .headerMinigame i) false false [] []]).flatMap
              actContrib = [] from rfl]
          simp only [List.countP_nil, Nat.zero_add]
          exact galleyOps_acts env i (.minigame n) (prevEvent events i)
            (events.get? (i + 1)) numRounds ((robj.get? i).getD []) (hobj i)
      · obtain ⟨hops, -⟩ := h
        subst hops
        refine ⟨?_, ?_, ?_⟩
        · rw [List.flatMap_append,
            show ([BOp.addTrigger (.ri .headerMinigame i) false false [] []]).flatMap
              (condContrib (initName i)) = [] from by simp [condContrib],
            List.nil_append]
          exact (regicideOps_c1 env i (.minigame n) (prevEvent events i)
            (events.get? (i + 1)) numRounds ((robj.get? i).getD []) hi).1
        · rw [List.flatMap_append,
            show ([BOp.addTrigger (.ri .headerMinigame i) false false [] []]).flatMap
              (effContrib (incName i)) = [] from by simp [effContrib],
            List.nil_append]
          exact (regicideOps_c1 env i (.minigame n) (prevEvent events i)
            (events.get? (i + 1)) numRounds ((robj.get? i).getD []) hi).2
        · rw [List.flatMap_append, List.countP_append,
            show ([BOp.addTrigger (.ri .headerMinigame i) false false [] []]).flatMap
              actContrib = [] from rfl]
          simp only [List.countP_nil, Nat.zero_add]
          exact regicideOps_acts env i (.minigame n) (prevEvent events i)
            (events.get? (i + 1)) numRounds ((robj.get? i).getD []) (hobj i)
  · intro f ops tr h
    have hro : roundOps env events numRounds robj 0 (.fight f)
        = .ok ([BOp.addTrigger (.fixed .headerTiebreaker) false false [] []]
          ++ addFightOps 0 (.fight f) (prevEvent events 0)
            (events.get? 1) numRounds ((robj.get? 0).getD []) f,
          none) := by
      simp [roundOps]
    rw [hro, Except.ok.injEq, Prod.mk.injEq] at h
    obtain ⟨hops, -⟩ := h
    subst hops
    refine ⟨?_, ?_, ?_, ?_, ?_⟩
    · rw [List.flatMap_append,
        show ([BOp.addTrigger (.fixed .headerTiebreaker) false false [] []]).flatMap
          (condContrib (initName 0)) = [] from by simp [condContrib],
        List.nil_append]
      exact (addFightOps_c1_zero (.fight f) (prevEvent events 0)
        (events.get? 1) numRounds ((robj.get? 0).getD []) f).1
    · rw [List.singleton_append,
        firstEnabled_cons_none _ _ _
          (by simp [enabledContrib, initName]),
        addFightOps]
      simp only [List.append_assoc]
      exact firstEnabled_append_some _ _ _ _
        (rtsOps0_init_enabled (.fight f) (prevEvent events 0)
          (events.get? 1) numRounds ((robj.get? 0).getD []))
    · rw [List.flatMap_append,
        show ([BOp.addTrigger (.fixed .headerTiebreaker) false false [] []]).flatMap
          (effContrib (incName 0)) = [] from by simp [effContrib],
        List.nil_append]
      exact (addFightOps_c1_zero (.fight f) (prevEvent events 0)
        (events.get? 1) numRounds ((robj.get? 0).getD []) f).2
    · rw [List.flatMap_append, List.count_append,
        show ([BOp.addTrigger (.fixed .headerTiebreaker) false false [] []]).flatMap
          actContrib = [] from rfl]
      simp only [List.count_nil, Nat.zero_add]
      exact addFightOps0_checkWinner_act (.fight f) (prevEvent events 0)
        (events.get? 1) numRounds ((robj.get? 0).getD []) f
    · rw [List.flatMap_append, List.countP_append,
        show ([BOp.addTrigger (.fixed .headerTiebreaker) false false [] []]).flatMap
          actContrib = [] from rfl]
      simp only [List.countP_nil, Nat.zero_add]
      exact addFightOps_acts 0 (.fight f) (prevEvent events 0)
        (events.get? 1) numRounds ((robj.get? 0).getD []) f (hobj 0)

theorem round_counter_wiring_witness :
    (((1 : Nat) ≠ 0) ∧
     (∀ j : Nat, ∀ o ∈ (([] : List (List TName)).get? j).getD [],
       o ≠ TName.tiebreakerInit)) ∧
    ((∀ e ops tr, roundOps c2Env c2Events 1 [] 1 e = .ok (ops, tr) →
      tr = none →
      ops.flatMap (condContrib (initName 1)) = [condVarEq "round" 1] ∧
      ops.flatMap (effContrib (incName 1))
        = [BEffect.changeVar "round" 1 .add] ∧
      (ops.flatMap actContrib).countP
        (fun pr => pr.2 = TName.tiebreakerInit) = 0) ∧
    (∀ f ops tr, roundOps c2Env c2Events 1 [] 0 (.fight f)
        = .ok (ops, tr) →
      ops.flatMap (condContrib (initName 0)) = [] ∧
      firstEnabled (initName 0) ops = some false ∧
      ops.flatMap (effContrib (incName 0)) = [] ∧
      (ops.flatMap actContrib).count
        ((incName 0 : TName), TName.fixed GName.checkWinner) = 1 ∧
      (ops.flatMap actContrib).countP
        (fun pr => pr.2 = TName.tiebreakerInit) = 0) ∧
    ((victoryOps 1).flatMap actContrib).filter
        (fun pr => pr.2 = TName.tiebreakerInit)
      = [(TName.fixed GName.checkTie, TName.tiebreakerInit)] ∧
    initSectionOps.flatMap actContrib = [] ∧
    (∀ objOps, objectivesOps c2Events = .ok objOps →
      objOps.flatMap actContrib = []) ∧
    (∀ j : Nat, ∀ o ∈ ((roundObjectiveNames c2Events).get? j).getD [],
      o ≠ TName.tiebreakerInit) ∧
    (∀ (ops : List BOp) (st st₁ : ScnState) (nm : TName),
      runOps ops st = .ok st₁ →
      st₁.condsOf nm = st.condsOf nm ++ ops.flatMap (condContrib nm)) ∧
    (∀ (ops : List BOp) (st st₁ : ScnState) (nm : TName),
      runOps ops st = .ok st₁ →
      st₁.effsOf nm = st.effsOf nm ++ ops.flatMap (effContrib nm)) ∧
    (∀ (ops : List BOp) (st st₁ : ScnState),
      runOps ops st = .ok st₁ →
      st₁.activates = st.activates ++ ops.flatMap actContrib)) :=
  ⟨⟨by decide, by intro j o ho; simp at ho⟩,
   round_counter_wiring c2Env c2Events 1 [] 1 (by decide)
     (by intro j o ho; simp at ho)⟩

/-! ### Claim C9: the broken minigame compilers -/

theorem roundOps_tb_trailing (env : BuildEnv) (events : List MWEvent)
    (numRounds : Nat) (robj : List (List TName)) (i : Nat) :
    ∃ ops err,
      roundOps env events numRounds robj i (.minigame "Tower Battlefield")
        = .ok (ops, some err) := by
  by_cases hi : i = 0
  · subst hi
    exact ⟨[.addTrigger (.ri .headerMinigame 0) false false [] []],
      .assertionError, by simp [roundOps]⟩
  · exact ⟨[.addTrigger (.ri .headerMinigame i) false false [] []]
      ++ rtsOps i (.minigame "Tower Battlefield") (prevEvent events i)
           (events.get? (i + 1)) numRounds ((robj.get? i).getD []),
      .attributeError "ACC_ATTR_WOOD", by simp [roundOps, hi]⟩

theorem roundOps_ctr_trailing (env : BuildEnv) (events : List MWEvent)
    (numRounds : Nat) (robj : List (List TName)) (i : Nat) :
    ∃ ops err,
      roundOps env events numRounds robj i (.minigame "Capture the Relic")
        = .ok (ops, some err) := by
  by_cases hi : i = 0
  · subst hi
    exact ⟨[.addTrigger (.ri .headerMinigame 0) false false [] []],
      .assertionError, by simp [roundOps]⟩
  · exact ⟨[.addTrigger (.ri .headerMinigame i) false false [] []]
      ++ rtsOps i (.minigame "Capture the Relic") (prevEvent events i)
           (events.get? (i + 1)) numRounds ((robj.get? i).getD []),
      .attributeError "ACC_ATTR_GOLD", by simp [roundOps, hi]⟩

theorem runRound_not_ok_of_trailing (env : BuildEnv) (events : List MWEvent)
    (numRounds : Nat) (robj : List (List TName)) (i : Nat) (e : MWEvent)
    (st : ScnState) (ops : List BOp) (err : BErr)
    (h : roundOps env events numRounds robj i e = .ok (ops, some err)) :
    ∀ st₂, runRound env events numRounds robj i e st ≠ .ok st₂ := by
  intro st₂ hok
  simp only [runRound, h] at hok
  cases hr : runOps ops st with
  | error e₁ => rw [hr] at hok; exact absurd hok (by simp)
  | ok st₃ => rw [hr] at hok; exact absurd hok (by simp)

theorem runRounds_ok_forall (env : BuildEnv) (events : List MWEvent)
    (numRounds : Nat) (robj : List (List TName)) :
    ∀ (l : List (Nat × MWEvent)) (st st₁ : ScnState),
      runRounds env events numRounds robj l st = .ok st₁ →
      ∀ p ∈ l, ∃ st₂ st₃,
        runRound env events numRounds robj p.1 p.2 st₂ = .ok st₃ := by
  intro l
  induction l with
  | nil => intro st st₁ _ p hp; exact absurd hp (by simp)
  | cons q rest ih =>
    obtain ⟨j, e⟩ := q
    intro st st₁ h p hp
    simp only [runRounds] at h
    cases hr : runRound env events numRounds robj j e st with
    | error e₁ => rw [hr] at h; exact absurd h (by simp)
    | ok st₂ =>
      rw [hr] at h
      rcases List.mem_cons.mp hp with hq | hrest
      · subst hq; exact ⟨st, st₂, hr⟩
      · exact ih st₂ st₁ h p hrest

theorem mem_enumFrom_of_mem {α : Type} (a : α) :
    ∀ (l : List α) (n : Nat), a ∈ l → ∃ i, (i, a) ∈ l.enumFrom n := by
  intro l
  induction l with
  | nil => intro n h; exact absurd h (by simp)
  | cons b t ih =>
    intro n h
    rcases List.mem_cons.mp h with hb | ht
    · subst hb; exact ⟨n, by simp [List.enumFrom]⟩
    · obtain ⟨i, hi⟩ := ih (n + 1) ht
      refine ⟨i, ?_⟩
      simp only [List.enumFrom, List.mem_cons]
      exact Or.inr hi

theorem setupScenario_ok_rounds (env : BuildEnv) (events : List MWEvent)
    (st₁ : ScnState) (h : setupScenario env events = .ok st₁) :
    ∃ st₀ st₂,
      runRounds env events (events.length - 1) (roundObjectiveNames events)
        events.enum st₀ = .ok st₂ := by
  simp only [setupScenario] at h
  cases ho : objectivesOps events with
  | error e => simp only [ho] at h; exact absurd h (by simp)
  | ok objOps =>
    simp only [ho] at h
    cases hr : runOps (initSectionOps ++ objOps
        ++ victoryOps (events.length - 1)) .empty with
    | error e => simp only [hr] at h; exact absurd h (by simp)
    | ok st₀ =>
      simp only [hr] at h
      cases hrr : runRounds env events (events.length - 1)
          (roundObjectiveNames events) events.enum st₀ with
      | error e => simp only [hrr] at h; exact absurd h (by simp)
      | ok st₂ => exact ⟨st₀, st₂, hrr⟩

/-- **C9**: for every event list containing the Tower Battlefield or the
Capture the Relic minigame, `setup_scenario` never emits a scenario; the
compilers of those minigames read the attributes `ACC_ATTR_WOOD` (first of
the `ACC_ATTR_WOOD`/`ACC_ATTR_FOOD`/`ACC_ATTR_GOLD` tuple) respectively
`ACC_ATTR_GOLD` of `util_triggers`, which defines only `ACC_ATTR_STONE`
and `ACC_ATTR_POP_HEADROOM`, so once the round prologue built by
`_RoundTriggers` succeeds the round raises exactly that uncaught
`AttributeError`. -/
theorem tb_ctr_raise_attribute_error (env : BuildEnv) (events : List MWEvent)
    (numRounds : Nat) (robj : List (List TName)) (i : Nat) (st : ScnState)
    (h : MWEvent.minigame "Tower Battlefield" ∈ events ∨
         MWEvent.minigame "Capture the Relic" ∈ events) (hi : i ≠ 0) :
    (∀ st₁, setupScenario env events ≠ .ok st₁) ∧
    (∃ ops,
      roundOps env events numRounds robj i (.minigame "Tower Battlefield")
        = .ok (ops, some (.attributeError "ACC_ATTR_WOOD")) ∧
      ∀ st₂, runOps ops st = .ok st₂ →
        runRound env events numRounds robj i
          (.minigame "Tower Battlefield") st
          = .error (.attributeError "ACC_ATTR_WOOD")) ∧
    (∃ ops,
      roundOps env events numRounds robj i (.minigame "Capture the Relic")
        = .ok (ops, some (.attributeError "ACC_ATTR_GOLD")) ∧
      ∀ st₂, runOps ops st = .ok st₂ →
        runRound env events numRounds robj i
          (.minigame "Capture the Relic") st
          = .error (.attributeError "ACC_ATTR_GOLD")) := by
  refine ⟨?_, ?_, ?_⟩
  · intro st₁ hok
    obtain ⟨st₀, st₂, hrr⟩ := setupScenario_ok_rounds env events st₁ hok
    rcases h with htb | hctr
    · obtain ⟨j, hj⟩ := mem_enumFrom_of_mem _ events 0 htb
      obtain ⟨st₃, st₄, hr⟩ :=
        runRounds_ok_forall env events (events.length - 1)
          (roundObjectiveNames events) events.enum st₀ st₂ hrr (j, _) hj
      obtain ⟨ops, err, hto⟩ :=
        roundOps_tb_trailing env events (events.length - 1)
          (roundObjectiveNames events) j
      exact runRound_not_ok_of_trailing env events (events.length - 1)
        (roundObjectiveNames events) j _ st₃ ops err hto st₄ hr
    · obtain ⟨j, hj⟩ := mem_enumFrom_of_mem _ events 0 hctr
      obtain ⟨st₃, st₄, hr⟩ :=
        runRounds_ok_forall env events (events.length - 1)
          (roundObjectiveNames events) events.enum st₀ st₂ hrr (j, _) hj
      obtain ⟨ops, err, hto⟩ :=
        roundOps_ctr_trailing env events (events.length - 1)
          (roundObjectiveNames events) j
      exact runRound_not_ok_of_trailing env events (events.length - 1)
        (roundObjectiveNames events) j _ st₃ ops err hto st₄ hr
  · refine ⟨[.addTrigger (.ri .headerMinigame i) false false [] []]
      ++ rtsOps i (.minigame "Tower Battlefield") (prevEvent events i)
           (events.get? (i + 1)) numRounds ((robj.get? i).getD []),
      by simp [roundOps, hi], ?_⟩
    intro st₂ hr
    simp only [runRound]
    rw [show roundOps env events numRounds robj i
        (.minigame "Tower Battlefield")
        = .ok ([.addTrigger (.ri .headerMinigame i) false false [] []]
          ++ rtsOps i (.minigame "Tower Battlefield") (prevEvent events i)
               (events.get? (i + 1)) numRounds ((robj.get? i).getD []),
          some (.attributeError "ACC_ATTR_WOOD")) from by simp [roundOps, hi]]
    simp only [hr]
  · refine ⟨[.addTrigger (.ri .headerMinigame i) false false [] []]
      ++ rtsOps i (.minigame "Capture the Relic") (prevEvent events i)
           (events.get? (i + 1)) numRounds ((robj.get? i).getD []),
      by simp [roundOps, hi], ?_⟩
    intro st₂ hr
    simp only [runRound]
    rw [show roundOps env events numRounds robj i
        (.minigame "Capture the Relic")
        = .ok ([.addTrigger (.ri .headerMinigame i) false false [] []]
          ++ rtsOps i (.minigame "Capture the Relic") (prevEvent events i)
               (events.get? (i + 1)) numRounds ((robj.get? i).getD []),
          some (.attributeError "ACC_ATTR_GOLD")) from by simp [roundOps, hi]]
    simp only [hr]

theorem tb_ctr_raise_attribute_error_witness :
    ((MWEvent.minigame "Tower Battlefield" ∈ c9Events ∨
      MWEvent.minigame "Capture the Relic" ∈ c9Events) ∧ (1 : Nat) ≠ 0) ∧
    ((∀ st₁, setupScenario c9Env c9Events ≠ .ok st₁) ∧
     (∃ ops,
       roundOps c9Env c9Events 1 [] 1 (.minigame "Tower Battlefield")
         = .ok (ops, some (.attributeError "ACC_ATTR_WOOD")) ∧
       ∀ st₂, runOps ops ScnState.empty = .ok st₂ →
         runRound c9Env c9Events 1 [] 1
           (.minigame "Tower Battlefield") ScnState.empty
           = .error (.attributeError "ACC_ATTR_WOOD")) ∧
     (∃ ops,
       roundOps c9Env c9Events 1 [] 1 (.minigame "Capture the Relic")
         = .ok (ops, some (.attributeError "ACC_ATTR_GOLD")) ∧
       ∀ st₂, runOps ops ScnState.empty = .ok st₂ →
         runRound c9Env c9Events 1 [] 1
           (.minigame "Capture the Relic") ScnState.empty
           = .error (.attributeError "ACC_ATTR_GOLD"))) :=
  ⟨⟨by decide, by decide⟩,
   tb_ctr_raise_attribute_error c9Env c9Events 1 [] 1 ScnState.empty
     (by decide) (by decide)⟩

/-! ### Claim C10: army swapping in `make_fights` -/

/-- **C10 (counterexample)**: the second fight's player-1 unit list is not
a plain copy of the first fight's player-2 unit list: the deep copies are
taken before centering, and the second fight's units are positioned by the
mirrored centering (`center_units_flip`) with the opposite offset sign, so
the unit records differ in position (here `(128, 113)` versus
`(114, 127)`), and symmetrically for the other list.  The armies do swap
at the unit-type level. -/
theorem make_fights_swap_counterexample :
    c10Out = .ok [.fight c10f1, .fight c10f2] ∧
    c10f2.p1Units ≠ c10f1.p2Units ∧
    c10f2.p2Units ≠ c10f1.p1Units := by
  refine ⟨by decide, by decide, by decide⟩

/-- **C10 (amended)**: a `FightData` whose fight square contains units for
both players produces exactly two consecutive Fight events; the second
event's player-1 unit list consists of copies of the same source units as
the first event's player-2 unit list — repositioned by the mirrored
centering with the opposite offset sign rather than kept identical — and
vice versa, so the players swap armies exactly at the unit-type level.  A
`FightData` whose square contains units only for player 1 produces exactly
one Fight whose player-2 unit list is a mirrored copy of player 1's
list. -/
theorem make_fights_army_swap (fd : FightData) (p1T p2T : List EUnit)
    (center : ℚ × ℚ) (offset : Int) (out : List MWEvent) :
    (p2T ≠ [] → processFightData fd p1T p2T center offset = .ok out →
      ∃ f1 f2, out = [.fight f1, .fight f2] ∧
        f1.p1Units = centerUnits p1T center offset ∧
        f1.p2Units = centerUnits p2T center (-offset) ∧
        f2.p1Units = centerUnitsFlip p2T center (-offset) ∧
        f2.p2Units = centerUnitsFlip p1T center offset ∧
        f2.p1Units.map (fun u => (u.unitId, u.uname)) =
          f1.p2Units.map (fun u => (u.unitId, u.uname)) ∧
        f2.p2Units.map (fun u => (u.unitId, u.uname)) =
          f1.p1Units.map (fun u => (u.unitId, u.uname))) ∧
    (p2T = [] → processFightData fd p1T p2T center offset = .ok out →
      ∃ f, out = [.fight f] ∧
        f.p1Units = centerUnits p1T center offset ∧
        f.p2Units = centerUnitsFlip p1T center offset ∧
        f.p2Units.map (fun u => (u.unitId, u.uname)) =
          f.p1Units.map (fun u => (u.unitId, u.uname))) ∧
    (∀ (p1All p2All : List EUnit) (k : Nat) (seen : List String)
        (rest : List EventInput) (outL : List MWEvent),
      makeFightsLoop p1All p2All center offset k seen (.fightData fd :: rest)
        = .ok outL →
      ∃ here evs,
        processFightData fd (tileUnits p1All k) (tileUnits p2All k)
          center offset = .ok here ∧
        outL = here ++ evs) := by
  refine ⟨?_, ?_, ?_⟩
  · intro hne h
    unfold processFightData at h
    rw [if_neg hne] at h
    cases hf1 : fightInit fd (centerUnits p1T center offset)
        (centerUnits p2T center (-offset)) with
    | error e => simp only [hf1, bind, Except.bind] at h; exact absurd h (by simp)
    | ok f1 =>
      cases hf2 : fightInit fd (centerUnitsFlip p2T center (-offset))
          (centerUnitsFlip p1T center offset) with
      | error e =>
        simp only [hf1, hf2, bind, Except.bind] at h
        exact absurd h (by simp)
      | ok f2 =>
        simp only [hf1, hf2, bind, Except.bind, Except.ok.injEq] at h
        obtain ⟨_, _, hu11, hu12⟩ := fightInit_ok_fields _ _ _ _ hf1
        obtain ⟨_, _, hu21, hu22⟩ := fightInit_ok_fields _ _ _ _ hf2
        refine ⟨f1, f2, h.symm, hu11, hu12, hu21, hu22, ?_, ?_⟩
        · rw [hu21, hu12, centerUnitsFlip_idFields, centerUnits_idFields]
        · rw [hu22, hu11, centerUnitsFlip_idFields, centerUnits_idFields]
  · intro hemp h
    unfold processFightData at h
    rw [if_pos hemp] at h
    cases hf : fightInit fd (centerUnits p1T center offset)
        (centerUnitsFlip p1T center offset) with
    | error e => simp only [hf, bind, Except.bind] at h; exact absurd h (by simp)
    | ok f =>
      simp only [hf, bind, Except.bind, Except.ok.injEq] at h
      obtain ⟨_, _, hu1, hu2⟩ := fightInit_ok_fields _ _ _ _ hf
      refine ⟨f, h.symm, hu1, hu2, ?_⟩
      rw [hu2, hu1, centerUnitsFlip_idFields, centerUnits_idFields]
  · intro p1All p2All k seen rest outL h
    rw [makeFightsLoop] at h
    by_cases hemp : tileUnits p1All k = []
    · rw [if_pos hemp] at h; exact absurd h (by simp)
    · rw [if_neg hemp] at h
      cases hp : processFightData fd (tileUnits p1All k) (tileUnits p2All k)
          center offset with
      | error e => simp only [hp, bind, Except.bind] at h; exact absurd h (by simp)
      | ok here =>
        simp only [hp, bind, Except.bind] at h
        cases hct : checkTechs fd.techs seen with
        | error e => simp only [hct, bind, Except.bind] at h; exact absurd h (by simp)
        | ok seen' =>
          simp only [hct, bind, Except.bind] at h
          cases hrest : makeFightsLoop p1All p2All center offset (k + 1)
              seen' rest with
          | error e =>
            simp only [hrest, bind, Except.bind] at h
            exact absurd h (by simp)
          | ok evs =>
            simp only [hrest, bind, Except.bind, Except.ok.injEq] at h
            exact ⟨here, evs, rfl, h.symm⟩

theorem make_fights_army_swap_witness :
    (([c10u2] : List EUnit) ≠ []) ∧
    processFightData c10fd [c10u1] [c10u2] (121, 120) 7
      = .ok [.fight c10f1, .fight c10f2] ∧
    (∃ f1 f2,
      ([MWEvent.fight c10f1, MWEvent.fight c10f2] : List MWEvent)
        = [.fight f1, .fight f2] ∧
      f1.p1Units = centerUnits [c10u1] (121, 120) 7 ∧
      f1.p2Units = centerUnits [c10u2] (121, 120) (-7) ∧
      f2.p1Units = centerUnitsFlip [c10u2] (121, 120) (-7) ∧
      f2.p2Units = centerUnitsFlip [c10u1] (121, 120) 7 ∧
      f2.p1Units.map (fun u => (u.unitId, u.uname)) =
        f1.p2Units.map (fun u => (u.unitId, u.uname)) ∧
      f2.p2Units.map (fun u => (u.unitId, u.uname)) =
        f1.p1Units.map (fun u => (u.unitId, u.uname))) :=
  ⟨by decide, by decide,
   (make_fights_army_swap c10fd [c10u1] [c10u2] (121, 120) 7
     [.fight c10f1, .fight c10f2]).1 (by decide) (by decide)⟩

end MicroWars
